import Mathlib

/-!
Dolphin folder view: the view-mode / state synchronisation core.

A shallow embedding of `dolphin/src/dolphinview.cpp` (class `DolphinView` and its
nested class `DolphinView::ViewAccessor`).  Every member function that is embedded
keeps its C++ name and follows the statements of the source in order.

Conventions of the embedding

* Objects that the class only talks to (Qt widgets, the selection model, the
  directory lister, the view-properties store) are records that hold exactly the
  part of their state the class reads or writes.
* A failed `Q_ASSERT`, or a call through a null pointer, makes the function
  return `none`.
* A `const T&` parameter that may alias a member is passed as a reference
  (`ItemListRef`) and read where the source reads it.
* Signals emitted by the view are appended to `emitted`; requests to the lister
  are appended to `openUrlCalls`; `deleteLater()` / `hide()` calls are appended
  to `qtCalls`.
* The directory lister is asynchronous: `openUrl` only records the request.  A
  changed listing is delivered by the event `listingChanged`, which also empties
  the selection models, and the signal `completed()` by `dirListerCompleted`.
-/

namespace Dolphin

/-! ## Locations -/

/-- A location (`KUrl`).  `empty` is `KUrl()`, `malformed` is a non-empty text that
does not parse, `path` is a valid location given by its path components and by
whether it was written with a trailing separator. -/
inductive KUrl
  | empty
  | malformed (text : String)
  | path (segments : List String) (trailingSlash : Bool)
  deriving DecidableEq, Repr

namespace KUrl

/-- Models `KUrl::isValid()`. -/
def isValid : KUrl → Bool
  | path _ _ => true
  | _ => false

/-- Models `KUrl::isEmpty()`. -/
def isEmpty : KUrl → Bool
  | empty => true
  | _ => false

/-- Models `KUrl::pathOrUrl()`. -/
def pathOrUrl : KUrl → String
  | empty => ""
  | malformed t => t
  | path segs ts => "/" ++ "/".intercalate segs ++ (if ts && !segs.isEmpty then "/" else "")

/-- Models `KUrl::upUrl()`: the parent directory, written with a trailing separator. -/
def upUrl : KUrl → KUrl
  | path segs _ => path segs.dropLast true
  | u => u

/-- Models `KUrl::fileName()` (a location written with a trailing separator has no file name). -/
def fileName : KUrl → String
  | path segs false => segs.getLast?.getD ""
  | _ => ""

/-- Models `KUrl::equals(u, KUrl::CompareWithoutTrailingSlash)`; invalid locations are
never equal to anything. -/
def equalsWithoutTrailingSlash : KUrl → KUrl → Bool
  | path a _, path b _ => decide (a = b)
  | _, _ => false

/-- Models `KUrl::isParentOf(u)`. -/
def isParentOf : KUrl → KUrl → Bool
  | path a _, path b _ => a.isPrefixOf b
  | _, _ => false

/-- Models `KUrl::setFileName(name)`: the last component of the path is replaced; a
location written with a trailing separator gets the name appended. -/
def setFileName (name : String) : KUrl → KUrl
  | path segs false => path (segs.dropLast ++ [name]) false
  | path segs true => path (segs ++ [name]) false
  | u => u

end KUrl

/-! ## Entries -/

/-- One directory entry (`KFileItem`); a null item is `none` of `Option KFileItem`. -/
structure KFileItem where
  url : KUrl
  isDir : Bool
  size : Nat
  deriving DecidableEq, Repr

/-- Models `KFileItem::name()`. -/
def KFileItem.name (item : KFileItem) : String := item.url.fileName

abbrev KFileItemList := List KFileItem

/-! ## Strings and lists (Qt) -/

/-- Models `QString::contains(QChar)`. -/
def QString.contains (c : Char) (s : String) : Bool := decide (c ∈ s.toList)

/-- Models `QString::replace(QChar before, const QString& after)`: every occurrence of
`before` is replaced by `after`. -/
def QString.replace (before : Char) (after : String) (s : String) : String :=
  String.mk (s.toList.flatMap (fun c => if c = before then after.toList else [c]))

/-- The decimal digits of `n`, most significant first; `fuel` bounds the number of
digits. -/
def decimalDigits : Nat → Nat → List Char
  | 0, _ => []
  | fuel + 1, n =>
    if n < 10 then [Nat.digitChar n]
    else decimalDigits fuel (n / 10) ++ [Nat.digitChar (n % 10)]

/-- Models `QString::setNum(n)` for a non-negative `n`: the decimal numeral of `n`. -/
def QString.setNum (n : Nat) : String := String.mk (decimalDigits (n + 1) n)

/-- The number a list of decimal digits stands for. -/
def decimalValue (digits : List Char) : Nat :=
  digits.foldl (fun acc c => acc * 10 + (c.toNat - 48)) 0

/-- Models `QList::indexOf(value)`: the position of the first occurrence, `-1` when
there is none. -/
def QList.indexOf {α : Type} [DecidableEq α] (value : α) (list : List α) : Int :=
  if value ∈ list then (list.indexOf value : Int) else -1

/-- Models `QList::removeAt(i)`. -/
def QList.removeAt {α : Type} (i : Int) (list : List α) : List α :=
  if 0 ≤ i then list.eraseIdx i.toNat else list

/-- Models `qSort(begin, end, lessThan)`: the items are rearranged into an order in
which no item is less than an earlier one.  Qt leaves the order of items that
compare equal open; here they keep the order they had. -/
def qSort {α : Type} (lessThan : α → α → Bool) (items : List α) : List α :=
  items.insertionSort (fun a b => lessThan b a = false)

/-- Models the helper `lessThan(item1, item2)` of `renameSelectedItems()`; `naturalCompare`
stands for `KStringHandler::naturalCompare` of the KDE libraries. -/
def lessThan (naturalCompare : String → String → Int) (item1 item2 : KFileItem) : Bool :=
  decide (naturalCompare item1.name item2.name < 0)

/-! ## Enumerations of the headers -/

/-- Models `DolphinView::Mode`. -/
inductive Mode
  | IconsView
  | DetailsView
  | ColumnView
  deriving DecidableEq, Repr

/-- Models `DolphinView::Sorting`. -/
inductive Sorting
  | SortByName
  | SortBySize
  | SortByDate
  | SortByPermissions
  | SortByOwner
  | SortByGroup
  | SortByType
  deriving DecidableEq, Repr

/-- Models `Qt::SortOrder`. -/
inductive SortOrder
  | AscendingOrder
  | DescendingOrder
  deriving DecidableEq, Repr

/-- Models `KFileItemDelegate::Information`. -/
inductive Information
  | NoInformation
  | Size
  | Permissions
  | OctalPermissions
  | Owner
  | OwnerAndGroup
  | CreationTime
  | ModificationTime
  | AccessTime
  | MimeType
  | FriendlyMimeType
  | LinkDest
  | LocalPathOrUrl
  | Comment
  deriving DecidableEq, Repr

abbrev InformationList := List Information

/-- Slots of `DolphinView` that are the target of a run-time `connect` or of a
queued invocation. -/
inductive Slot
  | slotDirListerCompleted
  | restoreSelection
  | slotLoadingCompleted
  | restoreContentsPosition
  | selectAndScrollToCreatedItem
  | emitSelectionChangedSignal
  deriving DecidableEq, Repr

/-! ## Item selection (Qt) -/

/-- A model index (`QModelIndex`): `none` is the invalid index, `some (row, column)`
a cell of the proxy model. -/
abbrev QModelIndex := Option (Nat × Nat)

/-- The set of selected cells (`QItemSelection`, read as the set of its indexes). -/
abbrev QItemSelection := Finset (Nat × Nat)

/-- Models `QItemSelection(topLeft, bottomRight)` and `QItemSelection::select(topLeft,
bottomRight)` starting from nothing: the cells of the rectangle, nothing when one
of the corners is invalid. -/
def QItemSelection.range (topLeft bottomRight : QModelIndex) : QItemSelection :=
  match topLeft, bottomRight with
  | some tl, some br => (Finset.Icc tl.1 br.1) ×ˢ (Finset.Icc tl.2 br.2)
  | _, _ => ∅

/-- Models `QItemSelectionModel::SelectionFlags`, the flags the view uses. -/
structure SelectionFlags where
  clear : Bool
  select : Bool
  toggle : Bool
  current : Bool
  deriving DecidableEq, Repr

/-- Models `QItemSelectionModel::Toggle`. -/
def SelectionFlags.Toggle : SelectionFlags := ⟨false, false, true, false⟩

/-- Models `QItemSelectionModel::Select`. -/
def SelectionFlags.Select : SelectionFlags := ⟨false, true, false, false⟩

/-- Models `QItemSelectionModel::Current | QItemSelectionModel::Clear`. -/
def SelectionFlags.CurrentClear : SelectionFlags := ⟨true, false, false, true⟩

/-- Models `QItemSelectionModel::ClearAndSelect | QItemSelectionModel::Current`. -/
def SelectionFlags.ClearAndSelectCurrent : SelectionFlags := ⟨true, true, false, true⟩

/-- Models `QItemSelectionModel::ClearAndSelect`. -/
def SelectionFlags.ClearAndSelect : SelectionFlags := ⟨true, true, false, false⟩

/-- A selection model (`QItemSelectionModel`): the selected cells and the current index. -/
structure QItemSelectionModel where
  selection : QItemSelection
  currentIndex : QModelIndex
  deriving DecidableEq

namespace QItemSelectionModel

/-- Models `QItemSelectionModel::select(selection, command)`: `Clear` drops what was
selected, then `Select` adds the cells and `Toggle` flips them. -/
def select (sel : QItemSelection) (command : SelectionFlags) (m : QItemSelectionModel) :
    QItemSelectionModel :=
  let base : QItemSelection := if command.clear then ∅ else m.selection
  let merged : QItemSelection :=
    if command.select then base ∪ sel
    else if command.toggle then (base \ sel) ∪ (sel \ base)
    else base
  { m with selection := merged }

/-- Models `QItemSelectionModel::setCurrentIndex(index, command)`. -/
def setCurrentIndex (index : QModelIndex) (command : SelectionFlags) (m : QItemSelectionModel) :
    QItemSelectionModel :=
  select (QItemSelection.range index index) command { m with currentIndex := index }

/-- Models `QItemSelectionModel::hasSelection()`. -/
def hasSelection (m : QItemSelectionModel) : Bool := decide (m.selection ≠ ∅)

/-- Models `QItemSelectionModel::clearSelection()`. -/
def clearSelection (m : QItemSelectionModel) : QItemSelectionModel :=
  { m with selection := ∅ }

end QItemSelectionModel

/-! ## Directory source and item models -/

/-- The directory lister (`KDirLister`): the entries it holds, the hidden-files
switch and the slots connected to its `completed()` signal, in connection order. -/
structure KDirLister where
  items : KFileItemList
  showingDotFiles : Bool
  completedSlots : List Slot
  deriving DecidableEq

/-- The source model (`DolphinModel`): its rows are the entries of its lister. -/
structure DolphinModel where
  dirLister : KDirLister
  columnCount : Nat
  hasVersionData : Bool
  rowsInsertedSlots : List Slot
  deriving DecidableEq

/-- Row of the first entry whose location is `url` (trailing separator ignored). -/
def findRow (url : KUrl) : KFileItemList → Option Nat
  | [] => none
  | item :: rest =>
    if item.url.equalsWithoutTrailingSlash url then some 0
    else (findRow url rest).map (· + 1)

namespace DolphinModel

/-- Models `KDirModel::indexForUrl(url)`. -/
def indexForUrl (url : KUrl) (m : DolphinModel) : QModelIndex :=
  (findRow url m.dirLister.items).map (fun r => (r, 0))

/-- Models `KDirModel::indexForItem(item)`. -/
def indexForItem (item : KFileItem) (m : DolphinModel) : QModelIndex :=
  m.indexForUrl item.url

/-- Models `KDirModel::itemForIndex(index)`; `none` is the null item. -/
def itemForIndex (index : QModelIndex) (m : DolphinModel) : Option KFileItem :=
  match index with
  | some (r, _) => m.dirLister.items[r]?
  | none => none

/-- Models `DolphinModel::clearVersionData()`. -/
def clearVersionData (m : DolphinModel) : DolphinModel :=
  { m with hasVersionData := false }

end DolphinModel

/-- The sort/filter proxy (`DolphinSortFilterProxyModel`).  `order` lists the source
rows in the order the proxy shows them; a source row that is filtered out is absent. -/
structure DolphinSortFilterProxyModel where
  sourceModel : DolphinModel
  order : List Nat
  isCategorizedModel : Bool
  sorting : Sorting
  sortOrder : SortOrder
  sortFoldersFirst : Bool
  deriving DecidableEq

namespace DolphinSortFilterProxyModel

/-- Models `QAbstractItemModel::rowCount()`. -/
def rowCount (p : DolphinSortFilterProxyModel) : Nat := p.order.length

/-- Models `QAbstractItemModel::columnCount()`. -/
def columnCount (p : DolphinSortFilterProxyModel) : Nat := p.sourceModel.columnCount

/-- Models `QAbstractItemModel::index(row, column)`: invalid outside the model. -/
def index (row column : Int) (p : DolphinSortFilterProxyModel) : QModelIndex :=
  if 0 ≤ row ∧ row < p.rowCount ∧ 0 ≤ column ∧ column < p.columnCount then
    some (row.toNat, column.toNat)
  else none

/-- Models `QSortFilterProxyModel::mapToSource(index)`. -/
def mapToSource (index : QModelIndex) (p : DolphinSortFilterProxyModel) : QModelIndex :=
  match index with
  | some (r, c) => (p.order[r]?).map (fun sr => (sr, c))
  | none => none

/-- Position of a source row in the proxy order. -/
def proxyRow (sr : Nat) : List Nat → Option Nat
  | [] => none
  | x :: rest => if x = sr then some 0 else (proxyRow sr rest).map (· + 1)

/-- Models `QSortFilterProxyModel::mapFromSource(index)`. -/
def mapFromSource (index : QModelIndex) (p : DolphinSortFilterProxyModel) : QModelIndex :=
  match index with
  | some (sr, c) => (proxyRow sr p.order).map (fun r => (r, c))
  | none => none

/-- The full extent of the proxy: every cell from row 0, column 0 to the last row
and last column. -/
def extent (p : DolphinSortFilterProxyModel) : QItemSelection :=
  Finset.range p.rowCount ×ˢ Finset.range p.columnCount

/-- The cells of the proxy in row-major order (the order in which
`QItemSelection::indexes()` is read). -/
def cells (p : DolphinSortFilterProxyModel) : List (Nat × Nat) :=
  (List.range p.rowCount).flatMap (fun r => (List.range p.columnCount).map (fun c => (r, c)))

/-- Models `KCategorizedSortFilterProxyModel::setCategorizedModel(categorized)`. -/
def setCategorizedModel (categorized : Bool) (p : DolphinSortFilterProxyModel) :
    DolphinSortFilterProxyModel :=
  { p with isCategorizedModel := categorized }

end DolphinSortFilterProxyModel

/-! ## Rendering backends -/

/-- An item view (`QAbstractItemView`): its identity, the selection model it uses
(an index into the selection models of the view), the information shown by its
item delegate, the zoom level that corresponds to its icon size, its scroll bar
values and whether it is hidden. -/
structure QAbstractItemView where
  objectId : Nat
  selectionModel : Nat
  showInformation : InformationList
  iconZoomLevel : Int
  contentsX : Int
  contentsY : Int
  hidden : Bool
  deriving DecidableEq

/-- Models `DolphinDetailsView`. -/
structure DolphinDetailsView where
  view : QAbstractItemView
  itemsExpandable : Bool
  expandedUrls : Finset KUrl
  deriving DecidableEq

/-- Models `DolphinColumnViewContainer`: its identity, its active column (a container
always has one) with the proxy model of that column, its root location and the
locations `showColumn` was asked for. -/
structure DolphinColumnViewContainer where
  objectId : Nat
  activeColumn : QAbstractItemView
  columnModel : DolphinSortFilterProxyModel
  rootUrl : KUrl
  shownColumns : List KUrl
  deriving DecidableEq

/-- Models `DolphinColumnViewContainer::showColumn(url)`. -/
def DolphinColumnViewContainer.showColumn (url : KUrl) (c : DolphinColumnViewContainer) :
    DolphinColumnViewContainer :=
  { c with shownColumns := c.shownColumns ++ [url] }

/-- Models `DolphinDetailsViewExpander`: the locations it expands, whether it was stopped,
and the slots connected to its `completed()` signal. -/
structure DolphinDetailsViewExpander where
  urlsToExpand : Finset KUrl
  stopped : Bool
  completedSlots : List Slot
  deriving DecidableEq

/-- Calls on Qt objects whose effect lies outside the class. -/
inductive QtCall
  | deleteLater (objectId : Nat)
  | hide (objectId : Nat)
  deriving DecidableEq, Repr

/-- What the constructors called by `ViewAccessor::createView` build: the new item
view (for the column container its first, active column), whether a details view
has expandable folders, and the identity, proxy model and root location of a
column container. -/
structure NewBackend where
  view : QAbstractItemView
  itemsExpandable : Bool
  containerId : Nat
  columnModel : DolphinSortFilterProxyModel
  columnRootUrl : KUrl
  deriving DecidableEq

/-! ## ViewAccessor -/

/-- Models `DolphinView::ViewAccessor`: the three backend slots, the shared proxy model,
the deferred drag source and the details-view expander. -/
structure DolphinView.ViewAccessor where
  m_iconsView : Option QAbstractItemView
  m_detailsView : Option DolphinDetailsView
  m_columnsContainer : Option DolphinColumnViewContainer
  m_proxyModel : DolphinSortFilterProxyModel
  m_dragSource : Option QAbstractItemView
  m_detailsViewExpander : Option DolphinDetailsViewExpander
  deriving DecidableEq

namespace DolphinView.ViewAccessor

/-- Models `ViewAccessor::ViewAccessor(proxyModel)`. -/
def ctor (proxyModel : DolphinSortFilterProxyModel) : ViewAccessor :=
  { m_iconsView := none, m_detailsView := none, m_columnsContainer := none,
    m_proxyModel := proxyModel, m_dragSource := none, m_detailsViewExpander := none }

/-- Models `ViewAccessor::itemView()`. -/
def itemView (va : ViewAccessor) : Option QAbstractItemView :=
  match va.m_iconsView with
  | some icons => some icons
  | none =>
    match va.m_detailsView with
    | some details => some details.view
    | none =>
      match va.m_columnsContainer with
      | some container => some container.activeColumn
      | none => none

/-- Models `ViewAccessor::createView(parent, controller, mode)`. -/
def createView (fresh : NewBackend) (mode : Mode) (va : ViewAccessor) : Option ViewAccessor :=
  if va.itemView.isSome then none
  else
    match mode with
    | Mode.IconsView => some { va with m_iconsView := some fresh.view }
    | Mode.DetailsView =>
      some { va with m_detailsView := some ⟨fresh.view, fresh.itemsExpandable, ∅⟩ }
    | Mode.ColumnView =>
      let container : DolphinColumnViewContainer :=
        ⟨fresh.containerId, fresh.view, fresh.columnModel, fresh.columnRootUrl, []⟩
      some { va with m_columnsContainer := some container }

/-- Models `ViewAccessor::deleteView()`.  `dragSource` is the widget for which
`DragAndDropHelper::instance().isDragSource` holds, if any.  Returns the accessor
and the calls made on Qt objects. -/
def deleteView (dragSource : Option Nat) (va : ViewAccessor) : ViewAccessor × List QtCall :=
  let step1 : ViewAccessor × List QtCall :=
    match va.itemView with
    | some view =>
      if dragSource = some view.objectId then
        let flushed : List QtCall :=
          match va.m_dragSource with
          | some old => [QtCall.deleteLater old.objectId]
          | none => []
        ({ va with m_dragSource := some { view with hidden := true } },
          flushed ++ [QtCall.hide view.objectId])
      else (va, [QtCall.deleteLater view.objectId])
    | none => (va, [])
  let va1 : ViewAccessor := { step1.1 with m_iconsView := none, m_detailsView := none }
  let calls2 : List QtCall :=
    match va1.m_columnsContainer with
    | some container => [QtCall.deleteLater container.objectId]
    | none => []
  ({ va1 with m_columnsContainer := none }, step1.2 ++ calls2)

/-- Models `ViewAccessor::prepareUrlChange(url)`. -/
def prepareUrlChange (url : KUrl) (va : ViewAccessor) : ViewAccessor :=
  let va1 : ViewAccessor :=
    match va.m_columnsContainer with
    | some container => { va with m_columnsContainer := some (container.showColumn url) }
    | none => va
  match va1.m_detailsViewExpander with
  | some expander => { va1 with m_detailsViewExpander := some { expander with stopped := true } }
  | none => va1

/-- Write access to the object `itemView()` points to. -/
def modifyItemView (f : QAbstractItemView → QAbstractItemView) (va : ViewAccessor) :
    ViewAccessor :=
  match va.m_iconsView with
  | some icons => { va with m_iconsView := some (f icons) }
  | none =>
    match va.m_detailsView with
    | some details => { va with m_detailsView := some { details with view := f details.view } }
    | none =>
      match va.m_columnsContainer with
      | some container =>
        let changed : DolphinColumnViewContainer :=
          { container with activeColumn := f container.activeColumn }
        { va with m_columnsContainer := some changed }
      | none => va

/-- Models `ViewAccessor::rootUrl()`. -/
def rootUrl (va : ViewAccessor) : KUrl :=
  match va.m_columnsContainer with
  | some container => container.rootUrl
  | none => KUrl.empty

/-- Models `ViewAccessor::supportsCategorizedSorting()`. -/
def supportsCategorizedSorting (va : ViewAccessor) : Bool := va.m_iconsView.isSome

/-- Models `ViewAccessor::itemsExpandable()`. -/
def itemsExpandable (va : ViewAccessor) : Bool :=
  match va.m_detailsView with
  | some details => details.itemsExpandable
  | none => false

/-- Models `ViewAccessor::expandedUrls()`. -/
def expandedUrls (va : ViewAccessor) : Finset KUrl :=
  match va.m_detailsView with
  | some details => details.expandedUrls
  | none => ∅

/-- Models `ViewAccessor::setExpandedUrls(urlsToExpand)`; the Boolean tells whether an
expander was returned. -/
def setExpandedUrls (urlsToExpand : Finset KUrl) (va : ViewAccessor) : ViewAccessor × Bool :=
  match va.m_detailsView with
  | some details =>
    if details.itemsExpandable && decide (urlsToExpand ≠ ∅) then
      ({ va with m_detailsViewExpander := some ⟨urlsToExpand, false, []⟩ }, true)
    else (va, false)
  | none => (va, false)

/-- Models `ViewAccessor::reloadOnAdditionalInfoChange()`. -/
def reloadOnAdditionalInfoChange (va : ViewAccessor) : Bool := va.m_detailsView.isSome

/-- Models `ViewAccessor::proxyModel()`. -/
def proxyModel (va : ViewAccessor) : DolphinSortFilterProxyModel :=
  match va.m_columnsContainer with
  | some container => container.columnModel
  | none => va.m_proxyModel

/-- Write access to the object `proxyModel()` points to. -/
def modifyProxyModel (f : DolphinSortFilterProxyModel → DolphinSortFilterProxyModel)
    (va : ViewAccessor) : ViewAccessor :=
  match va.m_columnsContainer with
  | some container =>
    let changed : DolphinColumnViewContainer :=
      { container with columnModel := f container.columnModel }
    { va with m_columnsContainer := some changed }
  | none => { va with m_proxyModel := f va.m_proxyModel }

/-- Models `ViewAccessor::dirModel()`. -/
def dirModel (va : ViewAccessor) : DolphinModel := va.proxyModel.sourceModel

/-- Models `ViewAccessor::dirLister()`. -/
def dirLister (va : ViewAccessor) : KDirLister := va.dirModel.dirLister

/-- Write access to the object `dirModel()` points to. -/
def modifyDirModel (f : DolphinModel → DolphinModel) (va : ViewAccessor) : ViewAccessor :=
  va.modifyProxyModel (fun p => { p with sourceModel := f p.sourceModel })

/-- Write access to the object `dirLister()` points to. -/
def modifyDirLister (f : KDirLister → KDirLister) (va : ViewAccessor) : ViewAccessor :=
  va.modifyDirModel (fun m => { m with dirLister := f m.dirLister })

/-- Exactly the backend slot of `mode` is occupied. -/
def onlySlot (mode : Mode) (va : ViewAccessor) : Bool :=
  match mode with
  | Mode.IconsView => va.m_iconsView.isSome && va.m_detailsView.isNone && va.m_columnsContainer.isNone
  | Mode.DetailsView =>
    va.m_iconsView.isNone && va.m_detailsView.isSome && va.m_columnsContainer.isNone
  | Mode.ColumnView =>
    va.m_iconsView.isNone && va.m_detailsView.isNone && va.m_columnsContainer.isSome

/-- The number of occupied backend slots. -/
def occupiedSlots (va : ViewAccessor) : Nat :=
  (if va.m_iconsView.isSome then 1 else 0) + (if va.m_detailsView.isSome then 1 else 0)
    + (if va.m_columnsContainer.isSome then 1 else 0)

end DolphinView.ViewAccessor

/-! ## Collaborators of the view -/

/-- Modelled from the spec: the view-properties record of one location (class
`ViewProperties`, whose source file is missing): mode,
sort key, sort order, folders first, categorized sorting, additional information,
hidden files, preview. -/
structure ViewProperties where
  viewMode : Mode
  sorting : Sorting
  sortOrder : SortOrder
  sortFoldersFirst : Bool
  categorizedSorting : Bool
  additionalInfo : InformationList
  showHiddenFiles : Bool
  showPreview : Bool
  deriving DecidableEq, Repr

/-- Modelled from the spec: the view-properties store, `load(Location)` and
`save(Location, ViewProperties)`; a location that was never saved has the default
properties.  A `ViewProperties` object that was changed is saved when it goes out
of scope. -/
structure ViewPropertiesStore where
  saved : List (KUrl × ViewProperties)
  defaults : ViewProperties
  deriving DecidableEq

/-- Models `ViewProperties props(url)`. -/
def ViewPropertiesStore.load (url : KUrl) (store : ViewPropertiesStore) : ViewProperties :=
  match store.saved.find? (fun entry => decide (entry.1 = url)) with
  | some entry => entry.2
  | none => store.defaults

/-- Models `props.save()` for the properties of `url`. -/
def ViewPropertiesStore.save (url : KUrl) (props : ViewProperties) (store : ViewPropertiesStore) :
    ViewPropertiesStore :=
  { store with saved := (url, props) :: store.saved }

/-- Values the view reads from the settings singletons and from `ZoomLevelInfo`:
the two general settings, whether details views have expandable folders, the zoom
level that corresponds to the icon size of a new view of each mode, and the zoom
range. -/
structure Settings where
  globalViewProps : Bool
  renameInline : Bool
  expandableFolders : Bool
  iconsZoomLevel : Int
  detailsZoomLevel : Int
  columnsZoomLevel : Int
  minimumLevel : Int
  maximumLevel : Int
  deriving DecidableEq, Repr

/-- Models `DolphinController`, the part the view uses: location, zoom level, the item
view it was given and how often its `selectionChanged()` signal is connected to
`emitDelayedSelectionChangedSignal()`. -/
structure DolphinController where
  url : KUrl
  zoomLevel : Int
  itemView : Option Nat
  selectionChangedConnections : Nat
  deriving DecidableEq, Repr

/-- Signals of `DolphinView`. -/
inductive Signal
  | urlChanged (url : KUrl)
  | startedPathLoading (url : KUrl)
  | errorMessage (text : String)
  | operationCompletedMessage (text : String)
  | modeChanged
  | additionalInfoChanged
  | categorizedSortingChanged
  | showHiddenFilesChanged
  | showPreviewChanged
  | sortingChanged (sorting : Sorting)
  | sortOrderChanged (order : SortOrder)
  | sortFoldersFirstChanged (foldersFirst : Bool)
  | zoomLevelChanged (level : Int)
  | selectionChanged (items : KFileItemList)
  | contentsMoved (x y : Int)
  | activated
  deriving DecidableEq, Repr

/-- Is the signal an `errorMessage`? -/
def Signal.isErrorMessage : Signal → Bool
  | Signal.errorMessage _ => true
  | _ => false

/-- Is the signal a `selectionChanged`? -/
def Signal.isSelectionChanged : Signal → Bool
  | Signal.selectionChanged _ => true
  | _ => false

/-- A finished `KJob`, as far as the view reads it: `error()` and `errorString()`. -/
structure KJob where
  error : Int
  errorString : String
  deriving DecidableEq, Repr

/-- The error code `KIO::ERR_USER_CANCELED` of the KDE libraries, which is
`KJob::KilledJobError`, the value 1. -/
def ERR_USER_CANCELED : Int := 1

/-- The answer of a `RenameDialog` (user input): `exec()` returned `QDialog::Rejected`, or
it was accepted with `newName()` and `errorString()`. -/
inductive RenameDialog
  | rejected
  | accepted (newName : String) (errorString : String)
  deriving DecidableEq, Repr

/-- The texts `statusBarText()` builds, named by the message they instantiate (the
wording comes from the translation catalogue and from `KIO::convertSize` and
`KIO::itemsSummaryString`): the empty text, "name selected", "name selected (size)",
"n Folders selected, m Files selected (size)", "m Files selected (size)",
"n Folders selected", and the summary of the whole listing. -/
inductive StatusBarText
  | empty
  | folderSelected (name : String)
  | fileSelected (name : String) (size : Nat)
  | foldersAndFilesSelected (folderCount fileCount : Int) (size : Nat)
  | filesSelected (fileCount : Int) (size : Nat)
  | foldersSelected (folderCount : Int)
  | itemsSummary (items fileCount folderCount : Int) (size : Nat)
  deriving DecidableEq, Repr

/-- One value written to a `QDataStream`. -/
inductive StreamItem
  | url (u : KUrl)
  | point (x y : Int)
  | urlSet (urls : Finset KUrl)
  deriving DecidableEq

/-- A `QDataStream`: the values still to be read, oldest first. -/
abbrev QDataStream := List StreamItem

/-- Models `stream >> url`: the next value when it is a location; otherwise the stream is
in error, the target gets the empty location and nothing is consumed. -/
def QDataStream.readUrl : QDataStream → KUrl × QDataStream
  | StreamItem.url u :: rest => (u, rest)
  | stream => (KUrl.empty, stream)

/-- Models `stream >> point`. -/
def QDataStream.readPoint : QDataStream → (Int × Int) × QDataStream
  | StreamItem.point x y :: rest => ((x, y), rest)
  | stream => ((0, 0), stream)

/-- Models `stream >> urlSet`. -/
def QDataStream.readUrlSet : QDataStream → Finset KUrl × QDataStream
  | StreamItem.urlSet urls :: rest => (urls, rest)
  | stream => (∅, stream)

/-! ## DolphinView -/

/-- The state of a `DolphinView`: its members (named as in the class), followed by
the objects it shares with its surroundings: the selection models (a view refers
to one by its position), the view-properties store, the settings, the widget that
is the source of a drag in progress, the next free object identity, the queued
slot invocations, the signals emitted, the calls made on Qt objects, the
`openUrl(url, flags)` requests made to the directory lister (`true` for
`KDirLister::Reload`), the `KonqOperations::rename(oldUrl, newUrl)` requests and the
indexes for which the item view was asked to open an editor. -/
structure DolphinView where
  m_active : Bool
  m_showPreview : Bool
  m_loadingDirectory : Bool
  m_storedCategorizedSorting : Bool
  m_tabsForFiles : Bool
  m_isContextMenuOpen : Bool
  m_ignoreViewProperties : Bool
  m_assureVisibleCurrentIndex : Bool
  m_expanderActive : Bool
  m_mode : Mode
  m_controller : DolphinController
  m_viewAccessor : DolphinView.ViewAccessor
  m_selectionModel : Option Nat
  m_selectionChangedTimerActive : Bool
  m_rootUrl : KUrl
  m_activeItemUrl : KUrl
  m_restoredContentsPosition : Int × Int
  m_createdItemUrl : KUrl
  m_selectedItems : KFileItemList
  m_newFileNames : Finset String
  selectionModels : List QItemSelectionModel
  store : ViewPropertiesStore
  settings : Settings
  dragSource : Option Nat
  nextObjectId : Nat
  queued : List Slot
  emitted : List Signal
  qtCalls : List QtCall
  openUrlCalls : List (KUrl × Bool)
  renameCalls : List (KUrl × KUrl) := []
  editCalls : List QModelIndex := []
  deriving DecidableEq

/-- A `const KFileItemList&` argument of a member function: either the member
`m_selectedItems` itself or a list that belongs to the caller. -/
inductive ItemListRef
  | m_selectedItems
  | value (items : KFileItemList)
  deriving DecidableEq

namespace DolphinView

/-- Reading through a `const KFileItemList&`. -/
def readRef (ref : ItemListRef) (v : DolphinView) : KFileItemList :=
  match ref with
  | ItemListRef.m_selectedItems => v.m_selectedItems
  | ItemListRef.value items => items

/-- Models `emit signal`. -/
def emit (signal : Signal) (v : DolphinView) : DolphinView :=
  { v with emitted := v.emitted ++ [signal] }

/-- Models `DolphinView::url()`. -/
def url (v : DolphinView) : KUrl := v.m_controller.url

/-- Models `DolphinView::rootUrl()`. -/
def rootUrl (v : DolphinView) : KUrl :=
  let viewUrl := v.url
  let root := v.m_viewAccessor.rootUrl
  if root.isEmpty || !root.isParentOf viewUrl then viewUrl else root

/-- Models `DolphinView::mode()`. -/
def mode (v : DolphinView) : Mode := v.m_mode

/-- Models `DolphinView::categorizedSorting()`. -/
def categorizedSorting (v : DolphinView) : Bool := v.m_storedCategorizedSorting

/-- Models `DolphinView::supportsCategorizedSorting()`. -/
def supportsCategorizedSorting (v : DolphinView) : Bool :=
  v.m_viewAccessor.supportsCategorizedSorting

/-- Models `DolphinView::zoomLevel()`. -/
def zoomLevel (v : DolphinView) : Int := v.m_controller.zoomLevel

/-- Models `m_viewAccessor.itemView()->selectionModel()`: the position and the state of the
selection model of the current item view; `none` without a view. -/
def viewSelectionModel (v : DolphinView) : Option (Nat × QItemSelectionModel) :=
  match v.m_viewAccessor.itemView with
  | some view =>
    match v.selectionModels[view.selectionModel]? with
    | some model => some (view.selectionModel, model)
    | none => none
  | none => none

/-- Write access to a selection model. -/
def setSelectionModelState (k : Nat) (model : QItemSelectionModel) (v : DolphinView) :
    DolphinView :=
  { v with selectionModels := v.selectionModels.set k model }

/-- Modelled from the spec: `m_controller->setUrl(url)` (the source file of
`DolphinController` is missing).  The controller stores the location and, as the
comment at the call in `updateView` says, emits `urlChanged`, which the view
forwards as its own signal. -/
def controllerSetUrl (url : KUrl) (v : DolphinView) : DolphinView :=
  if v.m_controller.url = url then v
  else ({ v with m_controller := { v.m_controller with url := url } }).emit (Signal.urlChanged url)

/-- Modelled from the spec: `m_controller->setZoomLevel(level)` (the source file of
`DolphinController` is missing): the controller stores the level. -/
def controllerSetZoomLevel (level : Int) (v : DolphinView) : DolphinView :=
  { v with m_controller := { v.m_controller with zoomLevel := level } }

/-- Models `DolphinView::invertSelection()`.  The model of the selection model is the proxy
model of the accessor; `rowCount() - 1` and `columnCount() - 1` are computed on
integers. -/
def invertSelection (v : DolphinView) : Option DolphinView :=
  match v.viewSelectionModel with
  | none => none
  | some (k, selectionModel) =>
    let itemModel := v.m_viewAccessor.proxyModel
    let topLeft := itemModel.index 0 0
    let bottomRight :=
      itemModel.index ((itemModel.rowCount : Int) - 1) ((itemModel.columnCount : Int) - 1)
    let selection := QItemSelection.range topLeft bottomRight
    some (v.setSelectionModelState k (selectionModel.select selection SelectionFlags.Toggle))

/-- Models `DolphinView::hasSelection()`. -/
def hasSelection (v : DolphinView) : Bool :=
  match v.viewSelectionModel with
  | some (_, model) => model.hasSelection
  | none => false

/-- Models `DolphinView::clearSelection()`. -/
def clearSelection (v : DolphinView) : Option DolphinView :=
  match v.viewSelectionModel with
  | none => none
  | some (k, selModel) =>
    let currentIndex := selModel.currentIndex
    let v1 := v.setSelectionModelState k
      (selModel.setCurrentIndex currentIndex SelectionFlags.CurrentClear)
    some { v1 with m_selectedItems := [] }

/-- Models `DolphinView::selectedItems()`.  The indexes of the selection are read in
row-major order of the proxy. -/
def selectedItems (v : DolphinView) : Option KFileItemList :=
  match v.viewSelectionModel with
  | none => none
  | some (_, selModel) =>
    let proxy := v.m_viewAccessor.proxyModel
    let indexList : List QModelIndex :=
      (proxy.cells.filter (fun cell => decide (cell ∈ selModel.selection))).map
        (fun cell => proxy.mapToSource (some cell))
    some (indexList.filterMap (fun index => v.m_viewAccessor.dirModel.itemForIndex index))

/-- Models `DolphinView::setContentsPosition(x, y)`. -/
def setContentsPosition (x y : Int) (v : DolphinView) : Option DolphinView :=
  match v.m_viewAccessor.itemView with
  | none => none
  | some _ =>
    let va := v.m_viewAccessor.modifyItemView (fun w => { w with contentsX := x, contentsY := y })
    some { v with m_viewAccessor := va, m_loadingDirectory := false }

/-- Models `DolphinView::contentsPosition()`. -/
def contentsPosition (v : DolphinView) : Option (Int × Int) :=
  match v.m_viewAccessor.itemView with
  | none => none
  | some view => some (view.contentsX, view.contentsY)

/-- Models `DolphinView::setZoomLevel(level)`. -/
def setZoomLevel (level : Int) (v : DolphinView) : DolphinView :=
  let level1 : Int :=
    if level < v.settings.minimumLevel then v.settings.minimumLevel
    else if level > v.settings.maximumLevel then v.settings.maximumLevel
    else level
  if level1 ≠ v.zoomLevel then
    (v.controllerSetZoomLevel level1).emit (Signal.zoomLevelChanged level1)
  else v

/-- Models `DolphinView::updateZoomLevel(oldZoomLevel)`. -/
def updateZoomLevel (oldZoomLevel : Int) (v : DolphinView) : Option DolphinView :=
  match v.m_viewAccessor.itemView with
  | none => none
  | some view =>
    let newZoomLevel := view.iconZoomLevel
    if oldZoomLevel ≠ newZoomLevel then
      some ((v.controllerSetZoomLevel newZoomLevel).emit (Signal.zoomLevelChanged newZoomLevel))
    else some v

/-- Models `DolphinView::deleteView()`. -/
def deleteView (v : DolphinView) : DolphinView :=
  match v.m_viewAccessor.itemView with
  | some _ =>
    let result := v.m_viewAccessor.deleteView v.dragSource
    { v with m_viewAccessor := result.1, qtCalls := v.qtCalls ++ result.2 }
  | none => v

/-- The objects the backend constructors build for this view: a view with a new
identity, a selection model of its own (the next free position), an item delegate
that shows nothing yet and the icon size of the mode; a column container starts
with a column that has an empty proxy model and lister of its own and the current
location as root. -/
def newBackend (v : DolphinView) : NewBackend :=
  { view :=
      { objectId := v.nextObjectId,
        selectionModel := v.selectionModels.length,
        showInformation := [],
        iconZoomLevel :=
          match v.m_mode with
          | Mode.IconsView => v.settings.iconsZoomLevel
          | Mode.DetailsView => v.settings.detailsZoomLevel
          | Mode.ColumnView => v.settings.columnsZoomLevel,
        contentsX := 0,
        contentsY := 0,
        hidden := false },
    itemsExpandable := v.settings.expandableFolders,
    containerId := v.nextObjectId + 1,
    columnModel :=
      { sourceModel :=
          { dirLister := { items := [], showingDotFiles := false, completedSlots := [] },
            columnCount := v.m_viewAccessor.m_proxyModel.sourceModel.columnCount,
            hasVersionData := false,
            rowsInsertedSlots := [] },
        order := [],
        isCategorizedModel := false,
        sorting := Sorting.SortByName,
        sortOrder := SortOrder.AscendingOrder,
        sortFoldersFirst := true },
    columnRootUrl := v.url }

/-- Models `DolphinView::createView()`. -/
def createView (v : DolphinView) : Option DolphinView :=
  let v1 := v.deleteView
  if v1.m_viewAccessor.itemView.isSome then none
  else
    match v1.m_viewAccessor.createView v1.newBackend v1.m_mode with
    | none => none
    | some va =>
      let v2 : DolphinView :=
        { v1 with m_viewAccessor := va,
                  selectionModels := v1.selectionModels ++ [⟨∅, none⟩],
                  nextObjectId := v1.nextObjectId + 2 }
      match v2.m_viewAccessor.itemView with
      | none => none
      | some view =>
        let controller : DolphinController :=
          { v2.m_controller with
            itemView := some view.objectId,
            selectionChangedConnections := v2.m_controller.selectionChangedConnections + 1 }
        let v3 : DolphinView := { v2 with m_controller := controller }
        match v3.m_selectionModel with
        | some shared =>
          let va3 := v3.m_viewAccessor.modifyItemView (fun w => { w with selectionModel := shared })
          some { v3 with m_viewAccessor := va3 }
        | none => some { v3 with m_selectionModel := some view.selectionModel }

/-- Models `DolphinView::loadDirectory(url, reload)`.  The `openUrl` request is recorded;
the listing arrives later. -/
def loadDirectory (url : KUrl) (reload : Bool) (v : DolphinView) : Option DolphinView :=
  if !url.isValid then
    let location := url.pathOrUrl
    if location.isEmpty then
      some (v.emit (Signal.errorMessage "The location is empty."))
    else
      let quote := String.singleton (Char.ofNat 39)
      some (v.emit (Signal.errorMessage
        ("The location " ++ quote ++ location ++ quote ++ " is invalid.")))
  else
    let v1 : DolphinView := { v with m_loadingDirectory := true, m_expanderActive := false }
    let captured : Option DolphinView :=
      if reload then
        match v1.selectedItems with
        | none => none
        | some items =>
          let v2 : DolphinView := { v1 with m_selectedItems := items }
          let va2 := v2.m_viewAccessor.modifyDirLister
            (fun l => { l with completedSlots := l.completedSlots ++ [Slot.restoreSelection] })
          some { v2 with m_viewAccessor := va2 }
      else some v1
    match captured with
    | none => none
    | some v3 =>
      some { v3 with openUrlCalls := v3.openUrlCalls ++ [(url, reload)] }

/-- Models `m_viewAccessor.itemDelegate()->setShowInformation(info)`. -/
def setShowInformation (info : InformationList) (v : DolphinView) : Option DolphinView :=
  match v.m_viewAccessor.itemView with
  | none => none
  | some _ =>
    let va := v.m_viewAccessor.modifyItemView (fun w => { w with showInformation := info })
    some { v with m_viewAccessor := va }

/-- The reconciliation of the proxy's categorized flag that `setMode` and
`applyViewProperties` share word for word: store the persisted preference, and
change the proxy when `m_storedCategorizedSorting && supportsCategorizedSorting()`
differs from its flag. -/
def reconcileCategorizedSorting (props : ViewProperties) (v : DolphinView) : DolphinView :=
  let v1 : DolphinView := { v with m_storedCategorizedSorting := props.categorizedSorting }
  let categorized := v1.m_storedCategorizedSorting && v1.supportsCategorizedSorting
  if categorized ≠ v1.m_viewAccessor.proxyModel.isCategorizedModel then
    let va := v1.m_viewAccessor.modifyProxyModel (fun p => p.setCategorizedModel categorized)
    ({ v1 with m_viewAccessor := va }).emit Signal.categorizedSortingChanged
  else v1

/-- Models `applyViewProperties()`, the view-mode block: `if (m_mode != mode)` then
`m_mode = mode; createView(); emit modeChanged(); updateZoomLevel(oldZoomLevel);`. -/
def applyViewMode (props : ViewProperties) (v : DolphinView) : Option DolphinView :=
  let mode := props.viewMode
  if v.m_mode ≠ mode then
    let oldZoomLevel := v.m_controller.zoomLevel
    match ({ v with m_mode := mode } : DolphinView).createView with
    | none => none
    | some created => (created.emit Signal.modeChanged).updateZoomLevel oldZoomLevel
  else some v

/-- Models `applyViewProperties()`: `if (m_viewAccessor.itemView() == 0) createView();`
followed by the two assertions that the item view and its delegate exist. -/
def ensureView (v : DolphinView) : Option DolphinView :=
  let ensured : Option DolphinView :=
    if v.m_viewAccessor.itemView.isNone then v.createView else some v
  match ensured with
  | none => none
  | some v1 => if v1.m_viewAccessor.itemView.isNone then none else some v1

/-- Models `applyViewProperties()`, the hidden-files block. -/
def applyShowHiddenFiles (props : ViewProperties) (v : DolphinView) : DolphinView :=
  let showHiddenFiles := props.showHiddenFiles
  if showHiddenFiles ≠ v.m_viewAccessor.dirLister.showingDotFiles then
    let va := v.m_viewAccessor.modifyDirLister
      (fun l => { l with showingDotFiles := showHiddenFiles })
    ({ v with m_viewAccessor := va } : DolphinView).emit Signal.showHiddenFilesChanged
  else v

/-- Models `applyViewProperties()`, the sorting block. -/
def applySorting (props : ViewProperties) (v : DolphinView) : DolphinView :=
  let sorting := props.sorting
  if sorting ≠ v.m_viewAccessor.proxyModel.sorting then
    let va := v.m_viewAccessor.modifyProxyModel (fun p => { p with sorting := sorting })
    ({ v with m_viewAccessor := va } : DolphinView).emit (Signal.sortingChanged sorting)
  else v

/-- Models `applyViewProperties()`, the sort-order block. -/
def applySortOrder (props : ViewProperties) (v : DolphinView) : DolphinView :=
  let sortOrder := props.sortOrder
  if sortOrder ≠ v.m_viewAccessor.proxyModel.sortOrder then
    let va := v.m_viewAccessor.modifyProxyModel (fun p => { p with sortOrder := sortOrder })
    ({ v with m_viewAccessor := va } : DolphinView).emit (Signal.sortOrderChanged sortOrder)
  else v

/-- Models `applyViewProperties()`, the folders-first block. -/
def applySortFoldersFirst (props : ViewProperties) (v : DolphinView) : DolphinView :=
  let sortFoldersFirst := props.sortFoldersFirst
  if sortFoldersFirst ≠ v.m_viewAccessor.proxyModel.sortFoldersFirst then
    let va := v.m_viewAccessor.modifyProxyModel
      (fun p => { p with sortFoldersFirst := sortFoldersFirst })
    ({ v with m_viewAccessor := va } : DolphinView).emit
      (Signal.sortFoldersFirstChanged sortFoldersFirst)
  else v

/-- Models `applyViewProperties()`, the additional-information block. -/
def applyAdditionalInfo (props : ViewProperties) (v : DolphinView) : Option DolphinView :=
  let info := props.additionalInfo
  match v.m_viewAccessor.itemView with
  | none => none
  | some view =>
    if info ≠ view.showInformation then
      match v.setShowInformation info with
      | none => none
      | some v1 => some (v1.emit Signal.additionalInfoChanged)
    else some v

/-- Models `applyViewProperties()`, the preview block. -/
def applyShowPreview (props : ViewProperties) (v : DolphinView) : Option DolphinView :=
  let showPreview := props.showPreview
  if showPreview ≠ v.m_showPreview then
    let v1 : DolphinView := { v with m_showPreview := showPreview }
    let oldZoomLevel := v1.m_controller.zoomLevel
    (v1.emit Signal.showPreviewChanged).updateZoomLevel oldZoomLevel
  else some v

/-- Models `applyViewProperties()`, the last block: with global view properties the
properties are applied only once. -/
def applyGlobalViewProps (v : DolphinView) : DolphinView :=
  if v.settings.globalViewProps then { v with m_ignoreViewProperties := true } else v

/-- Models `DolphinView::applyViewProperties()`: the early return, then the blocks of the
function in the order of the source. -/
def applyViewProperties (v : DolphinView) : Option DolphinView :=
  if v.m_ignoreViewProperties then some v
  else
    let props := v.store.load v.rootUrl
    match v.applyViewMode props with
    | none => none
    | some v1 =>
      match v1.ensureView with
      | none => none
      | some v2 =>
        let v3 := v2.applyShowHiddenFiles props
        let v4 := v3.reconcileCategorizedSorting props
        let v5 := v4.applySorting props
        let v6 := v5.applySortOrder props
        let v7 := v6.applySortFoldersFirst props
        match v7.applyAdditionalInfo props with
        | none => none
        | some v8 =>
          match v8.applyShowPreview props with
          | none => none
          | some v9 => some v9.applyGlobalViewProps

/-- Models `DolphinView::setMode(mode)`.  The `ViewProperties` object `props` is changed by
`setViewMode` and written back when it goes out of scope at the end. -/
def setMode (mode : Mode) (v : DolphinView) : Option DolphinView :=
  if mode = v.m_mode then some v
  else
    let oldZoomLevel := v.m_controller.zoomLevel
    let v1 := ({ v with m_mode := mode } : DolphinView).deleteView
    let viewPropsUrl := v1.rootUrl
    let props : ViewProperties := { v1.store.load viewPropsUrl with viewMode := v1.m_mode }
    match v1.createView with
    | none => none
    | some v2 =>
      let infoList := props.additionalInfo
      match v2.setShowInformation infoList with
      | none => none
      | some v3 =>
        let v4 := v3.emit Signal.additionalInfoChanged
        let v5 := v4.reconcileCategorizedSorting props
        let v6 := v5.emit Signal.modeChanged
        match v6.updateZoomLevel oldZoomLevel with
        | none => none
        | some v7 =>
          let loaded : Option DolphinView :=
            if v7.m_showPreview then v7.loadDirectory viewPropsUrl false else some v7
          match loaded with
          | none => none
          | some v8 => some { v8 with store := v8.store.save viewPropsUrl props }

/-- A sequence of `setMode` calls, one after the other. -/
def setModes : List Mode → DolphinView → Option DolphinView
  | [], v => some v
  | mode :: rest, v =>
    match v.setMode mode with
    | none => none
    | some v1 => setModes rest v1

/-- Models `DolphinView::updateView(url, rootUrl)`. -/
def updateView (url : KUrl) (v : DolphinView) : Option DolphinView :=
  if v.m_controller.url = url then some v
  else
    let v1 := v.controllerSetUrl url
    let v2 : DolphinView := { v1 with m_viewAccessor := v1.m_viewAccessor.prepareUrlChange url }
    match v2.applyViewProperties with
    | none => none
    | some v3 =>
      match v3.loadDirectory url false with
      | none => none
      | some v4 =>
        let va := v4.m_viewAccessor.modifyDirModel DolphinModel.clearVersionData
        some (({ v4 with m_viewAccessor := va } : DolphinView).emit (Signal.startedPathLoading url))

/-- Models `DolphinView::setUrl(url)`. -/
def setUrl (url : KUrl) (v : DolphinView) : Option DolphinView :=
  ({ v with m_newFileNames := ∅ } : DolphinView).updateView url

/-- Models `DolphinView::reload()`. -/
def reload (v : DolphinView) : Option DolphinView :=
  match v.setUrl v.url with
  | none => none
  | some v1 => v1.loadDirectory v1.url true

/-- Models `DolphinView::changeSelection(selection)`.  `selection` is a reference: it is
read after `clearSelection()` has run. -/
def changeSelection (selection : ItemListRef) (v : DolphinView) : Option DolphinView :=
  match v.clearSelection with
  | none => none
  | some v1 =>
    if (v1.readRef selection).isEmpty then some v1
    else
      let baseUrl := v1.url
      let newSelection : QItemSelection :=
        (v1.readRef selection).foldl
          (fun acc item =>
            let url := item.url.upUrl
            if baseUrl.equalsWithoutTrailingSlash url then
              let index := v1.m_viewAccessor.proxyModel.mapFromSource
                (v1.m_viewAccessor.dirModel.indexForItem item)
              acc ∪ QItemSelection.range index index
            else acc)
          ∅
      match v1.viewSelectionModel with
      | none => none
      | some (k, model) =>
        some (v1.setSelectionModelState k
          (model.select newSelection SelectionFlags.ClearAndSelectCurrent))

/-- Models `DolphinView::restoreSelection()`. -/
def restoreSelection (v : DolphinView) : Option DolphinView :=
  let va := v.m_viewAccessor.modifyDirLister
    (fun l => { l with completedSlots := l.completedSlots.filter (· ≠ Slot.restoreSelection) })
  ({ v with m_viewAccessor := va } : DolphinView).changeSelection ItemListRef.m_selectedItems

/-- Models `QAbstractItemView::setCurrentIndex(index)` on the current item view, with no
keyboard modifier held: the index becomes current and the only selected one. -/
def viewSetCurrentIndex (index : QModelIndex) (v : DolphinView) : Option DolphinView :=
  match v.viewSelectionModel with
  | none => none
  | some (k, model) =>
    some (v.setSelectionModelState k (model.setCurrentIndex index SelectionFlags.ClearAndSelect))

/-- Models `QAbstractItemView::clearSelection()` on the current item view. -/
def viewClearSelection (v : DolphinView) : Option DolphinView :=
  match v.viewSelectionModel with
  | none => none
  | some (k, model) => some (v.setSelectionModelState k model.clearSelection)

/-- Models `DolphinView::slotLoadingCompleted()`. -/
def slotLoadingCompleted (v : DolphinView) : Option DolphinView :=
  let v1 : DolphinView := { v with m_expanderActive := false, m_loadingDirectory := false }
  let positioned : Option DolphinView :=
    if !v1.m_activeItemUrl.isEmpty then
      let dirIndex := v1.m_viewAccessor.dirModel.indexForUrl v1.m_activeItemUrl
      if dirIndex.isSome then
        let proxyIndex := v1.m_viewAccessor.proxyModel.mapFromSource dirIndex
        let clearSelection := !v1.hasSelection
        match v1.viewSetCurrentIndex proxyIndex with
        | none => none
        | some v2 =>
          let cleared : Option DolphinView :=
            if clearSelection then v2.viewClearSelection else some v2
          match cleared with
          | none => none
          | some v3 => some { v3 with m_activeItemUrl := KUrl.empty }
      else some v1
    else some v1
  match positioned with
  | none => none
  | some v4 => some { v4 with queued := v4.queued ++ [Slot.restoreContentsPosition] }

/-- Models `DolphinView::slotDirListerCompleted()`. -/
def slotDirListerCompleted (v : DolphinView) : Option DolphinView :=
  let finalized : Option DolphinView :=
    if !v.m_expanderActive then v.slotLoadingCompleted else some v
  match finalized with
  | none => none
  | some v1 =>
    if v1.m_newFileNames ≠ ∅ then
      let proxy := v1.m_viewAccessor.proxyModel
      let rowCount := proxy.rowCount
      let selection : QItemSelection :=
        (List.range rowCount).foldl
          (fun acc row =>
            let proxyIndex := proxy.index row 0
            let dirIndex := proxy.mapToSource proxyIndex
            let url : KUrl :=
              match v1.m_viewAccessor.dirModel.itemForIndex dirIndex with
              | some item => item.url
              | none => KUrl.empty
            if url.fileName ∈ v1.m_newFileNames then
              acc ∪ QItemSelection.range proxyIndex proxyIndex
            else acc)
          ∅
      match v1.viewSelectionModel with
      | none => none
      | some (k, model) =>
        let v2 := v1.setSelectionModelState k (model.select selection SelectionFlags.Select)
        some { v2 with m_newFileNames := ∅ }
    else some v1

/-- Models `DolphinView::restoreContentsPosition()`. -/
def restoreContentsPosition (v : DolphinView) : Option DolphinView :=
  if v.m_restoredContentsPosition ≠ (0, 0) then
    match v.setContentsPosition v.m_restoredContentsPosition.1 v.m_restoredContentsPosition.2 with
    | none => none
    | some v1 => some { v1 with m_restoredContentsPosition := (0, 0) }
  else some v

/-- Models `DolphinView::observeCreatedItem(url)`. -/
def observeCreatedItem (url : KUrl) (v : DolphinView) : DolphinView :=
  let va := v.m_viewAccessor.modifyDirModel (fun m =>
    { m with rowsInsertedSlots := m.rowsInsertedSlots ++ [Slot.selectAndScrollToCreatedItem] })
  { v with m_createdItemUrl := url, m_viewAccessor := va }

/-- Models `DolphinView::selectAndScrollToCreatedItem()`. -/
def selectAndScrollToCreatedItem (v : DolphinView) : Option DolphinView :=
  let dirIndex := v.m_viewAccessor.dirModel.indexForUrl v.m_createdItemUrl
  let selected : Option DolphinView :=
    if dirIndex.isSome then
      let proxyIndex := v.m_viewAccessor.proxyModel.mapFromSource dirIndex
      v.viewSetCurrentIndex proxyIndex
    else some v
  match selected with
  | none => none
  | some v1 =>
    let va := v1.m_viewAccessor.modifyDirModel (fun m =>
      { m with rowsInsertedSlots :=
          m.rowsInsertedSlots.filter (· ≠ Slot.selectAndScrollToCreatedItem) })
    some { v1 with m_viewAccessor := va, m_createdItemUrl := KUrl.empty }

/-- Models `DolphinView::emitDelayedSelectionChangedSignal()`: (re)starts the single-shot
timer. -/
def emitDelayedSelectionChangedSignal (v : DolphinView) : DolphinView :=
  { v with m_selectionChangedTimerActive := true }

/-- Models `DolphinView::emitSelectionChangedSignal()`. -/
def emitSelectionChangedSignal (v : DolphinView) : Option DolphinView :=
  match v.selectedItems with
  | none => none
  | some items => some (v.emit (Signal.selectionChanged items))

/-- Models `DolphinView::restoreState(stream)`; returns the view and the rest of the stream. -/
def restoreState (stream : QDataStream) (v : DolphinView) : DolphinView × QDataStream :=
  let r1 := stream.readUrl
  let v1 : DolphinView := { v with m_activeItemUrl := r1.1 }
  let r2 := r1.2.readPoint
  let v2 : DolphinView := { v1 with m_restoredContentsPosition := r2.1 }
  let r3 := r2.2.readUrlSet
  let urlsToExpand := r3.1
  let expander := v2.m_viewAccessor.setExpandedUrls urlsToExpand
  if expander.2 then
    let va : ViewAccessor :=
      { expander.1 with m_detailsViewExpander :=
          expander.1.m_detailsViewExpander.map (fun e =>
            { e with completedSlots := e.completedSlots ++ [Slot.slotLoadingCompleted] }) }
    ({ v2 with m_viewAccessor := va, m_expanderActive := true }, r3.2)
  else
    ({ v2 with m_viewAccessor := expander.1, m_expanderActive := false }, r3.2)

/-- Models `DolphinView::saveState(stream)`; returns the stream written. -/
def saveState (stream : QDataStream) (v : DolphinView) : Option QDataStream :=
  let currentItem : Option KFileItem :=
    match v.viewSelectionModel with
    | some (_, model) =>
      let proxyIndex := model.currentIndex
      let dirModelIndex := v.m_viewAccessor.proxyModel.mapToSource proxyIndex
      v.m_viewAccessor.dirModel.itemForIndex dirModelIndex
    | none => none
  let currentUrl : KUrl :=
    match currentItem with
    | some item => item.url
    | none => KUrl.empty
  let stream1 := stream ++ [StreamItem.url currentUrl]
  match v.contentsPosition with
  | none => none
  | some pos =>
    let stream2 := stream1 ++ [StreamItem.point pos.1 pos.2]
    some (stream2 ++ [StreamItem.urlSet v.m_viewAccessor.expandedUrls])

/-- Models `DolphinView::DolphinView(parent, url, proxyModel)`.  `m_expanderActive` is not in
the initialiser list, so its first value is whatever the memory holds
(`expanderActive`); `zoomLevel` is the zoom level of the new controller. -/
def ctor (url : KUrl) (proxyModel : DolphinSortFilterProxyModel) (store : ViewPropertiesStore)
    (settings : Settings) (zoomLevel : Int) (expanderActive : Bool) : Option DolphinView :=
  let v : DolphinView :=
    { m_active := true,
      m_showPreview := false,
      m_loadingDirectory := false,
      m_storedCategorizedSorting := false,
      m_tabsForFiles := false,
      m_isContextMenuOpen := false,
      m_ignoreViewProperties := false,
      m_assureVisibleCurrentIndex := false,
      m_expanderActive := expanderActive,
      m_mode := Mode.IconsView,
      m_controller := { url := url, zoomLevel := zoomLevel, itemView := none,
                        selectionChangedConnections := 0 },
      m_viewAccessor := ViewAccessor.ctor proxyModel,
      m_selectionModel := none,
      m_selectionChangedTimerActive := false,
      m_rootUrl := KUrl.empty,
      m_activeItemUrl := KUrl.empty,
      m_restoredContentsPosition := (0, 0),
      m_createdItemUrl := KUrl.empty,
      m_selectedItems := [],
      m_newFileNames := ∅,
      selectionModels := [],
      store := store,
      settings := settings,
      dragSource := none,
      nextObjectId := 0,
      queued := [],
      emitted := [],
      qtCalls := [],
      openUrlCalls := [] }
  let va := v.m_viewAccessor.modifyDirLister
    (fun l => { l with completedSlots := l.completedSlots ++ [Slot.slotDirListerCompleted] })
  ({ v with m_viewAccessor := va } : DolphinView).applyViewProperties

/-- Models `DolphinView::slotDeleteFileFinished(job)`. -/
def slotDeleteFileFinished (job : KJob) (v : DolphinView) : DolphinView :=
  if job.error = 0 then
    v.emit (Signal.operationCompletedMessage "Delete operation completed.")
  else if job.error ≠ ERR_USER_CANCELED then
    v.emit (Signal.errorMessage job.errorString)
  else v

/-- Models `DolphinView::setActive(active)`.  The palette of the viewport, the focus and
the notification of the controller lie outside the state; the viewport is reached
through the item view, which must exist. -/
def setActive (active : Bool) (v : DolphinView) : Option DolphinView :=
  if active = v.m_active then some v
  else
    let v1 : DolphinView := { v with m_active := active }
    let signalled : Option DolphinView :=
      if active then v1.emitSelectionChangedSignal else some v1
    match signalled with
    | none => none
    | some v2 =>
      if v2.m_viewAccessor.itemView.isNone then none
      else if active then some (v2.emit Signal.activated)
      else some v2

/-- Models `DolphinView::refresh()`. -/
def refresh (v : DolphinView) : Option DolphinView :=
  let v1 : DolphinView := { v with m_ignoreViewProperties := false }
  let oldActivationState := v1.m_active
  let oldZoomLevel := v1.m_controller.zoomLevel
  let v2 : DolphinView := { v1 with m_active := true }
  match v2.createView with
  | none => none
  | some v3 =>
    match v3.applyViewProperties with
    | none => none
    | some v4 =>
      match v4.reload with
      | none => none
      | some v5 =>
        match v5.setActive oldActivationState with
        | none => none
        | some v6 => v6.updateZoomLevel oldZoomLevel

/-- Models `DolphinView::additionalInfo()`. -/
def additionalInfo (v : DolphinView) : Option InformationList :=
  v.m_viewAccessor.itemView.map (fun view => view.showInformation)

/-- Models `DolphinView::setAdditionalInfo(info)`.  The `ViewProperties` object `props` is
changed by `setAdditionalInfo` and written back when it goes out of scope at the
end. -/
def setAdditionalInfo (info : InformationList) (v : DolphinView) : Option DolphinView :=
  let viewPropsUrl := v.rootUrl
  let props : ViewProperties := { v.store.load viewPropsUrl with additionalInfo := info }
  match v.setShowInformation info with
  | none => none
  | some v1 =>
    let v2 := v1.emit Signal.additionalInfoChanged
    let loaded : Option DolphinView :=
      if v2.m_viewAccessor.reloadOnAdditionalInfoChange then v2.loadDirectory viewPropsUrl false
      else some v2
    match loaded with
    | none => none
    | some v3 => some { v3 with store := v3.store.save viewPropsUrl props }

/-- Models `DolphinView::setCategorizedSorting(categorized)`; the assertion is
`Q_ASSERT(!categorized || supportsCategorizedSorting())`. -/
def setCategorizedSorting (categorized : Bool) (v : DolphinView) : Option DolphinView :=
  if categorized = v.categorizedSorting then some v
  else if !(!categorized || v.supportsCategorizedSorting) then none
  else
    let props : ViewProperties :=
      { v.store.load v.rootUrl with categorizedSorting := categorized }
    let v1 : DolphinView := { v with store := v.store.save v.rootUrl props }
    let v2 : DolphinView := { v1 with m_storedCategorizedSorting := categorized }
    let va := v2.m_viewAccessor.modifyProxyModel (fun p => p.setCategorizedModel categorized)
    some (({ v2 with m_viewAccessor := va } : DolphinView).emit Signal.categorizedSortingChanged)

/-- Models `DolphinView::toggleAdditionalInfo(action)`: `info` is the data of the action,
`isChecked` its checked state (the local `show` of the source); the assertion is
`Q_ASSERT(list.indexOf(info) < 0)`. -/
def toggleAdditionalInfo (info : Information) (isChecked : Bool) (v : DolphinView) :
    Option DolphinView :=
  match v.additionalInfo with
  | none => none
  | some list =>
    let index := QList.indexOf info list
    let containsInfo := decide (index ≥ 0)
    if isChecked && !containsInfo then v.setAdditionalInfo (list ++ [info])
    else if !isChecked && containsInfo then
      let list1 := QList.removeAt index list
      match v.setAdditionalInfo list1 with
      | none => none
      | some v1 => if QList.indexOf info list1 < 0 then some v1 else none
    else some v

/-- The value an `int` holds after an operation whose exact result is `x`: `x` reduced to
the 32-bit two's complement range.  (The language leaves an overflowing signed
operation undefined; the wrap-around is what the machine instruction does.) -/
def wrapInt32 (x : Int) : Int := (x + 2 ^ 31) % 2 ^ 32 - 2 ^ 31

/-- Models `DolphinView::calculateItemCount(fileCount, folderCount, totalFileSize)`: the
result are the values of the three reference arguments after the call.  The two
counters are 32-bit `int`s, incremented with `++`; `totalFileSize` is an unsigned
64-bit number. -/
def calculateItemCount (fileCount folderCount : Int) (totalFileSize : Nat) (v : DolphinView) :
    Int × Int × Nat :=
  v.m_viewAccessor.dirLister.items.foldl
    (fun acc item =>
      if item.isDir then (acc.1, wrapInt32 (acc.2.1 + 1), acc.2.2)
      else (wrapInt32 (acc.1 + 1), acc.2.1, (acc.2.2 + item.size) % 2 ^ 64))
    (fileCount, folderCount, totalFileSize)

/-- Models `DolphinView::statusBarText()`; `none` is the failure of
`Q_ASSERT(folderCount > 0)` or a missing item view. -/
def statusBarText (v : DolphinView) : Option StatusBarText :=
  if v.hasSelection then
    match v.selectedItems with
    | none => none
    | some list =>
      if list.isEmpty then some StatusBarText.empty
      else
        let counted : Int × Int × Nat :=
          list.foldl
            (fun acc item =>
              if item.isDir then (acc.1 + 1, acc.2.1, acc.2.2)
              else (acc.1, acc.2.1 + 1, (acc.2.2 + item.size) % 2 ^ 64))
            (0, 0, 0)
        let folderCount := counted.1
        let fileCount := counted.2.1
        let totalFileSize := counted.2.2
        if folderCount + fileCount = 1 then
          match list.head? with
          | none => none
          | some first =>
            if folderCount = 1 then some (StatusBarText.folderSelected first.name)
            else some (StatusBarText.fileSelected first.name totalFileSize)
        else if folderCount > 0 ∧ fileCount > 0 then
          some (StatusBarText.foldersAndFilesSelected folderCount fileCount totalFileSize)
        else if fileCount > 0 then some (StatusBarText.filesSelected fileCount totalFileSize)
        else if folderCount > 0 then some (StatusBarText.foldersSelected folderCount)
        else none
  else
    let counted := v.calculateItemCount 0 0 0
    some (StatusBarText.itemsSummary (counted.1 + counted.2.1) counted.1 counted.2.1 counted.2.2)

/-- The loop of `renameSelectedItems()` over the sorted items: `index` is the number
of the next item. -/
def renameItems (newName : String) : KFileItemList → Nat → DolphinView → DolphinView
  | [], _, v => v
  | item :: rest, index, v =>
    let oldUrl := item.url
    let number := QString.setNum index
    let name := QString.replace (Char.ofNat 35) number newName
    let v1 : DolphinView :=
      if oldUrl.fileName ≠ name then
        { v with renameCalls := v.renameCalls ++ [(oldUrl, oldUrl.setFileName name)] }
      else v
    renameItems newName rest (index + 1) v1

/-- Models `DolphinView::renameSelectedItems()`.  `dialog` is the answer of the rename
dialog, should one be opened; `naturalCompare` stands for
`KStringHandler::naturalCompare`.  The assertion is `Q_ASSERT(newName.contains(hash))`
with `hash` the number sign (character 35). -/
def renameSelectedItems (naturalCompare : String → String → Int) (dialog : RenameDialog)
    (v : DolphinView) : Option DolphinView :=
  match v.selectedItems with
  | none => none
  | some items =>
    let itemCount := items.length
    if itemCount < 1 then some v
    else if itemCount > 1 then
      match dialog with
      | RenameDialog.rejected => some v
      | RenameDialog.accepted newName errorString =>
        if newName.isEmpty then some (v.emit (Signal.errorMessage errorString))
        else
          match v.clearSelection with
          | none => none
          | some v1 =>
            if !QString.contains (Char.ofNat 35) newName then none
            else
              let sorted := qSort (lessThan naturalCompare) items
              let v2 := renameItems newName sorted 1 v1
              some { v2 with m_assureVisibleCurrentIndex := true }
    else if v.settings.renameInline then
      match items.head? with
      | none => none
      | some first =>
        let dirIndex := v.m_viewAccessor.dirModel.indexForItem first
        let proxyIndex := v.m_viewAccessor.proxyModel.mapFromSource dirIndex
        if v.m_viewAccessor.itemView.isNone then none
        else
          some { v with editCalls := v.editCalls ++ [proxyIndex],
                        m_assureVisibleCurrentIndex := true }
    else
      match dialog with
      | RenameDialog.rejected => some v
      | RenameDialog.accepted newName errorString =>
        if newName.isEmpty then some (v.emit (Signal.errorMessage errorString))
        else
          match items.head? with
          | none => none
          | some first =>
            let oldUrl := first.url
            let newUrl := oldUrl.setFileName newName
            some { v with renameCalls := v.renameCalls ++ [(oldUrl, newUrl)],
                          m_assureVisibleCurrentIndex := true }

/-! ## Events delivered by the event loop -/

/-- Invocation of a slot of the view. -/
def runSlot (slot : Slot) (v : DolphinView) : Option DolphinView :=
  match slot with
  | Slot.slotDirListerCompleted => v.slotDirListerCompleted
  | Slot.restoreSelection => v.restoreSelection
  | Slot.slotLoadingCompleted => v.slotLoadingCompleted
  | Slot.restoreContentsPosition => v.restoreContentsPosition
  | Slot.selectAndScrollToCreatedItem => v.selectAndScrollToCreatedItem
  | Slot.emitSelectionChangedSignal => v.emitSelectionChangedSignal

/-- Activation of a signal: the slots connected when the signal is emitted run in
connection order; one that an earlier slot has disconnected is skipped. -/
def activate (connected : DolphinView → List Slot) : List Slot → DolphinView → Option DolphinView
  | [], v => some v
  | slot :: rest, v =>
    if slot ∈ connected v then
      match v.runSlot slot with
      | none => none
      | some v1 => activate connected rest v1
    else activate connected rest v

/-- The directory lister of the view emits `completed()`. -/
def dirListerCompleted (v : DolphinView) : Option DolphinView :=
  activate (fun w => w.m_viewAccessor.dirLister.completedSlots)
    v.m_viewAccessor.dirLister.completedSlots v

/-- The lister has fetched a listing: the source model is reset to `items`, shown
by the proxy in the order `order`, and the selection models, whose indexes are
gone with the old rows, are empty. -/
def listingChanged (items : KFileItemList) (order : List Nat) (v : DolphinView) : DolphinView :=
  let va := (v.m_viewAccessor.modifyDirLister (fun l => { l with items := items })).modifyProxyModel
    (fun p => { p with order := order })
  { v with m_viewAccessor := va,
           selectionModels := v.selectionModels.map (fun _ => ⟨∅, none⟩) }

/-- The expander of the details view emits `completed()`: the slots connected to it
run. -/
def expanderCompleted (v : DolphinView) : Option DolphinView :=
  match v.m_viewAccessor.m_detailsViewExpander with
  | none => some v
  | some expander =>
    activate
      (fun w =>
        match w.m_viewAccessor.m_detailsViewExpander with
        | some e => e.completedSlots
        | none => [])
      expander.completedSlots v

/-- The categorized flag of the proxy model is
`m_storedCategorizedSorting && supportsCategorizedSorting()`. -/
def categorizedInSync (v : DolphinView) : Bool :=
  v.m_viewAccessor.proxyModel.isCategorizedModel
    == (v.m_storedCategorizedSorting && v.supportsCategorizedSorting)

/-- The single-shot timer `m_selectionChangedTimer` expires: a running timer stops
and emits `timeout()`, to which the constructor has connected
`emitSelectionChangedSignal()`; a stopped timer does nothing. -/
def selectionChangedTimerTimeout (v : DolphinView) : Option DolphinView :=
  if v.m_selectionChangedTimerActive then
    ({ v with m_selectionChangedTimerActive := false } : DolphinView).emitSelectionChangedSignal
  else some v

/-- The controller emits `selectionChanged()`: `emitDelayedSelectionChangedSignal()` runs
once for every connection that `createView()` has made. -/
def controllerSelectionChanged (v : DolphinView) : DolphinView :=
  Nat.iterate emitDelayedSelectionChangedSignal v.m_controller.selectionChangedConnections v

/-- The view properties the view shows: its mode, the sorting of its proxy model,
the stored categorized-sorting preference, the information shown by the item
delegate, whether the lister shows hidden files and the preview flag; `none`
without an item view. -/
def shown (v : DolphinView) : Option ViewProperties :=
  v.m_viewAccessor.itemView.map (fun view =>
    { viewMode := v.m_mode,
      sorting := v.m_viewAccessor.proxyModel.sorting,
      sortOrder := v.m_viewAccessor.proxyModel.sortOrder,
      sortFoldersFirst := v.m_viewAccessor.proxyModel.sortFoldersFirst,
      categorizedSorting := v.m_storedCategorizedSorting,
      additionalInfo := view.showInformation,
      showHiddenFiles := v.m_viewAccessor.dirLister.showingDotFiles,
      showPreview := v.m_showPreview })

/-- The selection of the view: the selected cells of the selection model of its
item view (nothing without a view). -/
def selection (v : DolphinView) : QItemSelection :=
  match v.viewSelectionModel with
  | some (_, model) => model.selection
  | none => ∅

/-- The current index of the view. -/
def currentIndex (v : DolphinView) : QModelIndex :=
  match v.viewSelectionModel with
  | some (_, model) => model.currentIndex
  | none => none

/-- The location of the current item of the view: the location of the entry under
the current index, the empty location when there is no such entry. -/
def currentItemUrl (v : DolphinView) : KUrl :=
  match v.m_viewAccessor.dirModel.itemForIndex
      (v.m_viewAccessor.proxyModel.mapToSource v.currentIndex) with
  | some item => item.url
  | none => KUrl.empty

/-- The selection model owned by the view, if it has one, exists. -/
def prepared (v : DolphinView) : Bool :=
  match v.m_selectionModel with
  | some k => decide (k < v.selectionModels.length)
  | none => true

/-- The view has exactly one backend, that of its mode, and this backend uses the
selection model owned by the view. -/
def ready (v : DolphinView) : Bool :=
  v.m_viewAccessor.onlySlot v.m_mode &&
    match v.m_viewAccessor.itemView with
    | some view =>
      decide (v.m_selectionModel = some view.selectionModel) &&
        decide (view.selectionModel < v.selectionModels.length)
    | none => false

/-- What the steps that build or adjust the backend leave alone: the location,
the existing selection models and which of them the view owns, the error
messages emitted so far, the requests made to the lister, the loading flag, the
slots connected to `completed()` of the lister of the shared proxy model, the
stores and the pending markers. -/
structure Frame (v w : DolphinView) : Prop where
  url : w.m_controller.url = v.m_controller.url
  models : ∃ extra, w.selectionModels = v.selectionModels ++ extra
  owned : ∀ k, v.m_selectionModel = some k → w.m_selectionModel = some k
  errors : w.emitted.filter Signal.isErrorMessage = v.emitted.filter Signal.isErrorMessage
  requests : w.openUrlCalls = v.openUrlCalls
  loading : w.m_loadingDirectory = v.m_loadingDirectory
  completed : w.m_viewAccessor.m_proxyModel.sourceModel.dirLister.completedSlots
    = v.m_viewAccessor.m_proxyModel.sourceModel.dirLister.completedSlots
  store : w.store = v.store
  settings : w.settings = v.settings
  selectedItems : w.m_selectedItems = v.m_selectedItems
  newFileNames : w.m_newFileNames = v.m_newFileNames
  createdItemUrl : w.m_createdItemUrl = v.m_createdItemUrl
  activeItemUrl : w.m_activeItemUrl = v.m_activeItemUrl

/-- The two states have the same backend arrangement: the same mode, the same
occupied slots, an item view that uses the same selection model, and the same
selection models. -/
structure SameBackend (v w : DolphinView) : Prop where
  mode : w.m_mode = v.m_mode
  slots : ∀ m, w.m_viewAccessor.onlySlot m = v.m_viewAccessor.onlySlot m
  view : w.m_viewAccessor.itemView.map (fun x => x.selectionModel)
    = v.m_viewAccessor.itemView.map (fun x => x.selectionModel)
  owned : w.m_selectionModel = v.m_selectionModel
  models : w.selectionModels = v.selectionModels

end DolphinView

/-! ## The tree-view sidebar page

A shallow embedding of `dolphin/src/treeviewsidebarpage.cpp` (class
`TreeViewSidebarPage`).  The four objects the page creates on its first show event
are records that hold the part of their state the page reads or writes; calls
whose effect lies outside the page are appended to `calls`. -/

/-- Slots of `TreeViewSidebarPage` that are the target of a `connect`. -/
inductive SidebarSlot
  | triggerLoadSubTree
  | triggerExpanding
  | updateActiveView
  | dropUrls
  deriving DecidableEq, Repr

/-- Calls of the sidebar page whose effect lies outside the page: on its lister, on
its source model, on its tree view and on its base class. -/
inductive SidebarCall
  | stop
  | openUrl (url : KUrl) (reload : Bool)
  | expandToUrl (url : KUrl)
  | scrollTo (index : QModelIndex)
  | resizeColumnToContents
  | showEvent (spontaneous : Bool)
  deriving DecidableEq, Repr

/-- The lister of the tree (`KDirLister`): the location it lists, the folders it
holds, the switches set by `showEvent` and the slots connected to `completed()`. -/
structure TreeDirLister where
  url : KUrl
  items : KFileItemList
  dirOnlyMode : Bool
  autoUpdate : Bool
  delayedMimeTypes : Bool
  autoErrorHandlingEnabled : Bool
  completedSlots : List SidebarSlot
  deriving DecidableEq

/-- Models `KDirLister::openUrl(url, KDirLister::Reload)` as far as the page reads it
back: a valid location becomes `url()` of the lister at once, an invalid one is
refused.  The listing itself arrives later. -/
def TreeDirLister.openUrl (url : KUrl) (l : TreeDirLister) : TreeDirLister :=
  if url.isValid then { l with url := url } else l

/-- The source model of the tree (`DolphinModel`): whether drops on folders are
allowed and the slots connected to `expand(QModelIndex)`.  Its rows are the
entries of the lister. -/
structure TreeDolphinModel where
  dropsOnDirectory : Bool
  expandSlots : List SidebarSlot
  deriving DecidableEq

/-- The proxy of the tree (`DolphinSortFilterProxyModel`): `order` lists the source
rows in the order the proxy shows them. -/
structure TreeProxyModel where
  order : List Nat
  sorting : Sorting
  sortOrder : SortOrder
  deriving DecidableEq

/-- Models `QSortFilterProxyModel::mapFromSource(index)` for the proxy of the tree. -/
def TreeProxyModel.mapFromSource (index : QModelIndex) (p : TreeProxyModel) : QModelIndex :=
  match index with
  | some (sr, c) => (DolphinSortFilterProxyModel.proxyRow sr p.order).map (fun r => (r, c))
  | none => none

/-- The tree widget (`SidebarTreeView`): its selection model and the slots connected
to its signals `clicked` and `urlsDropped`. -/
structure SidebarTreeView where
  selectionModel : QItemSelectionModel
  clickedSlots : List SidebarSlot
  urlsDroppedSlots : List SidebarSlot
  deriving DecidableEq

/-- The state of a `TreeViewSidebarPage`: the location kept by the base class
`SidebarPage`, the members of the class (a null pointer is `none`), the number of
listers constructed so far and the calls made so far. -/
structure TreeViewSidebarPage where
  m_url : KUrl
  m_dirLister : Option TreeDirLister
  m_dolphinModel : Option TreeDolphinModel
  m_proxyModel : Option TreeProxyModel
  m_treeView : Option SidebarTreeView
  m_leafDir : KUrl
  listersCreated : Nat
  calls : List SidebarCall
  deriving DecidableEq

namespace TreeViewSidebarPage

/-- Models the constructor `TreeViewSidebarPage::TreeViewSidebarPage(parent)`; the base
class starts with the empty location. -/
def ctor : TreeViewSidebarPage :=
  { m_url := KUrl.empty, m_dirLister := none, m_dolphinModel := none, m_proxyModel := none,
    m_treeView := none, m_leafDir := KUrl.empty, listersCreated := 0, calls := [] }

/-- Modelled from the spec: `SidebarPage::url()` (the source file of the base class is not
part of the repository): the location the page mirrors. -/
def url (p : TreeViewSidebarPage) : KUrl := p.m_url

/-- Modelled from the spec: `SidebarPage::setUrl(url)` (the source file of the base class
is not part of the repository): the location is stored. -/
def sidebarPageSetUrl (url : KUrl) (p : TreeViewSidebarPage) : TreeViewSidebarPage :=
  { p with m_url := url }

/-- Appends a call to the log. -/
def call (c : SidebarCall) (p : TreeViewSidebarPage) : TreeViewSidebarPage :=
  { p with calls := p.calls ++ [c] }

/-- Models `TreeViewSidebarPage::loadSubTree()`. -/
def loadSubTree (p : TreeViewSidebarPage) : Option TreeViewSidebarPage :=
  match p.m_treeView with
  | none => none
  | some treeView =>
    let cleared : SidebarTreeView :=
      { treeView with selectionModel := treeView.selectionModel.clearSelection }
    let p1 : TreeViewSidebarPage := { p with m_treeView := some cleared }
    match p1.m_dirLister with
    | none => none
    | some lister =>
      if p1.m_leafDir.isParentOf lister.url then
        some (p1.call SidebarCall.resizeColumnToContents)
      else
        match p1.m_dolphinModel with
        | none => none
        | some _ =>
          let index : QModelIndex := (findRow p1.m_leafDir lister.items).map (fun r => (r, 0))
          if index.isSome then
            match p1.m_proxyModel with
            | none => none
            | some proxy =>
              let proxyIndex := proxy.mapFromSource index
              let p2 := p1.call (SidebarCall.scrollTo proxyIndex)
              let selecting : SidebarTreeView :=
                { cleared with selectionModel :=
                    cleared.selectionModel.setCurrentIndex proxyIndex SelectionFlags.Select }
              let p3 : TreeViewSidebarPage := { p2 with m_treeView := some selecting }
              some (p3.call SidebarCall.resizeColumnToContents)
          else
            some ((p1.call (SidebarCall.expandToUrl p1.m_leafDir)).call
              SidebarCall.resizeColumnToContents)

/-- The root of the tree for the leaf `url`, as `loadTree` computes it:
`closestPlaceUrl url` stands for `placesModel->url(placesModel->closestItem(url))` of
the places model of the settings. -/
def baseUrl (closestPlaceUrl : KUrl → KUrl) (url : KUrl) : KUrl :=
  if !(closestPlaceUrl url).isValid then url else closestPlaceUrl url

/-- Models `TreeViewSidebarPage::loadTree(url)`. -/
def loadTree (closestPlaceUrl : KUrl → KUrl) (url : KUrl) (p : TreeViewSidebarPage) :
    Option TreeViewSidebarPage :=
  match p.m_dirLister with
  | none => none
  | some lister =>
    let p1 : TreeViewSidebarPage := { p with m_leafDir := url }
    let base := baseUrl closestPlaceUrl url
    let loaded : Option TreeViewSidebarPage :=
      if lister.url ≠ base then
        let p2 := p1.call SidebarCall.stop
        let p3 : TreeViewSidebarPage := { p2 with m_dirLister := some (lister.openUrl base) }
        some (p3.call (SidebarCall.openUrl base true))
      else p1.loadSubTree
    match loaded with
    | none => none
    | some p4 =>
      match p4.m_treeView with
      | none => none
      | some _ => some (p4.call SidebarCall.resizeColumnToContents)

/-- Models `TreeViewSidebarPage::setUrl(url)`. -/
def setUrl (closestPlaceUrl : KUrl → KUrl) (url : KUrl) (p : TreeViewSidebarPage) :
    Option TreeViewSidebarPage :=
  if !url.isValid || decide (url = p.url) then some p
  else
    let p1 := p.sidebarPageSetUrl url
    if p1.m_dirLister.isSome then p1.loadTree closestPlaceUrl url else some p1

/-- The block of `showEvent` that runs when `m_dirLister` is null: the lister, the
source model, the proxy and the tree view are constructed and connected. -/
def createTree (p : TreeViewSidebarPage) : Option TreeViewSidebarPage :=
  let lister : TreeDirLister :=
    { url := KUrl.empty, items := [], dirOnlyMode := true, autoUpdate := true,
      delayedMimeTypes := true, autoErrorHandlingEnabled := false,
      completedSlots := [SidebarSlot.triggerLoadSubTree] }
  let p1 : TreeViewSidebarPage :=
    { p with m_dirLister := some lister, listersCreated := p.listersCreated + 1 }
  if p1.m_dolphinModel.isSome then none
  else
    let p2 : TreeViewSidebarPage :=
      { p1 with m_dolphinModel := some ⟨true, [SidebarSlot.triggerExpanding]⟩ }
    if p2.m_proxyModel.isSome then none
    else
      let proxy : TreeProxyModel := ⟨[], Sorting.SortByName, SortOrder.AscendingOrder⟩
      let p3 : TreeViewSidebarPage := { p2 with m_proxyModel := some proxy }
      if p3.m_treeView.isSome then none
      else
        let treeView : SidebarTreeView :=
          ⟨⟨∅, none⟩, [SidebarSlot.updateActiveView], [SidebarSlot.dropUrls]⟩
        some { p3 with m_treeView := some treeView }

/-- Models `TreeViewSidebarPage::showEvent(event)`; `spontaneous` is
`event->spontaneous()`. -/
def showEvent (closestPlaceUrl : KUrl → KUrl) (spontaneous : Bool) (p : TreeViewSidebarPage) :
    Option TreeViewSidebarPage :=
  if spontaneous then some (p.call (SidebarCall.showEvent true))
  else
    let created : Option TreeViewSidebarPage :=
      if p.m_dirLister.isNone then p.createTree else some p
    match created with
    | none => none
    | some p1 =>
      match p1.loadTree closestPlaceUrl p1.url with
      | none => none
      | some p2 => some (p2.call (SidebarCall.showEvent false))

/-- What reaches the page from outside: a new location of the active view, or a show
event. -/
inductive Request
  | setUrl (url : KUrl)
  | showEvent (spontaneous : Bool)
  deriving DecidableEq, Repr

/-- A show event that the window system did not send. -/
def Request.isShow : Request → Bool
  | Request.showEvent false => true
  | _ => false

/-- Serves one request. -/
def serve (closestPlaceUrl : KUrl → KUrl) (request : Request) (p : TreeViewSidebarPage) :
    Option TreeViewSidebarPage :=
  match request with
  | Request.setUrl url => p.setUrl closestPlaceUrl url
  | Request.showEvent spontaneous => p.showEvent closestPlaceUrl spontaneous

/-- Serves the requests in order. -/
def serveAll (closestPlaceUrl : KUrl → KUrl) :
    List Request → TreeViewSidebarPage → Option TreeViewSidebarPage
  | [], p => some p
  | request :: rest, p =>
    match p.serve closestPlaceUrl request with
    | none => none
    | some p1 => serveAll closestPlaceUrl rest p1

/-- None of the four objects of the tree exists. -/
def unshown (p : TreeViewSidebarPage) : Bool :=
  p.m_dirLister.isNone && p.m_dolphinModel.isNone && p.m_proxyModel.isNone && p.m_treeView.isNone

/-- All four objects of the tree exist. -/
def shown (p : TreeViewSidebarPage) : Bool :=
  p.m_dirLister.isSome && p.m_dolphinModel.isSome && p.m_proxyModel.isSome && p.m_treeView.isSome

end TreeViewSidebarPage

/-! ## A concrete view

The directory `/home` with the file `a` and the folder `b`; the proxy shows the
folder first. -/

namespace Example

/-- The location `/home`. -/
def home : KUrl := KUrl.path ["home"] false

/-- The location `/tmp`. -/
def tmp : KUrl := KUrl.path ["tmp"] false

/-- The file `/home/a`. -/
def itemA : KFileItem := ⟨KUrl.path ["home", "a"] false, false, 10⟩

/-- The folder `/home/b`. -/
def itemB : KFileItem := ⟨KUrl.path ["home", "b"] false, true, 0⟩

/-- Default view properties: icons, by name, ascending, folders first. -/
def props : ViewProperties :=
  ⟨Mode.IconsView, Sorting.SortByName, SortOrder.AscendingOrder, true, false, [], false, false⟩

/-- A store in which nothing was saved yet. -/
def store : ViewPropertiesStore := ⟨[], props⟩

/-- A store in which `/home` is shown with categorized sorting. -/
def categorizedStore : ViewPropertiesStore :=
  ⟨[(home, { props with categorizedSorting := true })], props⟩

/-- Settings with the zoom range 0 to 16. -/
def settings : Settings := ⟨false, false, true, 4, 2, 2, 0, 16⟩

/-- The proxy model over the listing of `/home`. -/
def proxy : DolphinSortFilterProxyModel :=
  { sourceModel :=
      { dirLister := ⟨[itemA, itemB], false, []⟩,
        columnCount := 2,
        hasVersionData := false,
        rowsInsertedSlots := [] },
    order := [1, 0],
    isCategorizedModel := false,
    sorting := Sorting.SortByName,
    sortOrder := SortOrder.AscendingOrder,
    sortFoldersFirst := true }

/-- The view as the constructor leaves it. -/
def constructed : DolphinView :=
  (DolphinView.ctor home proxy store settings 4 false).get (by decide)

/-- The constructed view after the user has clicked the file `a` (proxy row 1). -/
def selected : DolphinView :=
  (constructed.viewSetCurrentIndex (some (1, 0))).get (by decide)

/-- The view constructed over a store in which `/home` has categorized sorting. -/
def categorized : DolphinView :=
  (DolphinView.ctor home proxy categorizedStore settings 4 false).get (by decide)

/-- The file `/tmp/c`. -/
def itemC : KFileItem := ⟨KUrl.path ["tmp", "c"] false, false, 1⟩

/-- The view with the file `a` selected, after `reload()`. -/
def reloaded : DolphinView := (selected.reload).get (by decide)

/-- The reloaded view after `setUrl(/tmp)`, once the listing of `/tmp` has arrived
and the user has clicked the file `c`. -/
def stale : DolphinView :=
  ((reloaded.setUrl tmp).bind (fun v =>
    (v.listingChanged [itemC] [0]).viewSetCurrentIndex (some (0, 0)))).get (by decide)

/-- The constructed view while the names of pasted files are watched. -/
def pasting : DolphinView := { constructed with m_newFileNames := {"c"} }

/-- The view with the file `a` selected, switched to the column view. -/
def columns : DolphinView := (selected.setMode Mode.ColumnView).get (by decide)

/-- The column view while its active column is the source of a drag. -/
def draggingColumn : DolphinView :=
  { columns with dragSource := columns.m_viewAccessor.itemView.map (fun view => view.objectId) }

/-- The constructed icons view while it is the source of a drag. -/
def draggingIcons : DolphinView :=
  { constructed with
    dragSource := constructed.m_viewAccessor.itemView.map (fun view => view.objectId) }

/-- The file `/home/new`. -/
def itemNew : KFileItem := ⟨KUrl.path ["home", "new"] false, false, 0⟩

/-- The view that watches pasted names, after the creation of `/home/new` was
announced. -/
def creating : DolphinView := pasting.observeCreatedItem itemNew.url

/-- A comparison of names in place of `KStringHandler::naturalCompare`: shorter names
first, names of the same length by their first character. -/
def compareNames (a b : String) : Int :=
  if a.length ≠ b.length then (a.length : Int) - (b.length : Int)
  else ((a.toList.headD (Char.ofNat 0)).toNat : Int) - ((b.toList.headD (Char.ofNat 0)).toNat : Int)

/-- The view with the file `a` selected, switched to the details view. -/
def details : DolphinView := (selected.setMode Mode.DetailsView).get (by decide)

/-- The constructed view with the folder `b` and the file `a` selected (column 0 of
both proxy rows). -/
def bothSelected : DolphinView :=
  constructed.setSelectionModelState 0 ⟨{(0, 0), (1, 0)}, some (0, 0)⟩

/-- The details view after `restoreState` with the folder `b` to be expanded: the
expansion has started and has not reported completion. -/
def restoring : DolphinView :=
  (details.restoreState [StreamItem.url KUrl.empty, StreamItem.point 0 0,
    StreamItem.urlSet {itemB.url}]).1

/-- Settings with global view properties. -/
def globalSettings : Settings := { settings with globalViewProps := true }

/-- A store in which `/home` is shown as details view with previews. -/
def detailsStore : ViewPropertiesStore :=
  ⟨[(home, { props with viewMode := Mode.DetailsView, showPreview := true })], props⟩

/-- The constructed view under global view properties, with the details store,
before any `applyViewProperties()` has set `m_ignoreViewProperties`. -/
def unapplied : DolphinView :=
  { constructed with settings := globalSettings, store := detailsStore }

/-- The view constructed under global view properties (the constructor has applied
the default properties), after the store was changed behind its back. -/
def overridden : DolphinView :=
  { (DolphinView.ctor home proxy store globalSettings 4 false).get (by decide) with
    store := detailsStore }

/-- A places model without entries: no place is close to any location. -/
def noPlaces : KUrl → KUrl := fun _ => KUrl.empty

/-- A places model whose only place is `/home`. -/
def homePlace : KUrl → KUrl := fun url => if home.isParentOf url then home else KUrl.empty

/-- The sidebar page after its first show event for `/home`. -/
def sidebar : TreeViewSidebarPage :=
  ((TreeViewSidebarPage.ctor.setUrl homePlace home).bind
    (TreeViewSidebarPage.showEvent homePlace false)).get (by decide)

/-- The sidebar page whose tree, rooted at `/home`, holds the folder `/home/b`. -/
def sidebarListed : TreeViewSidebarPage :=
  { sidebar with
    m_dirLister := sidebar.m_dirLister.map (fun l => { l with items := [itemB] }),
    m_proxyModel := sidebar.m_proxyModel.map (fun p => { p with order := [0] }) }

/-- The view of `/home` after a listing with the folders `b` and `d`, both selected. -/
def foldersSelected : DolphinView :=
  (constructed.listingChanged [itemB, ⟨KUrl.path ["home", "d"] false, true, 0⟩]
    [0, 1]).setSelectionModelState 0 ⟨{(0, 0), (1, 0)}, some (0, 0)⟩

/-- The details view with the file `a` current, scrolled to the position (3, 40), in
which the folder `b` is expanded. -/
def scrolled : DolphinView :=
  let v : DolphinView := (details.setContentsPosition 3 40).get (by decide)
  let expanded : Option DolphinDetailsView :=
    v.m_viewAccessor.m_detailsView.map (fun d => { d with expandedUrls := {itemB.url} })
  { v with m_viewAccessor := { v.m_viewAccessor with m_detailsView := expanded } }

/-- A freshly constructed view of `/home`, for which the store asks for the details
view. -/
def freshDetails : DolphinView :=
  (DolphinView.ctor home proxy detailsStore settings 4 false).get (by decide)

end Example

/-! ## Properties -/

namespace DolphinView

/-! ### Selection model access -/

theorem viewSelectionModel_setSelectionModelState {v : DolphinView} {k : Nat}
    {model : QItemSelectionModel} (model' : QItemSelectionModel)
    (h : v.viewSelectionModel = some (k, model)) :
    (v.setSelectionModelState k model').viewSelectionModel = some (k, model') := by
  unfold viewSelectionModel at h ⊢
  unfold setSelectionModelState
  cases hv : v.m_viewAccessor.itemView with
  | none => simp [hv] at h
  | some view =>
    simp only [hv] at h ⊢
    cases hm : v.selectionModels[view.selectionModel]? with
    | none => simp [hm] at h
    | some m0 =>
      simp only [hm, Option.some.injEq, Prod.mk.injEq] at h
      obtain ⟨hk, -⟩ := h
      subst hk
      have hlt : view.selectionModel < v.selectionModels.length := by
        by_contra hge
        rw [List.getElem?_eq_none (not_lt.mp hge)] at hm
        exact Option.noConfusion hm
      simp [List.getElem?_set_self hlt]

theorem extent_eq_range (p : DolphinSortFilterProxyModel) :
    QItemSelection.range (p.index 0 0) (p.index ((p.rowCount : Int) - 1) ((p.columnCount : Int) - 1))
      = p.extent := by
  unfold DolphinSortFilterProxyModel.index DolphinSortFilterProxyModel.extent QItemSelection.range
  by_cases hr : p.rowCount = 0
  · simp [hr]
  · by_cases hc : p.columnCount = 0
    · simp [hc]
    · have h1 : (0 : Int) ≤ 0 ∧ (0 : Int) < (p.rowCount : Int) ∧ (0 : Int) ≤ 0 ∧
          (0 : Int) < (p.columnCount : Int) := by omega
      have h2 : (0 : Int) ≤ (p.rowCount : Int) - 1 ∧ (p.rowCount : Int) - 1 < (p.rowCount : Int) ∧
          (0 : Int) ≤ (p.columnCount : Int) - 1 ∧
          (p.columnCount : Int) - 1 < (p.columnCount : Int) := by omega
      rw [if_pos h1, if_pos h2]
      ext ⟨r, c⟩
      simp only [Finset.mem_product, Finset.mem_Icc, Finset.mem_range]
      have e1 : ((p.rowCount : Int) - 1).toNat = p.rowCount - 1 := by omega
      have e2 : ((p.columnCount : Int) - 1).toNat = p.columnCount - 1 := by omega
      simp only [e1, e2, Int.toNat_zero]
      omega

/-! ### Frame and readiness -/

theorem Frame.same (v : DolphinView) : Frame v v :=
  ⟨rfl, ⟨[], by simp⟩, fun _ h => h, rfl, rfl, rfl, rfl, rfl, rfl, rfl, rfl, rfl, rfl⟩

theorem Frame.andThen {a b c : DolphinView} (h1 : Frame a b) (h2 : Frame b c) : Frame a c := by
  obtain ⟨e1, he1⟩ := h1.models
  obtain ⟨e2, he2⟩ := h2.models
  exact
    { url := h2.url.trans h1.url
      models := ⟨e1 ++ e2, by rw [he2, he1, List.append_assoc]⟩
      owned := fun k hk => h2.owned k (h1.owned k hk)
      errors := h2.errors.trans h1.errors
      requests := h2.requests.trans h1.requests
      loading := h2.loading.trans h1.loading
      completed := h2.completed.trans h1.completed
      store := h2.store.trans h1.store
      settings := h2.settings.trans h1.settings
      selectedItems := h2.selectedItems.trans h1.selectedItems
      newFileNames := h2.newFileNames.trans h1.newFileNames
      createdItemUrl := h2.createdItemUrl.trans h1.createdItemUrl
      activeItemUrl := h2.activeItemUrl.trans h1.activeItemUrl }

namespace ViewAccessor

theorem itemView_eq_none_iff (va : ViewAccessor) :
    va.itemView = none ↔
      va.m_iconsView = none ∧ va.m_detailsView = none ∧ va.m_columnsContainer = none := by
  unfold itemView
  cases va.m_iconsView <;> cases va.m_detailsView <;> cases va.m_columnsContainer <;> simp

theorem deleteView_slots (d : Option Nat) (va : ViewAccessor) :
    (va.deleteView d).1.m_iconsView = none ∧ (va.deleteView d).1.m_detailsView = none ∧
      (va.deleteView d).1.m_columnsContainer = none :=
  ⟨rfl, rfl, rfl⟩

theorem deleteView_rest (d : Option Nat) (va : ViewAccessor) :
    (va.deleteView d).1.m_proxyModel = va.m_proxyModel ∧
      (va.deleteView d).1.m_detailsViewExpander = va.m_detailsViewExpander := by
  unfold deleteView
  cases va.itemView with
  | none => exact ⟨rfl, rfl⟩
  | some view =>
    by_cases h : d = some view.objectId
    · simp [h]
    · simp [h]

theorem itemView_modifyProxyModel (f : DolphinSortFilterProxyModel → DolphinSortFilterProxyModel)
    (va : ViewAccessor) : (va.modifyProxyModel f).itemView = va.itemView := by
  obtain ⟨i, d, c, p, g, e⟩ := va
  cases i <;> cases d <;> cases c <;> rfl

theorem onlySlot_modifyProxyModel (f : DolphinSortFilterProxyModel → DolphinSortFilterProxyModel)
    (m : Mode) (va : ViewAccessor) : (va.modifyProxyModel f).onlySlot m = va.onlySlot m := by
  obtain ⟨i, d, c, p, g, e⟩ := va
  cases i <;> cases d <;> cases c <;> cases m <;> rfl

theorem completed_modifyProxyModel (f : DolphinSortFilterProxyModel → DolphinSortFilterProxyModel)
    (hf : ∀ p, (f p).sourceModel.dirLister.completedSlots = p.sourceModel.dirLister.completedSlots)
    (va : ViewAccessor) :
    (va.modifyProxyModel f).m_proxyModel.sourceModel.dirLister.completedSlots
      = va.m_proxyModel.sourceModel.dirLister.completedSlots := by
  obtain ⟨i, d, c, p, g, e⟩ := va
  cases c with
  | none => exact hf _
  | some c => rfl

theorem itemView_modifyItemView (f : QAbstractItemView → QAbstractItemView) (va : ViewAccessor) :
    (va.modifyItemView f).itemView = va.itemView.map f := by
  obtain ⟨i, d, c, p, g, e⟩ := va
  cases i <;> cases d <;> cases c <;> rfl

theorem onlySlot_modifyItemView (f : QAbstractItemView → QAbstractItemView) (m : Mode)
    (va : ViewAccessor) : (va.modifyItemView f).onlySlot m = va.onlySlot m := by
  obtain ⟨i, d, c, p, g, e⟩ := va
  cases i <;> cases d <;> cases c <;> cases m <;> rfl

theorem proxyModel_modifyItemView (f : QAbstractItemView → QAbstractItemView)
    (va : ViewAccessor) :
    (va.modifyItemView f).m_proxyModel = va.m_proxyModel ∧
      (va.modifyItemView f).proxyModel = va.proxyModel := by
  obtain ⟨i, d, c, p, g, e⟩ := va
  cases i <;> cases d <;> cases c <;> exact ⟨rfl, rfl⟩

end ViewAccessor

theorem deleteView_spec (v : DolphinView) :
    ∃ (va : ViewAccessor) (calls : List QtCall),
      v.deleteView = { v with m_viewAccessor := va, qtCalls := v.qtCalls ++ calls } ∧
      va.m_iconsView = none ∧ va.m_detailsView = none ∧ va.m_columnsContainer = none ∧
      va.m_proxyModel = v.m_viewAccessor.m_proxyModel ∧
      va.m_detailsViewExpander = v.m_viewAccessor.m_detailsViewExpander := by
  unfold deleteView
  cases h : v.m_viewAccessor.itemView with
  | none =>
    obtain ⟨h1, h2, h3⟩ := (ViewAccessor.itemView_eq_none_iff _).mp h
    exact ⟨v.m_viewAccessor, [], by simp, h1, h2, h3, rfl, rfl⟩
  | some view =>
    obtain ⟨h1, h2, h3⟩ := ViewAccessor.deleteView_slots v.dragSource v.m_viewAccessor
    obtain ⟨h4, h5⟩ := ViewAccessor.deleteView_rest v.dragSource v.m_viewAccessor
    exact ⟨_, _, rfl, h1, h2, h3, h4, h5⟩

theorem createView_spec (v : DolphinView) (hp : v.prepared = true) :
    ∃ (va : ViewAccessor) (view : QAbstractItemView) (calls : List QtCall),
      v.createView = some { v with
          m_viewAccessor := va,
          selectionModels := v.selectionModels ++ [⟨∅, none⟩],
          nextObjectId := v.nextObjectId + 2,
          m_controller :=
            { v.m_controller with
              itemView := some view.objectId,
              selectionChangedConnections := v.m_controller.selectionChangedConnections + 1 },
          m_selectionModel := some view.selectionModel,
          qtCalls := v.qtCalls ++ calls } ∧
      va.onlySlot v.m_mode = true ∧ va.itemView = some view ∧
      view.selectionModel < v.selectionModels.length + 1 ∧
      (∀ j, v.m_selectionModel = some j → view.selectionModel = j) ∧
      va.m_proxyModel = v.m_viewAccessor.m_proxyModel ∧
      va.m_detailsViewExpander = v.m_viewAccessor.m_detailsViewExpander := by
  obtain ⟨va0, calls, hd, h1, h2, h3, h4, h5⟩ := deleteView_spec v
  have hnone : va0.itemView = none := (ViewAccessor.itemView_eq_none_iff _).mpr ⟨h1, h2, h3⟩
  unfold createView
  rw [hd]
  obtain ⟨i0, d0, c0, p0, g0, e0⟩ := va0
  simp only at h1 h2 h3 h4 h5
  subst h1 h2 h3
  cases hmode : v.m_mode <;> cases hsel : v.m_selectionModel <;>
    simp only [prepared, hsel, decide_eq_true_eq] at hp <;>
    simp [ViewAccessor.createView, ViewAccessor.itemView, hmode, hsel, newBackend,
      ViewAccessor.modifyItemView, ViewAccessor.onlySlot, h4, h5] <;>
    (first
      | (refine ⟨_, ⟨v.nextObjectId, _, [], v.settings.iconsZoomLevel, 0, 0, false⟩,
          ⟨rfl, rfl, rfl⟩, ?_⟩
         simp
         first | done | omega)
      | (refine ⟨_, ⟨v.nextObjectId, _, [], v.settings.detailsZoomLevel, 0, 0, false⟩,
          ⟨rfl, rfl, rfl⟩, ?_⟩
         simp
         first | done | omega)
      | (refine ⟨_, ⟨v.nextObjectId, _, [], v.settings.columnsZoomLevel, 0, 0, false⟩,
          ⟨rfl, rfl, rfl⟩, ?_⟩
         simp
         first | done | omega))

theorem SameBackend.unchanged (v : DolphinView) : SameBackend v v :=
  ⟨rfl, fun _ => rfl, rfl, rfl, rfl⟩

theorem SameBackend.followedBy {a b c : DolphinView} (h1 : SameBackend a b) (h2 : SameBackend b c) :
    SameBackend a c :=
  ⟨h2.mode.trans h1.mode, fun m => (h2.slots m).trans (h1.slots m), h2.view.trans h1.view,
    h2.owned.trans h1.owned, h2.models.trans h1.models⟩

theorem ready_iff (v : DolphinView) :
    v.ready = true ↔
      v.m_viewAccessor.onlySlot v.m_mode = true ∧
        ∃ view, v.m_viewAccessor.itemView = some view ∧
          v.m_selectionModel = some view.selectionModel ∧
          view.selectionModel < v.selectionModels.length := by
  unfold ready
  cases v.m_viewAccessor.itemView with
  | none => simp
  | some view => simp

theorem ready_prepared {v : DolphinView} (h : v.ready = true) : v.prepared = true := by
  obtain ⟨-, view, -, h2, h3⟩ := (ready_iff v).mp h
  simp [prepared, h2, h3]

theorem ready_itemView {v : DolphinView} (h : v.ready = true) :
    v.m_viewAccessor.itemView.isSome = true := by
  obtain ⟨-, view, h1, -, -⟩ := (ready_iff v).mp h
  simp [h1]

theorem SameBackend.ready {v w : DolphinView} (h : SameBackend v w) (hr : v.ready = true) :
    w.ready = true := by
  obtain ⟨h1, view, h2, h3, h4⟩ := (ready_iff v).mp hr
  rw [ready_iff]
  have hv := h.view
  rw [h2] at hv
  cases hw : w.m_viewAccessor.itemView with
  | none => simp [hw] at hv
  | some view' =>
    simp only [hw, Option.map_some', Option.some.injEq] at hv
    refine ⟨by rw [h.mode, h.slots]; exact h1, view', rfl, ?_, ?_⟩
    · rw [h.owned, h3, hv]
    · rw [h.models, hv]; exact h4

theorem SameBackend.selection_same {v w : DolphinView} (h : SameBackend v w) :
    w.viewSelectionModel = v.viewSelectionModel := by
  have hv := h.view
  unfold DolphinView.viewSelectionModel
  rw [h.models]
  cases hw : w.m_viewAccessor.itemView with
  | none =>
    cases hv' : v.m_viewAccessor.itemView with
    | none => rfl
    | some x => simp [hw, hv'] at hv
  | some view' =>
    cases hv' : v.m_viewAccessor.itemView with
    | none => simp [hw, hv'] at hv
    | some x =>
      simp only [hw, hv', Option.map_some', Option.some.injEq] at hv
      simp only [hv]

/-- A ready view that stays ready inside a frame keeps the state of its selection
model. -/
theorem Frame.selection_kept {v w : DolphinView} (h : Frame v w) (hv : v.ready = true)
    (hw : w.ready = true) : w.viewSelectionModel = v.viewSelectionModel := by
  obtain ⟨-, view, h2, h3, h4⟩ := (ready_iff v).mp hv
  obtain ⟨-, view', h2', h3', h4'⟩ := (ready_iff w).mp hw
  obtain ⟨extra, he⟩ := h.models
  have hk : view'.selectionModel = view.selectionModel := by
    have := h.owned _ h3
    rw [h3'] at this
    exact Option.some.inj this
  unfold DolphinView.viewSelectionModel
  rw [h2, h2', he]
  simp only [hk, List.getElem?_append_left h4]

theorem createView_ready (v : DolphinView) (hp : v.prepared = true) :
    ∃ v', v.createView = some v' ∧ v'.ready = true ∧ Frame v v' ∧ v'.m_mode = v.m_mode ∧
      v'.m_viewAccessor.m_proxyModel = v.m_viewAccessor.m_proxyModel ∧
      v'.m_showPreview = v.m_showPreview ∧ v'.m_ignoreViewProperties = v.m_ignoreViewProperties ∧
      v'.emitted = v.emitted := by
  obtain ⟨va, view, calls, hc, h1, h2, h3, h4, h5, h6⟩ := createView_spec v hp
  refine ⟨_, hc, ?_, ?_, rfl, h5, rfl, rfl, rfl⟩
  · rw [ready_iff]
    exact ⟨h1, view, h2, rfl, by simpa using h3⟩
  · exact
      { url := rfl
        models := ⟨_, rfl⟩
        owned := fun k hk => by rw [h4 k hk]
        errors := rfl
        requests := rfl
        loading := rfl
        completed := by rw [h5]
        store := rfl
        settings := rfl
        selectedItems := rfl
        newFileNames := rfl
        createdItemUrl := rfl
        activeItemUrl := rfl }

/-! ### Steps that keep the backend -/

theorem emit_same (s : Signal) (v : DolphinView) : SameBackend v (v.emit s) :=
  ⟨rfl, fun _ => rfl, rfl, rfl, rfl⟩

theorem emit_frame (s : Signal) (hs : s.isErrorMessage = false) (v : DolphinView) :
    Frame v (v.emit s) :=
  { url := rfl
    models := ⟨[], by simp [emit]⟩
    owned := fun _ h => h
    errors := by simp [emit, List.filter_append, hs]
    requests := rfl
    loading := rfl
    completed := rfl
    store := rfl
    settings := rfl
    selectedItems := rfl
    newFileNames := rfl
    createdItemUrl := rfl
    activeItemUrl := rfl }

theorem modifyProxyModel_same (f : DolphinSortFilterProxyModel → DolphinSortFilterProxyModel)
    (v : DolphinView) :
    SameBackend v { v with m_viewAccessor := v.m_viewAccessor.modifyProxyModel f } :=
  ⟨rfl, fun m => ViewAccessor.onlySlot_modifyProxyModel f m _,
    by simp [ViewAccessor.itemView_modifyProxyModel], rfl, rfl⟩

theorem modifyProxyModel_frame (f : DolphinSortFilterProxyModel → DolphinSortFilterProxyModel)
    (hf : ∀ p, (f p).sourceModel.dirLister.completedSlots = p.sourceModel.dirLister.completedSlots)
    (v : DolphinView) :
    Frame v { v with m_viewAccessor := v.m_viewAccessor.modifyProxyModel f } :=
  { url := rfl
    models := ⟨[], by simp⟩
    owned := fun _ h => h
    errors := rfl
    requests := rfl
    loading := rfl
    completed := ViewAccessor.completed_modifyProxyModel f hf _
    store := rfl
    settings := rfl
    selectedItems := rfl
    newFileNames := rfl
    createdItemUrl := rfl
    activeItemUrl := rfl }

theorem modifyItemView_same (f : QAbstractItemView → QAbstractItemView)
    (hf : ∀ x, (f x).selectionModel = x.selectionModel) (v : DolphinView) :
    SameBackend v { v with m_viewAccessor := v.m_viewAccessor.modifyItemView f } :=
  ⟨rfl, fun m => ViewAccessor.onlySlot_modifyItemView f m _,
    by
      simp only [ViewAccessor.itemView_modifyItemView, Option.map_map]
      congr 1
      funext x
      exact hf x,
    rfl, rfl⟩

theorem modifyItemView_frame (f : QAbstractItemView → QAbstractItemView) (v : DolphinView) :
    Frame v { v with m_viewAccessor := v.m_viewAccessor.modifyItemView f } :=
  { url := rfl
    models := ⟨[], by simp⟩
    owned := fun _ h => h
    errors := rfl
    requests := rfl
    loading := rfl
    completed := by rw [(ViewAccessor.proxyModel_modifyItemView f _).1]
    store := rfl
    settings := rfl
    selectedItems := rfl
    newFileNames := rfl
    createdItemUrl := rfl
    activeItemUrl := rfl }

theorem controllerSetZoomLevel_same (z : Int) (v : DolphinView) :
    SameBackend v (v.controllerSetZoomLevel z) :=
  ⟨rfl, fun _ => rfl, rfl, rfl, rfl⟩

theorem controllerSetZoomLevel_frame (z : Int) (v : DolphinView) :
    Frame v (v.controllerSetZoomLevel z) :=
  { url := rfl
    models := ⟨[], by simp [controllerSetZoomLevel]⟩
    owned := fun _ h => h
    errors := rfl
    requests := rfl
    loading := rfl
    completed := rfl
    store := rfl
    settings := rfl
    selectedItems := rfl
    newFileNames := rfl
    createdItemUrl := rfl
    activeItemUrl := rfl }

theorem updateZoomLevel_spec (z : Int) (v : DolphinView)
    (hv : v.m_viewAccessor.itemView.isSome = true) :
    ∃ v', v.updateZoomLevel z = some v' ∧ SameBackend v v' ∧ Frame v v' ∧
      v'.m_viewAccessor = v.m_viewAccessor ∧ v'.m_showPreview = v.m_showPreview ∧
      v'.m_ignoreViewProperties = v.m_ignoreViewProperties ∧
      v'.m_storedCategorizedSorting = v.m_storedCategorizedSorting := by
  obtain ⟨view, hview⟩ := Option.isSome_iff_exists.mp hv
  unfold updateZoomLevel
  rw [hview]
  by_cases hz : z = view.iconZoomLevel
  · simp only [hz, ne_eq, not_true_eq_false, if_false]
    exact ⟨_, rfl, SameBackend.unchanged _, Frame.same _, rfl, rfl, rfl, rfl⟩
  · simp only [ne_eq, hz, not_false_eq_true, if_true]
    exact ⟨_, rfl, (controllerSetZoomLevel_same _ _).followedBy (emit_same _ _),
      (controllerSetZoomLevel_frame _ _).andThen
        (emit_frame (Signal.zoomLevelChanged view.iconZoomLevel) rfl _), rfl, rfl, rfl, rfl⟩

theorem setShowInformation_spec (info : InformationList) (v : DolphinView)
    (hv : v.m_viewAccessor.itemView.isSome = true) :
    ∃ v', v.setShowInformation info = some v' ∧ SameBackend v v' ∧ Frame v v' ∧
      v' = { v with m_viewAccessor :=
        v.m_viewAccessor.modifyItemView (fun w => { w with showInformation := info }) } := by
  obtain ⟨view, hview⟩ := Option.isSome_iff_exists.mp hv
  unfold setShowInformation
  rw [hview]
  exact ⟨_, rfl,
    modifyItemView_same (fun w => { w with showInformation := info }) (fun _ => rfl) _,
    modifyItemView_frame _ _, rfl⟩

theorem ViewAccessor.proxyModel_modifyProxyModel
    (f : DolphinSortFilterProxyModel → DolphinSortFilterProxyModel) (va : ViewAccessor) :
    (va.modifyProxyModel f).proxyModel = f va.proxyModel := by
  obtain ⟨i, d, c, p, g, e⟩ := va
  cases c <;> rfl

theorem ViewAccessor.supports_of_onlySlot {va : ViewAccessor} {m : Mode}
    (h : va.onlySlot m = true) : va.supportsCategorizedSorting = decide (m = Mode.IconsView) := by
  obtain ⟨i, d, c, p, g, e⟩ := va
  cases m <;> cases i <;> cases d <;> cases c <;>
    simp [ViewAccessor.onlySlot, ViewAccessor.supportsCategorizedSorting] at h ⊢

theorem ViewAccessor.rootUrl_of_onlySlot {va : ViewAccessor} {m : Mode}
    (h : va.onlySlot m = true) (hm : m ≠ Mode.ColumnView) :
    va.rootUrl = KUrl.empty ∧ va.proxyModel = va.m_proxyModel := by
  obtain ⟨i, d, c, p, g, e⟩ := va
  cases m <;> cases i <;> cases d <;> cases c <;>
    simp [ViewAccessor.onlySlot, ViewAccessor.rootUrl, ViewAccessor.proxyModel] at h hm ⊢

/-- The same proxy rows: what `modifyProxyModel` with a flag change keeps. -/
theorem ViewAccessor.rows_modifyProxyModel
    (f : DolphinSortFilterProxyModel → DolphinSortFilterProxyModel)
    (hf : ∀ p, (f p).order = p.order ∧ (f p).sourceModel = p.sourceModel) (va : ViewAccessor) :
    (va.modifyProxyModel f).m_proxyModel.order = va.m_proxyModel.order ∧
      (va.modifyProxyModel f).m_proxyModel.sourceModel = va.m_proxyModel.sourceModel := by
  obtain ⟨i, d, c, p, g, e⟩ := va
  cases c with
  | none => exact hf p
  | some c => exact ⟨rfl, rfl⟩

theorem Frame.of_eq {v w : DolphinView} (h1 : w.m_controller.url = v.m_controller.url)
    (h2 : w.selectionModels = v.selectionModels) (h3 : w.m_selectionModel = v.m_selectionModel)
    (h4 : w.emitted.filter Signal.isErrorMessage = v.emitted.filter Signal.isErrorMessage)
    (h5 : w.openUrlCalls = v.openUrlCalls) (h6 : w.m_loadingDirectory = v.m_loadingDirectory)
    (h7 : w.m_viewAccessor.m_proxyModel.sourceModel.dirLister.completedSlots
      = v.m_viewAccessor.m_proxyModel.sourceModel.dirLister.completedSlots)
    (h8 : w.store = v.store) (h9 : w.settings = v.settings)
    (h10 : w.m_selectedItems = v.m_selectedItems) (h11 : w.m_newFileNames = v.m_newFileNames)
    (h12 : w.m_createdItemUrl = v.m_createdItemUrl) (h13 : w.m_activeItemUrl = v.m_activeItemUrl) :
    Frame v w :=
  ⟨h1, ⟨[], by rw [h2, List.append_nil]⟩, fun k hk => by rw [h3, hk], h4, h5, h6, h7, h8, h9,
    h10, h11, h12, h13⟩

theorem reconcileCategorizedSorting_spec (props : ViewProperties) (v : DolphinView) :
    SameBackend v (v.reconcileCategorizedSorting props) ∧
      Frame v (v.reconcileCategorizedSorting props) ∧
      (v.reconcileCategorizedSorting props).m_storedCategorizedSorting
        = props.categorizedSorting ∧
      (v.reconcileCategorizedSorting props).m_viewAccessor.proxyModel.isCategorizedModel
        = (props.categorizedSorting && v.m_viewAccessor.supportsCategorizedSorting) ∧
      (v.reconcileCategorizedSorting props).m_viewAccessor.m_proxyModel.order
        = v.m_viewAccessor.m_proxyModel.order ∧
      (v.reconcileCategorizedSorting props).m_viewAccessor.m_proxyModel.sourceModel
        = v.m_viewAccessor.m_proxyModel.sourceModel ∧
      (v.reconcileCategorizedSorting props).m_showPreview = v.m_showPreview ∧
      (v.reconcileCategorizedSorting props).m_ignoreViewProperties = v.m_ignoreViewProperties ∧
      (v.reconcileCategorizedSorting props).m_controller = v.m_controller ∧
      (v.reconcileCategorizedSorting props).m_mode = v.m_mode := by
  unfold reconcileCategorizedSorting
  simp only [supportsCategorizedSorting]
  split_ifs with h
  · refine ⟨⟨rfl, fun m => ViewAccessor.onlySlot_modifyProxyModel _ m _,
        by simp [emit, ViewAccessor.itemView_modifyProxyModel], rfl, rfl⟩,
      Frame.of_eq rfl rfl rfl (by simp [emit, List.filter_append, Signal.isErrorMessage])
        rfl rfl
        (by apply ViewAccessor.completed_modifyProxyModel; intro p; rfl)
        rfl rfl rfl rfl rfl rfl,
      rfl, ?_, ?_, ?_, rfl, rfl, rfl, rfl⟩
    · simp [emit, ViewAccessor.proxyModel_modifyProxyModel,
        DolphinSortFilterProxyModel.setCategorizedModel, ViewAccessor.supportsCategorizedSorting]
    · exact (ViewAccessor.rows_modifyProxyModel
        (fun p => p.setCategorizedModel
          (props.categorizedSorting && v.m_viewAccessor.supportsCategorizedSorting))
        (fun _ => ⟨rfl, rfl⟩) _).1
    · exact (ViewAccessor.rows_modifyProxyModel
        (fun p => p.setCategorizedModel
          (props.categorizedSorting && v.m_viewAccessor.supportsCategorizedSorting))
        (fun _ => ⟨rfl, rfl⟩) _).2
  · refine ⟨⟨rfl, fun _ => rfl, rfl, rfl, rfl⟩,
      Frame.of_eq rfl rfl rfl rfl rfl rfl rfl rfl rfl rfl rfl rfl rfl,
      rfl, ?_, rfl, rfl, rfl, rfl, rfl, rfl⟩
    simp only [ne_eq, not_not] at h
    simpa [ViewAccessor.supportsCategorizedSorting] using h.symm

theorem loadDirectory_false_spec (url : KUrl) (v : DolphinView) :
    ∃ (loading expander : Bool) (calls : List (KUrl × Bool)) (signals : List Signal),
      v.loadDirectory url false = some { v with
        m_loadingDirectory := loading, m_expanderActive := expander,
        openUrlCalls := calls, emitted := signals } ∧
      (url.isValid = true → loading = true ∧ calls = v.openUrlCalls ++ [(url, false)] ∧
        signals = v.emitted) ∧
      (url.isValid = false → loading = v.m_loadingDirectory ∧ calls = v.openUrlCalls ∧
        ∃ text, signals = v.emitted ++ [Signal.errorMessage text]) := by
  unfold loadDirectory
  cases hvalid : url.isValid with
  | true =>
    exact ⟨true, false, v.openUrlCalls ++ [(url, false)], v.emitted, by simp,
      fun _ => ⟨rfl, rfl, rfl⟩, fun h => Bool.noConfusion h⟩
  | false =>
    by_cases he : url.pathOrUrl.isEmpty = true
    · exact ⟨v.m_loadingDirectory, v.m_expanderActive, v.openUrlCalls,
        v.emitted ++ [Signal.errorMessage "The location is empty."],
        by simp [he, emit], fun h => Bool.noConfusion h, fun _ => ⟨rfl, rfl, _, rfl⟩⟩
    · exact ⟨v.m_loadingDirectory, v.m_expanderActive, v.openUrlCalls,
        v.emitted ++ [Signal.errorMessage ("The location " ++ String.singleton (Char.ofNat 39)
          ++ url.pathOrUrl ++ String.singleton (Char.ofNat 39) ++ " is invalid.")],
        by simp [he, emit], fun h => Bool.noConfusion h, fun _ => ⟨rfl, rfl, _, rfl⟩⟩

theorem setMode_spec (m : Mode) (v : DolphinView) (hr : v.ready = true) (hne : m ≠ v.m_mode) :
    ∃ v', v.setMode m = some v' ∧ v'.ready = true ∧ v'.m_mode = m ∧
      v'.viewSelectionModel = v.viewSelectionModel ∧
      v'.m_controller.url = v.m_controller.url ∧
      v'.store = v.store.save v.url { v.store.load v.url with viewMode := m } ∧
      v'.m_storedCategorizedSorting = (v.store.load v.url).categorizedSorting ∧
      v'.m_viewAccessor.proxyModel.isCategorizedModel
        = ((v.store.load v.url).categorizedSorting && decide (m = Mode.IconsView)) ∧
      v'.m_viewAccessor.m_proxyModel.order = v.m_viewAccessor.m_proxyModel.order ∧
      v'.m_viewAccessor.m_proxyModel.sourceModel = v.m_viewAccessor.m_proxyModel.sourceModel := by
  have hprep := ready_prepared hr
  obtain ⟨va0, calls0, hd, hi, hdv, hcc, hp0, he0⟩ :=
    deleteView_spec ({ v with m_mode := m } : DolphinView)
  have hprep1 : (({ v with m_mode := m } : DolphinView).deleteView).prepared = true := by
    rw [hd]; exact hprep
  have hroot : (({ v with m_mode := m } : DolphinView).deleteView).rootUrl = v.url := by
    rw [hd]
    simp [rootUrl, ViewAccessor.rootUrl, hcc, url, KUrl.isEmpty]
  obtain ⟨v2, hc, hr2, hf2, hm2, hpm2, -, -, -⟩ :=
    createView_ready (({ v with m_mode := m } : DolphinView).deleteView) hprep1
  obtain ⟨v3, hs3, hsb3, hf3, he3⟩ :=
    setShowInformation_spec (v.store.load v.url).additionalInfo v2 (ready_itemView hr2)
  obtain ⟨hsb5, hf5, hst5, hcat5, hord5, hsrc5, -, -, hctl5, hmode5⟩ :=
    reconcileCategorizedSorting_spec
      ({ v.store.load v.url with viewMode := m } : ViewProperties)
      (v3.emit Signal.additionalInfoChanged)
  have hsame6 : SameBackend v2
      (((v3.emit Signal.additionalInfoChanged).reconcileCategorizedSorting
        ({ v.store.load v.url with viewMode := m } : ViewProperties)).emit Signal.modeChanged) :=
    ((hsb3.followedBy (emit_same _ _)).followedBy hsb5).followedBy (emit_same _ _)
  have hready6 := hsame6.ready hr2
  obtain ⟨v7, hz7, hsb7, hf7, hva7, hprev7, -, hst7⟩ :=
    updateZoomLevel_spec v.m_controller.zoomLevel _ (ready_itemView hready6)
  have hl8 : ∃ (loading expander : Bool) (calls : List (KUrl × Bool)) (signals : List Signal),
      (if v7.m_showPreview = true then v7.loadDirectory v.url false else some v7)
        = some { v7 with m_loadingDirectory := loading, m_expanderActive := expander,
                         openUrlCalls := calls, emitted := signals } := by
    by_cases hprev : v7.m_showPreview = true
    · obtain ⟨loading, expander, calls, signals, hl, -, -⟩ := loadDirectory_false_spec v.url v7
      exact ⟨loading, expander, calls, signals, by rw [if_pos hprev, hl]⟩
    · exact ⟨v7.m_loadingDirectory, v7.m_expanderActive, v7.openUrlCalls, v7.emitted,
        by rw [if_neg hprev]⟩
  obtain ⟨loading, expander, calls, signals, hl8⟩ := hl8
  have hframe2 : Frame v v2 :=
    Frame.andThen (Frame.andThen (Frame.of_eq rfl rfl rfl rfl rfl rfl rfl rfl rfl rfl rfl rfl rfl :
      Frame v ({ v with m_mode := m } : DolphinView))
      (by rw [hd]; exact Frame.of_eq rfl rfl rfl rfl rfl rfl (by rw [hp0]) rfl rfl rfl rfl rfl rfl))
      hf2
  have hsel2 : v2.viewSelectionModel = v.viewSelectionModel := hframe2.selection_kept hr hr2
  have hsupp : v3.m_viewAccessor.supportsCategorizedSorting = decide (m = Mode.IconsView) := by
    have h3 := hsb3.ready hr2
    obtain ⟨h4, -⟩ := (ready_iff v3).mp h3
    rw [hsb3.mode, hm2, hd] at h4
    exact ViewAccessor.supports_of_onlySlot h4
  have hv3store : v3.store = v.store := by
    rw [hf3.store, hf2.store, hd]
  have hv3url : v3.m_controller.url = v.m_controller.url := by
    rw [hf3.url, hf2.url, hd]
  have hv3pm : v3.m_viewAccessor.m_proxyModel = v.m_viewAccessor.m_proxyModel := by
    rw [he3, (ViewAccessor.proxyModel_modifyItemView _ _).1, hpm2, hd, hp0]
  have hstore1 : (({ v with m_mode := m } : DolphinView).deleteView).store = v.store := by
    rw [hd]
  have hmode1 : (({ v with m_mode := m } : DolphinView).deleteView).m_mode = m := by
    rw [hd]
  unfold setMode
  rw [if_neg hne]
  simp only [hroot, hstore1, hmode1, hc, hs3, hz7]
  simp only [hl8]
  · refine ⟨_, rfl, ?_, ?_, ?_, ?_, ?_, ?_, ?_, ?_, ?_⟩
    · exact (SameBackend.followedBy hsb7 ⟨rfl, fun _ => rfl, rfl, rfl, rfl⟩).ready hready6
    · show v7.m_mode = m
      rw [hsb7.mode, hsame6.mode, hm2, hd]
    · rw [← hsel2, ← hsame6.selection_same, ← hsb7.selection_same]
      exact SameBackend.selection_same ⟨rfl, fun _ => rfl, rfl, rfl, rfl⟩
    · show v7.m_controller.url = _
      rw [hf7.url]
      show ((v3.emit Signal.additionalInfoChanged).reconcileCategorizedSorting _).m_controller.url = _
      rw [hctl5]
      exact hv3url
    · show ViewPropertiesStore.save _ _ v7.store = _
      rw [hf7.store]
      show ViewPropertiesStore.save _ _
        ((v3.emit Signal.additionalInfoChanged).reconcileCategorizedSorting _).store = _
      rw [hf5.store]
      show ViewPropertiesStore.save _ _ v3.store = _
      rw [hv3store]
    · show v7.m_storedCategorizedSorting = _
      rw [hst7]
      exact hst5
    · show v7.m_viewAccessor.proxyModel.isCategorizedModel = _
      rw [hva7]
      show ((v3.emit Signal.additionalInfoChanged).reconcileCategorizedSorting
        _).m_viewAccessor.proxyModel.isCategorizedModel = _
      rw [hcat5]
      show (_ && v3.m_viewAccessor.supportsCategorizedSorting) = _
      rw [hsupp]
    · show v7.m_viewAccessor.m_proxyModel.order = _
      rw [hva7]
      show ((v3.emit Signal.additionalInfoChanged).reconcileCategorizedSorting
        _).m_viewAccessor.m_proxyModel.order = _
      rw [hord5]
      show v3.m_viewAccessor.m_proxyModel.order = _
      rw [hv3pm]
    · show v7.m_viewAccessor.m_proxyModel.sourceModel = _
      rw [hva7]
      show ((v3.emit Signal.additionalInfoChanged).reconcileCategorizedSorting
        _).m_viewAccessor.m_proxyModel.sourceModel = _
      rw [hsrc5]
      show v3.m_viewAccessor.m_proxyModel.sourceModel = _
      rw [hv3pm]

theorem applyViewMode_spec (props : ViewProperties) (v : DolphinView)
    (hp : v.prepared = true) (hv : v.m_viewAccessor.itemView.isSome = true → v.ready = true) :
    ∃ v', v.applyViewMode props = some v' ∧ v'.prepared = true ∧
      (v'.m_viewAccessor.itemView.isSome = true → v'.ready = true) ∧ Frame v v' := by
  unfold applyViewMode
  by_cases hm : v.m_mode = props.viewMode
  · simp only [hm, ne_eq, not_true_eq_false, if_false]
    exact ⟨v, rfl, hp, hv, Frame.same v⟩
  · simp only [ne_eq, hm, not_false_eq_true, if_true]
    obtain ⟨v1, hc, hr1, hf1, -⟩ :=
      createView_ready ({ v with m_mode := props.viewMode } : DolphinView) hp
    rw [hc]
    have hr2 : (v1.emit Signal.modeChanged).ready = true := (emit_same _ _).ready hr1
    obtain ⟨v3, hz, hsb3, hf3, -⟩ :=
      updateZoomLevel_spec v.m_controller.zoomLevel (v1.emit Signal.modeChanged)
        (ready_itemView hr2)
    have hr3 := hsb3.ready hr2
    refine ⟨v3, hz, ready_prepared hr3, fun _ => hr3, ?_⟩
    exact Frame.andThen (Frame.andThen (Frame.andThen
      (Frame.of_eq rfl rfl rfl rfl rfl rfl rfl rfl rfl rfl rfl rfl rfl :
        Frame v ({ v with m_mode := props.viewMode } : DolphinView)) hf1)
      (emit_frame Signal.modeChanged rfl v1)) hf3

theorem ensureView_spec (v : DolphinView) (hp : v.prepared = true)
    (hv : v.m_viewAccessor.itemView.isSome = true → v.ready = true) :
    ∃ v', v.ensureView = some v' ∧ v'.ready = true ∧ Frame v v' := by
  unfold ensureView
  cases hview : v.m_viewAccessor.itemView with
  | none =>
    obtain ⟨v1, hc, hr1, hf1, -⟩ := createView_ready v hp
    have h1 := ready_itemView hr1
    obtain ⟨x, hx⟩ := Option.isSome_iff_exists.mp h1
    simp only [Option.isNone_none, if_true, hc, hx, Option.isNone_some]
    exact ⟨v1, by simp, hr1, hf1⟩
  | some view =>
    have hr := hv (by simp [hview])
    simp only [Option.isNone_some, hview]
    exact ⟨v, by simp [hview], hr, Frame.same v⟩

theorem applyShowHiddenFiles_spec (props : ViewProperties) (v : DolphinView) :
    SameBackend v (v.applyShowHiddenFiles props) ∧ Frame v (v.applyShowHiddenFiles props) := by
  unfold applyShowHiddenFiles
  dsimp only
  split_ifs with h
  · exact ⟨⟨rfl, fun m => ViewAccessor.onlySlot_modifyProxyModel _ m _,
        by simp [emit, ViewAccessor.modifyDirLister, ViewAccessor.modifyDirModel,
          ViewAccessor.itemView_modifyProxyModel], rfl, rfl⟩,
      Frame.of_eq rfl rfl rfl (by simp [emit, List.filter_append, Signal.isErrorMessage])
        rfl rfl
        (by apply ViewAccessor.completed_modifyProxyModel; intro p; rfl)
        rfl rfl rfl rfl rfl rfl⟩
  · exact ⟨SameBackend.unchanged v, Frame.same v⟩

theorem applySorting_spec (props : ViewProperties) (v : DolphinView) :
    SameBackend v (v.applySorting props) ∧ Frame v (v.applySorting props) := by
  unfold applySorting
  dsimp only
  split_ifs with h
  · exact ⟨⟨rfl, fun m => ViewAccessor.onlySlot_modifyProxyModel _ m _,
        by simp [emit, ViewAccessor.itemView_modifyProxyModel], rfl, rfl⟩,
      Frame.of_eq rfl rfl rfl (by simp [emit, List.filter_append, Signal.isErrorMessage])
        rfl rfl
        (by apply ViewAccessor.completed_modifyProxyModel; intro p; rfl)
        rfl rfl rfl rfl rfl rfl⟩
  · exact ⟨SameBackend.unchanged v, Frame.same v⟩

theorem applySortOrder_spec (props : ViewProperties) (v : DolphinView) :
    SameBackend v (v.applySortOrder props) ∧ Frame v (v.applySortOrder props) := by
  unfold applySortOrder
  dsimp only
  split_ifs with h
  · exact ⟨⟨rfl, fun m => ViewAccessor.onlySlot_modifyProxyModel _ m _,
        by simp [emit, ViewAccessor.itemView_modifyProxyModel], rfl, rfl⟩,
      Frame.of_eq rfl rfl rfl (by simp [emit, List.filter_append, Signal.isErrorMessage])
        rfl rfl
        (by apply ViewAccessor.completed_modifyProxyModel; intro p; rfl)
        rfl rfl rfl rfl rfl rfl⟩
  · exact ⟨SameBackend.unchanged v, Frame.same v⟩

theorem applySortFoldersFirst_spec (props : ViewProperties) (v : DolphinView) :
    SameBackend v (v.applySortFoldersFirst props) ∧ Frame v (v.applySortFoldersFirst props) := by
  unfold applySortFoldersFirst
  dsimp only
  split_ifs with h
  · exact ⟨⟨rfl, fun m => ViewAccessor.onlySlot_modifyProxyModel _ m _,
        by simp [emit, ViewAccessor.itemView_modifyProxyModel], rfl, rfl⟩,
      Frame.of_eq rfl rfl rfl (by simp [emit, List.filter_append, Signal.isErrorMessage])
        rfl rfl
        (by apply ViewAccessor.completed_modifyProxyModel; intro p; rfl)
        rfl rfl rfl rfl rfl rfl⟩
  · exact ⟨SameBackend.unchanged v, Frame.same v⟩

theorem applyAdditionalInfo_spec (props : ViewProperties) (v : DolphinView)
    (hv : v.m_viewAccessor.itemView.isSome = true) :
    ∃ v', v.applyAdditionalInfo props = some v' ∧ SameBackend v v' ∧ Frame v v' := by
  obtain ⟨view, hview⟩ := Option.isSome_iff_exists.mp hv
  unfold applyAdditionalInfo
  rw [hview]
  by_cases hi : props.additionalInfo = view.showInformation
  · simp only [hi, ne_eq, not_true_eq_false, if_false]
    exact ⟨v, rfl, SameBackend.unchanged v, Frame.same v⟩
  · obtain ⟨v1, hs, hsb, hf, -⟩ := setShowInformation_spec props.additionalInfo v hv
    simp only [ne_eq, hi, not_false_eq_true, if_true, hs]
    exact ⟨_, rfl, hsb.followedBy (emit_same _ _),
      hf.andThen (emit_frame Signal.additionalInfoChanged rfl v1)⟩

theorem applyShowPreview_spec (props : ViewProperties) (v : DolphinView)
    (hv : v.m_viewAccessor.itemView.isSome = true) :
    ∃ v', v.applyShowPreview props = some v' ∧ SameBackend v v' ∧ Frame v v' := by
  unfold applyShowPreview
  by_cases hp : props.showPreview = v.m_showPreview
  · simp only [hp, ne_eq, not_true_eq_false, if_false]
    exact ⟨v, rfl, SameBackend.unchanged v, Frame.same v⟩
  · simp only [ne_eq, hp, not_false_eq_true, if_true]
    obtain ⟨v1, hz, hsb, hf, -⟩ := updateZoomLevel_spec v.m_controller.zoomLevel
      (({ v with m_showPreview := props.showPreview } : DolphinView).emit
        Signal.showPreviewChanged) hv
    exact ⟨v1, hz,
      SameBackend.followedBy (⟨rfl, fun _ => rfl, rfl, rfl, rfl⟩ : SameBackend v
        (({ v with m_showPreview := props.showPreview } : DolphinView).emit
          Signal.showPreviewChanged)) hsb,
      Frame.andThen (Frame.of_eq rfl rfl rfl
        (by simp [emit, List.filter_append, Signal.isErrorMessage])
        rfl rfl rfl rfl rfl rfl rfl rfl rfl : Frame v
        (({ v with m_showPreview := props.showPreview } : DolphinView).emit
          Signal.showPreviewChanged)) hf⟩

theorem applyGlobalViewProps_spec (v : DolphinView) :
    SameBackend v v.applyGlobalViewProps ∧ Frame v v.applyGlobalViewProps := by
  unfold applyGlobalViewProps
  split_ifs
  · exact ⟨⟨rfl, fun _ => rfl, rfl, rfl, rfl⟩,
      Frame.of_eq rfl rfl rfl rfl rfl rfl rfl rfl rfl rfl rfl rfl rfl⟩
  · exact ⟨SameBackend.unchanged v, Frame.same v⟩

/-- From a state whose owned selection model exists and whose backend, if there
is one, is in order, `applyViewProperties` that is not suppressed succeeds and
leaves a ready view inside the frame. -/
theorem applyViewProperties_core (v : DolphinView) (hp : v.prepared = true)
    (hv : v.m_viewAccessor.itemView.isSome = true → v.ready = true)
    (hi : v.m_ignoreViewProperties = false) :
    ∃ v', v.applyViewProperties = some v' ∧ v'.ready = true ∧ Frame v v' := by
  unfold applyViewProperties
  simp only [hi, Bool.false_eq_true, if_false]
  obtain ⟨v1, h1, hp1, hv1, hf1⟩ := applyViewMode_spec (v.store.load v.rootUrl) v hp hv
  obtain ⟨v2, h2, hr2, hf2⟩ := ensureView_spec v1 hp1 hv1
  obtain ⟨hs3, hf3⟩ := applyShowHiddenFiles_spec (v.store.load v.rootUrl) v2
  obtain ⟨hs4, hf4, -⟩ := reconcileCategorizedSorting_spec (v.store.load v.rootUrl)
    (v2.applyShowHiddenFiles (v.store.load v.rootUrl))
  obtain ⟨hs5, hf5⟩ := applySorting_spec (v.store.load v.rootUrl)
    ((v2.applyShowHiddenFiles (v.store.load v.rootUrl)).reconcileCategorizedSorting
      (v.store.load v.rootUrl))
  obtain ⟨hs6, hf6⟩ := applySortOrder_spec (v.store.load v.rootUrl)
    (((v2.applyShowHiddenFiles (v.store.load v.rootUrl)).reconcileCategorizedSorting
      (v.store.load v.rootUrl)).applySorting (v.store.load v.rootUrl))
  obtain ⟨hs7, hf7⟩ := applySortFoldersFirst_spec (v.store.load v.rootUrl)
    ((((v2.applyShowHiddenFiles (v.store.load v.rootUrl)).reconcileCategorizedSorting
      (v.store.load v.rootUrl)).applySorting (v.store.load v.rootUrl)).applySortOrder
        (v.store.load v.rootUrl))
  have hsb7 := (((hs3.followedBy hs4).followedBy hs5).followedBy hs6).followedBy hs7
  have hfr7 := (((hf3.andThen hf4).andThen hf5).andThen hf6).andThen hf7
  have hr7 := hsb7.ready hr2
  obtain ⟨v8, h8, hs8, hf8⟩ := applyAdditionalInfo_spec (v.store.load v.rootUrl) _
    (ready_itemView hr7)
  have hr8 := hs8.ready hr7
  obtain ⟨v9, h9, hs9, hf9⟩ := applyShowPreview_spec (v.store.load v.rootUrl) v8
    (ready_itemView hr8)
  have hr9 := hs9.ready hr8
  obtain ⟨hs10, hf10⟩ := applyGlobalViewProps_spec v9
  simp only [h1, h2, h8, h9]
  exact ⟨_, rfl, hs10.ready hr9,
    ((((hf1.andThen hf2).andThen hfr7).andThen hf8).andThen hf9).andThen hf10⟩

theorem applyViewProperties_ready (v : DolphinView) (hr : v.ready = true) :
    ∃ v', v.applyViewProperties = some v' ∧ v'.ready = true ∧ Frame v v' := by
  by_cases hi : v.m_ignoreViewProperties = true
  · exact ⟨v, by simp [applyViewProperties, hi], hr, Frame.same v⟩
  · exact applyViewProperties_core v (ready_prepared hr) (fun _ => hr)
      (by simpa using hi)

theorem ctor_ready (url : KUrl) (proxyModel : DolphinSortFilterProxyModel)
    (store : ViewPropertiesStore) (settings : Settings) (zoomLevel : Int) (expanderActive : Bool) :
    ∃ v, ctor url proxyModel store settings zoomLevel expanderActive = some v ∧
      v.ready = true := by
  have key : ∀ s : DolphinView, s.prepared = true → s.m_viewAccessor.itemView = none →
      s.m_ignoreViewProperties = false →
      ∃ v, s.applyViewProperties = some v ∧ v.ready = true := by
    intro s h1 h2 h3
    obtain ⟨v, h, hr, -⟩ := applyViewProperties_core s h1 (fun h => by simp [h2] at h) h3
    exact ⟨v, h, hr⟩
  unfold ctor
  dsimp only
  apply key <;> rfl

theorem ViewAccessor.occupied_of_onlySlot {va : ViewAccessor} {m : Mode}
    (h : va.onlySlot m = true) : va.occupiedSlots = 1 := by
  obtain ⟨i, d, c, p, g, e⟩ := va
  cases m <;> cases i <;> cases d <;> cases c <;>
    simp [ViewAccessor.onlySlot, ViewAccessor.occupiedSlots] at h ⊢

theorem setModes_ready (modes : List Mode) :
    ∀ v : DolphinView, v.ready = true → ∃ v', v.setModes modes = some v' ∧ v'.ready = true := by
  induction modes with
  | nil => exact fun v hr => ⟨v, rfl, hr⟩
  | cons m rest ih =>
    intro v hr
    by_cases hm : m = v.m_mode
    · obtain ⟨v', h, hr'⟩ := ih v hr
      exact ⟨v', by simp [setModes, setMode, hm, h], hr'⟩
    · obtain ⟨v1, h1, hr1, -⟩ := setMode_spec m v hr hm
      obtain ⟨v', h, hr'⟩ := ih v1 hr1
      exact ⟨v', by simp [setModes, h1, h], hr'⟩

theorem selectedItems_congr {v w : DolphinView}
    (h1 : w.viewSelectionModel = v.viewSelectionModel)
    (h2 : w.m_viewAccessor.proxyModel.order = v.m_viewAccessor.proxyModel.order)
    (h3 : w.m_viewAccessor.proxyModel.sourceModel = v.m_viewAccessor.proxyModel.sourceModel) :
    w.selectedItems = v.selectedItems ∧ w.currentItemUrl = v.currentItemUrl := by
  unfold selectedItems currentItemUrl currentIndex ViewAccessor.dirModel
    DolphinSortFilterProxyModel.cells DolphinSortFilterProxyModel.mapToSource
    DolphinSortFilterProxyModel.rowCount DolphinSortFilterProxyModel.columnCount
  dsimp only
  rw [h1, h2, h3]
  exact ⟨rfl, rfl⟩

theorem ViewPropertiesStore.load_save (url : KUrl) (props : ViewProperties)
    (store : ViewPropertiesStore) : (store.save url props).load url = props := by
  simp [ViewPropertiesStore.load, ViewPropertiesStore.save]

theorem ViewAccessor.prepareUrlChange_facts (url : KUrl) (va : ViewAccessor) :
    (∀ m, (va.prepareUrlChange url).onlySlot m = va.onlySlot m) ∧
      (va.prepareUrlChange url).itemView = va.itemView ∧
      (va.prepareUrlChange url).m_proxyModel = va.m_proxyModel := by
  obtain ⟨i, d, c, p, g, e⟩ := va
  cases i <;> cases d <;> cases c <;> cases e <;>
    exact ⟨fun m => by cases m <;> rfl, rfl, rfl⟩

/-- Models `updateView(L)` with `L` different from the current location, on a ready view:
it succeeds, the location is `L`, the selection model keeps its state, the slots
connected to `completed()` stay connected, and `loadDirectory(L)` either requests
the listing (valid `L`) or emits one error message (invalid `L`). -/
theorem updateView_spec (L : KUrl) (v : DolphinView) (hr : v.ready = true)
    (hne : v.m_controller.url ≠ L) :
    ∃ v', v.updateView L = some v' ∧ v'.ready = true ∧ v'.m_controller.url = L ∧
      v'.viewSelectionModel = v.viewSelectionModel ∧
      v'.m_viewAccessor.m_proxyModel.sourceModel.dirLister.completedSlots
        = v.m_viewAccessor.m_proxyModel.sourceModel.dirLister.completedSlots ∧
      v'.m_newFileNames = v.m_newFileNames ∧
      (L.isValid = false →
        v'.openUrlCalls = v.openUrlCalls ∧ v'.m_loadingDirectory = v.m_loadingDirectory ∧
        ∃ text, v'.emitted.filter Signal.isErrorMessage
          = v.emitted.filter Signal.isErrorMessage ++ [Signal.errorMessage text]) ∧
      (L.isValid = true →
        v'.openUrlCalls = v.openUrlCalls ++ [(L, false)] ∧ v'.m_loadingDirectory = true ∧
        v'.emitted.filter Signal.isErrorMessage = v.emitted.filter Signal.isErrorMessage) := by
  obtain ⟨hslot, hview, hpm⟩ := ViewAccessor.prepareUrlChange_facts L v.m_viewAccessor
  have hb : SameBackend v
      { (v.controllerSetUrl L) with
        m_viewAccessor := (v.controllerSetUrl L).m_viewAccessor.prepareUrlChange L } := by
    simp only [controllerSetUrl, hne, if_false]
    exact ⟨rfl, hslot, by rw [← hview]; rfl, rfl, rfl⟩
  have hrb := hb.ready hr
  obtain ⟨v3, h3, hr3, hf3⟩ := applyViewProperties_ready _ hrb
  have hsel3 : v3.viewSelectionModel = v.viewSelectionModel :=
    (hf3.selection_kept hrb hr3).trans hb.selection_same
  obtain ⟨loading, expander, calls, signals, h4, hvalid, hinvalid⟩ :=
    loadDirectory_false_spec L v3
  have hsame : SameBackend v3
      (({ ({ v3 with m_loadingDirectory := loading, m_expanderActive := expander,
                     openUrlCalls := calls, emitted := signals } : DolphinView) with
          m_viewAccessor := v3.m_viewAccessor.modifyDirModel DolphinModel.clearVersionData } :
          DolphinView).emit (Signal.startedPathLoading L)) :=
    ⟨rfl, fun m => ViewAccessor.onlySlot_modifyProxyModel _ m _,
      by simp [emit, ViewAccessor.modifyDirModel, ViewAccessor.itemView_modifyProxyModel],
      rfl, rfl⟩
  have hurl3 : v3.m_controller.url = L := by
    rw [hf3.url]
    simp [controllerSetUrl, hne, emit]
  have hcompleted3 : v3.m_viewAccessor.m_proxyModel.sourceModel.dirLister.completedSlots
      = v.m_viewAccessor.m_proxyModel.sourceModel.dirLister.completedSlots := by
    rw [hf3.completed]
    simp only [controllerSetUrl, hne, if_false]
    show (ViewAccessor.prepareUrlChange L v.m_viewAccessor).m_proxyModel.sourceModel.dirLister.completedSlots
      = _
    rw [hpm]
  have hnew3 : v3.m_newFileNames = v.m_newFileNames := by
    rw [hf3.newFileNames]
    simp [controllerSetUrl, hne, emit]
  have hcalls3 : v3.openUrlCalls = v.openUrlCalls := by
    rw [hf3.requests]
    simp [controllerSetUrl, hne, emit]
  have hload3 : v3.m_loadingDirectory = v.m_loadingDirectory := by
    rw [hf3.loading]
    simp [controllerSetUrl, hne, emit]
  have herr3 : v3.emitted.filter Signal.isErrorMessage
      = v.emitted.filter Signal.isErrorMessage := by
    rw [hf3.errors]
    simp [controllerSetUrl, hne, emit, List.filter_append, Signal.isErrorMessage]
  unfold updateView
  simp only [hne, if_false, h3, h4]
  refine ⟨_, rfl, hsame.ready hr3, hurl3, hsame.selection_same.trans hsel3, ?_, hnew3, ?_, ?_⟩
  · show (ViewAccessor.modifyDirModel DolphinModel.clearVersionData
      v3.m_viewAccessor).m_proxyModel.sourceModel.dirLister.completedSlots = _
    rw [← hcompleted3]
    apply ViewAccessor.completed_modifyProxyModel
    intro p
    rfl
  · intro hinv
    obtain ⟨e1, e2, text, e3⟩ := hinvalid hinv
    refine ⟨?_, ?_, text, ?_⟩
    · show calls = _
      rw [e2, hcalls3]
    · show loading = _
      rw [e1, hload3]
    · show List.filter Signal.isErrorMessage (signals ++ [Signal.startedPathLoading L]) = _
      rw [e3, ← herr3]
      simp [List.filter_append, Signal.isErrorMessage]
  · intro hval
    obtain ⟨e1, e2, e3⟩ := hvalid hval
    refine ⟨?_, ?_, ?_⟩
    · show calls = _
      rw [e2, hcalls3]
    · show loading = _
      rw [e1]
    · show List.filter Signal.isErrorMessage (signals ++ [Signal.startedPathLoading L]) = _
      rw [e3, ← herr3]
      simp [List.filter_append, Signal.isErrorMessage]

theorem modifyDirLister_same (f : KDirLister → KDirLister) (v : DolphinView) :
    SameBackend v { v with m_viewAccessor := v.m_viewAccessor.modifyDirLister f } :=
  ⟨rfl, fun m => ViewAccessor.onlySlot_modifyProxyModel _ m _,
    by simp [ViewAccessor.modifyDirLister, ViewAccessor.modifyDirModel,
      ViewAccessor.itemView_modifyProxyModel], rfl, rfl⟩

/-- What `restoreSelection()` does on a ready view: it disconnects itself, and
`changeSelection(m_selectedItems)` empties the selection (and `m_selectedItems`)
and keeps the current index. -/
theorem restoreSelection_spec (u : DolphinView) (hr : u.ready = true) :
    ∃ w, u.restoreSelection = some w ∧ w.selection = ∅ ∧ w.currentIndex = u.currentIndex ∧
      w.m_selectedItems = [] ∧
      Slot.restoreSelection ∉ w.m_viewAccessor.dirLister.completedSlots := by
  obtain ⟨f, hf⟩ : ∃ f : KDirLister → KDirLister, f = fun l =>
      { l with completedSlots := l.completedSlots.filter (· ≠ Slot.restoreSelection) } :=
    ⟨_, rfl⟩
  obtain ⟨u0, hu0⟩ : ∃ u0 : DolphinView,
      u0 = { u with m_viewAccessor := u.m_viewAccessor.modifyDirLister f } := ⟨_, rfl⟩
  have hsel : u0.viewSelectionModel = u.viewSelectionModel := by
    rw [hu0]
    exact (modifyDirLister_same f u).selection_same
  obtain ⟨-, view, h2, h3, h4⟩ := (ready_iff u).mp hr
  have hu : u.viewSelectionModel
      = some (view.selectionModel, u.selectionModels[view.selectionModel]) := by
    unfold DolphinView.viewSelectionModel
    rw [h2]
    simp [List.getElem?_eq_getElem h4]
  rw [hu] at hsel
  obtain ⟨model, hmodel⟩ : ∃ model, model = u.selectionModels[view.selectionModel] := ⟨_, rfl⟩
  rw [← hmodel] at hsel hu
  have hset := viewSelectionModel_setSelectionModelState
    (model.setCurrentIndex model.currentIndex SelectionFlags.CurrentClear) hsel
  have hrun : u.restoreSelection = some
      { (u0.setSelectionModelState view.selectionModel
          (model.setCurrentIndex model.currentIndex SelectionFlags.CurrentClear)) with
        m_selectedItems := [] } := by
    unfold restoreSelection
    rw [← hf]
    dsimp only
    rw [← hu0]
    unfold changeSelection clearSelection
    simp only [hsel]
    simp [readRef]
  have hvs : DolphinView.viewSelectionModel
      { (u0.setSelectionModelState view.selectionModel
          (model.setCurrentIndex model.currentIndex SelectionFlags.CurrentClear)) with
        m_selectedItems := [] }
      = some (view.selectionModel,
          model.setCurrentIndex model.currentIndex SelectionFlags.CurrentClear) := hset
  refine ⟨_, hrun, ?_, ?_, rfl, ?_⟩
  · simp only [selection, hvs]
    rfl
  · simp only [currentIndex, hvs, hu]
    rfl
  · show Slot.restoreSelection ∉ u0.m_viewAccessor.dirLister.completedSlots
    rw [hu0, hf]
    simp [ViewAccessor.dirLister, ViewAccessor.dirModel, ViewAccessor.modifyDirLister,
      ViewAccessor.modifyDirModel, ViewAccessor.proxyModel_modifyProxyModel]

/-! ### Slots and events -/

theorem updateView_createdItemUrl (L : KUrl) (v : DolphinView) (hr : v.ready = true)
    (hne : v.m_controller.url ≠ L) (v' : DolphinView) (h : v.updateView L = some v') :
    v'.m_createdItemUrl = v.m_createdItemUrl := by
  obtain ⟨hslot, hview, -⟩ := ViewAccessor.prepareUrlChange_facts L v.m_viewAccessor
  have hb : SameBackend v
      { (v.controllerSetUrl L) with
        m_viewAccessor := (v.controllerSetUrl L).m_viewAccessor.prepareUrlChange L } := by
    simp only [controllerSetUrl, hne, if_false]
    exact ⟨rfl, hslot, by rw [← hview]; rfl, rfl, rfl⟩
  obtain ⟨v3, h3, -, hf3⟩ := applyViewProperties_ready _ (hb.ready hr)
  obtain ⟨loading, expander, calls, signals, h4, -, -⟩ := loadDirectory_false_spec L v3
  unfold updateView at h
  simp only [hne, if_false, h3, h4, Option.some.injEq] at h
  rw [← h]
  show v3.m_createdItemUrl = _
  rw [hf3.createdItemUrl]
  simp [controllerSetUrl, hne, emit]

theorem activate_disconnected (connected : DolphinView → List Slot) (w : DolphinView) :
    ∀ slots : List Slot, (∀ s ∈ slots, s ∉ connected w) → activate connected slots w = some w := by
  intro slots
  induction slots with
  | nil => intro _; rfl
  | cons s rest ih =>
    intro h
    have hs : s ∉ connected w := h s (List.mem_cons_self _ _)
    simp only [activate, hs, if_false]
    exact ih (fun t ht => h t (List.mem_cons_of_mem _ ht))

theorem iterate_emitDelayed (k : Nat) (hk : 1 ≤ k) (v : DolphinView) :
    Nat.iterate emitDelayedSelectionChangedSignal k v
      = { v with m_selectionChangedTimerActive := true } := by
  induction k with
  | zero => omega
  | succ n ih =>
    rw [Function.iterate_succ_apply']
    by_cases hn : 1 ≤ n
    · rw [ih hn]
      rfl
    · have h0 : n = 0 := by omega
      subst h0
      rfl

theorem shown_congr {v w : DolphinView}
    (h1 : w.m_viewAccessor.itemView = v.m_viewAccessor.itemView)
    (h2 : w.m_viewAccessor.proxyModel.sorting = v.m_viewAccessor.proxyModel.sorting)
    (h3 : w.m_viewAccessor.proxyModel.sortOrder = v.m_viewAccessor.proxyModel.sortOrder)
    (h4 : w.m_viewAccessor.proxyModel.sortFoldersFirst
      = v.m_viewAccessor.proxyModel.sortFoldersFirst)
    (h5 : w.m_viewAccessor.proxyModel.sourceModel.dirLister.showingDotFiles
      = v.m_viewAccessor.proxyModel.sourceModel.dirLister.showingDotFiles)
    (h6 : w.m_mode = v.m_mode)
    (h7 : w.m_storedCategorizedSorting = v.m_storedCategorizedSorting)
    (h8 : w.m_showPreview = v.m_showPreview) : w.shown = v.shown := by
  unfold shown ViewAccessor.dirLister ViewAccessor.dirModel
  rw [h1, h2, h3, h4, h5, h6, h7, h8]

theorem applyShowHiddenFiles_shown (props : ViewProperties) (v : DolphinView) :
    (v.applyShowHiddenFiles props).shown
      = v.shown.map (fun s => { s with showHiddenFiles := props.showHiddenFiles }) := by
  unfold applyShowHiddenFiles
  dsimp only
  split_ifs with h
  · simp only [shown, emit, ViewAccessor.modifyDirLister, ViewAccessor.modifyDirModel,
      ViewAccessor.itemView_modifyProxyModel, ViewAccessor.proxyModel_modifyProxyModel,
      ViewAccessor.dirLister, ViewAccessor.dirModel, Option.map_map]
    rfl
  · simp only [ne_eq, not_not] at h
    simp only [shown, Option.map_map]
    congr 1
    funext view
    simp only [Function.comp, h]

theorem applySorting_shown (props : ViewProperties) (v : DolphinView) :
    (v.applySorting props).shown = v.shown.map (fun s => { s with sorting := props.sorting }) := by
  unfold applySorting
  dsimp only
  split_ifs with h
  · simp only [shown, emit, ViewAccessor.itemView_modifyProxyModel,
      ViewAccessor.proxyModel_modifyProxyModel, ViewAccessor.dirLister, ViewAccessor.dirModel,
      Option.map_map]
    rfl
  · simp only [ne_eq, not_not] at h
    simp only [shown, Option.map_map]
    congr 1
    funext view
    simp only [Function.comp, h]

theorem applySortOrder_shown (props : ViewProperties) (v : DolphinView) :
    (v.applySortOrder props).shown
      = v.shown.map (fun s => { s with sortOrder := props.sortOrder }) := by
  unfold applySortOrder
  dsimp only
  split_ifs with h
  · simp only [shown, emit, ViewAccessor.itemView_modifyProxyModel,
      ViewAccessor.proxyModel_modifyProxyModel, ViewAccessor.dirLister, ViewAccessor.dirModel,
      Option.map_map]
    rfl
  · simp only [ne_eq, not_not] at h
    simp only [shown, Option.map_map]
    congr 1
    funext view
    simp only [Function.comp, h]

theorem applySortFoldersFirst_shown (props : ViewProperties) (v : DolphinView) :
    (v.applySortFoldersFirst props).shown
      = v.shown.map (fun s => { s with sortFoldersFirst := props.sortFoldersFirst }) := by
  unfold applySortFoldersFirst
  dsimp only
  split_ifs with h
  · simp only [shown, emit, ViewAccessor.itemView_modifyProxyModel,
      ViewAccessor.proxyModel_modifyProxyModel, ViewAccessor.dirLister, ViewAccessor.dirModel,
      Option.map_map]
    rfl
  · simp only [ne_eq, not_not] at h
    simp only [shown, Option.map_map]
    congr 1
    funext view
    simp only [Function.comp, h]

theorem reconcileCategorizedSorting_shown (props : ViewProperties) (v : DolphinView) :
    (v.reconcileCategorizedSorting props).shown
      = v.shown.map (fun s => { s with categorizedSorting := props.categorizedSorting }) := by
  unfold reconcileCategorizedSorting
  dsimp only
  split_ifs with h
  · simp only [shown, emit, ViewAccessor.itemView_modifyProxyModel,
      ViewAccessor.proxyModel_modifyProxyModel, ViewAccessor.dirLister, ViewAccessor.dirModel,
      Option.map_map]
    rfl
  · simp only [shown, Option.map_map]
    rfl

theorem applyAdditionalInfo_shown (props : ViewProperties) (v v' : DolphinView)
    (h : v.applyAdditionalInfo props = some v') :
    v'.shown = v.shown.map (fun s => { s with additionalInfo := props.additionalInfo }) := by
  unfold applyAdditionalInfo at h
  cases hview : v.m_viewAccessor.itemView with
  | none => simp [hview] at h
  | some view =>
    simp only [hview, setShowInformation] at h
    by_cases hi : props.additionalInfo = view.showInformation
    · simp only [hi, ne_eq, not_true_eq_false, if_false, Option.some.injEq] at h
      subst h
      simp only [shown, hview, Option.map_some', hi]
    · simp only [ne_eq, hi, not_false_eq_true, if_true, Option.some.injEq] at h
      subst h
      simp only [shown, emit, ViewAccessor.itemView_modifyItemView, hview, Option.map_some',
        ViewAccessor.dirLister, ViewAccessor.dirModel,
        (ViewAccessor.proxyModel_modifyItemView _ _).2]

theorem updateZoomLevel_shown (z : Int) (v v' : DolphinView) (h : v.updateZoomLevel z = some v') :
    v'.shown = v.shown ∧ v'.m_ignoreViewProperties = v.m_ignoreViewProperties ∧
      v'.settings = v.settings := by
  unfold updateZoomLevel at h
  cases hview : v.m_viewAccessor.itemView with
  | none => simp [hview] at h
  | some view =>
    simp only [hview] at h
    split_ifs at h
    · simp only [Option.some.injEq] at h
      subst h
      exact ⟨rfl, rfl, rfl⟩
    · simp only [Option.some.injEq] at h
      subst h
      exact ⟨rfl, rfl, rfl⟩

theorem applyShowPreview_shown (props : ViewProperties) (v v' : DolphinView)
    (h : v.applyShowPreview props = some v') :
    v'.shown = v.shown.map (fun s => { s with showPreview := props.showPreview }) := by
  unfold applyShowPreview at h
  by_cases hp : props.showPreview = v.m_showPreview
  · simp only [hp, ne_eq, not_true_eq_false, if_false, Option.some.injEq] at h
    subst h
    simp only [shown, Option.map_map]
    congr 1
    funext view
    simp only [Function.comp, hp]
  · simp only [ne_eq, hp, not_false_eq_true, if_true] at h
    rw [(updateZoomLevel_shown _ _ _ h).1]
    simp only [shown, emit, Option.map_map]
    rfl

theorem applyGlobalViewProps_shown (v : DolphinView) :
    v.applyGlobalViewProps.shown = v.shown ∧
      (v.settings.globalViewProps = true → v.applyGlobalViewProps.m_ignoreViewProperties = true) := by
  unfold applyGlobalViewProps
  split_ifs with h
  · exact ⟨rfl, fun _ => rfl⟩
  · exact ⟨rfl, fun h' => absurd h' h⟩

theorem applyViewMode_mode (props : ViewProperties) (v v' : DolphinView)
    (hp : v.prepared = true) (h : v.applyViewMode props = some v') :
    v'.m_mode = props.viewMode := by
  unfold applyViewMode at h
  by_cases hm : v.m_mode = props.viewMode
  · simp only [hm, ne_eq, not_true_eq_false, if_false, Option.some.injEq] at h
    subst h
    exact hm
  · simp only [ne_eq, hm, not_false_eq_true, if_true] at h
    obtain ⟨v1, hc, hr1, -, hmode1, -⟩ :=
      createView_ready ({ v with m_mode := props.viewMode } : DolphinView) hp
    rw [hc] at h
    obtain ⟨v3, hz, hsb3, -⟩ :=
      updateZoomLevel_spec v.m_controller.zoomLevel (v1.emit Signal.modeChanged)
        (ready_itemView ((emit_same _ _).ready hr1))
    have h' : (v1.emit Signal.modeChanged).updateZoomLevel v.m_controller.zoomLevel = some v' := h
    rw [hz] at h'
    have e := Option.some.inj h'
    subst e
    rw [hsb3.mode]
    exact hmode1

theorem ensureView_mode (v v' : DolphinView) (hp : v.prepared = true)
    (h : v.ensureView = some v') : v'.m_mode = v.m_mode := by
  unfold ensureView at h
  cases hview : v.m_viewAccessor.itemView with
  | none =>
    obtain ⟨v1, hc, -, -, hmode1, -⟩ := createView_ready v hp
    simp only [hview, Option.isNone_none, if_true, hc] at h
    split_ifs at h
    have e := Option.some.inj h
    subst e
    exact hmode1
  | some view =>
    simp only [hview, Option.isNone_some, Bool.false_eq_true, if_false, Option.some.injEq] at h
    subst h
    rfl

/-- An `applyViewProperties()` that is not suppressed makes the view show exactly the
properties stored for its root location, and sets `m_ignoreViewProperties` when the
global view properties are on. -/
theorem applyViewProperties_shows (v : DolphinView) (hp : v.prepared = true)
    (hv : v.m_viewAccessor.itemView.isSome = true → v.ready = true)
    (hi : v.m_ignoreViewProperties = false) :
    ∃ v', v.applyViewProperties = some v' ∧ v'.ready = true ∧ Frame v v' ∧
      v'.shown = some (v.store.load v.rootUrl) ∧
      (v.settings.globalViewProps = true → v'.m_ignoreViewProperties = true) := by
  obtain ⟨v', h, hr', hf'⟩ := applyViewProperties_core v hp hv hi
  refine ⟨v', h, hr', hf', ?_, ?_⟩
  · unfold applyViewProperties at h
    simp only [hi, Bool.false_eq_true, if_false] at h
    obtain ⟨v1, h1, hp1, hv1, -⟩ := applyViewMode_spec (v.store.load v.rootUrl) v hp hv
    obtain ⟨v2, h2, hr2, -⟩ := ensureView_spec v1 hp1 hv1
    have hmode2 : v2.m_mode = (v.store.load v.rootUrl).viewMode :=
      (ensureView_mode v1 v2 hp1 h2).trans (applyViewMode_mode _ v v1 hp h1)
    simp only [h1, h2] at h
    cases h8 : ((((v2.applyShowHiddenFiles (v.store.load v.rootUrl)).reconcileCategorizedSorting
        (v.store.load v.rootUrl)).applySorting (v.store.load v.rootUrl)).applySortOrder
        (v.store.load v.rootUrl)).applySortFoldersFirst (v.store.load v.rootUrl)
        |>.applyAdditionalInfo (v.store.load v.rootUrl) with
    | none => simp [h8] at h
    | some v8 =>
      simp only [h8] at h
      cases h9 : v8.applyShowPreview (v.store.load v.rootUrl) with
      | none => simp [h9] at h
      | some v9 =>
        simp only [h9, Option.some.injEq] at h
        subst h
        rw [(applyGlobalViewProps_shown v9).1, applyShowPreview_shown _ _ _ h9,
          applyAdditionalInfo_shown _ _ _ h8, applySortFoldersFirst_shown, applySortOrder_shown,
          applySorting_shown, reconcileCategorizedSorting_shown, applyShowHiddenFiles_shown]
        obtain ⟨view, hview⟩ := Option.isSome_iff_exists.mp (ready_itemView hr2)
        simp only [shown, hview, Option.map_some', hmode2]
  · intro hg
    unfold applyViewProperties at h
    simp only [hi, Bool.false_eq_true, if_false] at h
    cases h1 : v.applyViewMode (v.store.load v.rootUrl) with
    | none => simp [h1] at h
    | some v1 =>
      simp only [h1] at h
      cases h2 : v1.ensureView with
      | none => simp [h2] at h
      | some v2 =>
        simp only [h2] at h
        cases h8 : ((((v2.applyShowHiddenFiles (v.store.load v.rootUrl)).reconcileCategorizedSorting
            (v.store.load v.rootUrl)).applySorting (v.store.load v.rootUrl)).applySortOrder
            (v.store.load v.rootUrl)).applySortFoldersFirst (v.store.load v.rootUrl)
            |>.applyAdditionalInfo (v.store.load v.rootUrl) with
        | none => simp [h8] at h
        | some v8 =>
          simp only [h8] at h
          cases h9 : v8.applyShowPreview (v.store.load v.rootUrl) with
          | none => simp [h9] at h
          | some v9 =>
            simp only [h9, Option.some.injEq] at h
            have hset : v9.settings = v.settings := by
              have := hf'.settings
              rw [← h] at this
              have h10 := (applyGlobalViewProps_spec v9).2.settings
              rw [← h10]
              exact this
            rw [← h]
            exact (applyGlobalViewProps_shown v9).2 (by rw [hset]; exact hg)

theorem ViewAccessor.proxyModel_prepareUrlChange (url : KUrl) (va : ViewAccessor) :
    (va.prepareUrlChange url).proxyModel = va.proxyModel := by
  obtain ⟨i, d, c, p, g, e⟩ := va
  cases c <;> cases e <;> rfl

/-- After `createView()` the root location of the view is its location: a new column
container has the location of the view as root, the other backends have none. -/
theorem createView_rootUrl (v v' : DolphinView) (h : v.createView = some v') :
    v'.rootUrl = v'.url := by
  obtain ⟨va0, calls, hd, h1, h2, h3, -, -⟩ := deleteView_spec v
  unfold createView at h
  rw [hd] at h
  obtain ⟨i0, d0, c0, p0, g0, e0⟩ := va0
  simp only at h1 h2 h3
  subst h1 h2 h3
  cases hmode : v.m_mode <;> cases hsel : v.m_selectionModel <;>
    simp only [ViewAccessor.createView, ViewAccessor.itemView, hmode, hsel, newBackend,
      ViewAccessor.modifyItemView, Option.isSome_none, Bool.false_eq_true, if_false,
      Option.some.injEq] at h <;>
    subst h <;>
    simp [rootUrl, ViewAccessor.rootUrl, url, KUrl.isEmpty]

/-- With `m_ignoreViewProperties` set, a change of location leaves the properties
shown and the flag as they are; the signals emitted are `urlChanged`, at most an
error message and `startedPathLoading`. -/
theorem setUrl_ignoring (L : KUrl) (u : DolphinView) (hi : u.m_ignoreViewProperties = true)
    (hne : L ≠ u.url) :
    ∃ u2 msgs, u.setUrl L = some u2 ∧ u2.url = L ∧ u2.shown = u.shown ∧
      u2.m_ignoreViewProperties = true ∧
      u2.emitted = u.emitted ++ Signal.urlChanged L :: (msgs ++ [Signal.startedPathLoading L]) ∧
      ∀ s ∈ msgs, s.isErrorMessage = true := by
  have hne' : ¬ u.m_controller.url = L := fun h => hne h.symm
  obtain ⟨u1, hu1⟩ : ∃ u1 : DolphinView, u1 =
      { (({ u with m_newFileNames := ∅ } : DolphinView).controllerSetUrl L) with
        m_viewAccessor := (({ u with m_newFileNames := ∅ } : DolphinView).controllerSetUrl
          L).m_viewAccessor.prepareUrlChange L } := ⟨_, rfl⟩
  have hacc1 : u1.m_viewAccessor = u.m_viewAccessor.prepareUrlChange L := by
    rw [hu1]
    simp [controllerSetUrl, hne', emit]
  have hem1 : u1.emitted = u.emitted ++ [Signal.urlChanged L] := by
    rw [hu1]
    simp [controllerSetUrl, hne', emit]
  have hrest1 : u1.m_ignoreViewProperties = true ∧ u1.m_controller.url = L ∧
      u1.m_mode = u.m_mode ∧ u1.m_storedCategorizedSorting = u.m_storedCategorizedSorting ∧
      u1.m_showPreview = u.m_showPreview := by
    rw [hu1]
    simp [controllerSetUrl, hne', emit, hi]
  obtain ⟨hi1, hurl1, hmode1, hstored1, hpreview1⟩ := hrest1
  have happly : u1.applyViewProperties = some u1 := by simp [applyViewProperties, hi1]
  obtain ⟨loading, expander, calls, signals, h4, hvalid, hinvalid⟩ :=
    loadDirectory_false_spec L u1
  have hmsgs : ∃ msgs, signals = u1.emitted ++ msgs ∧ ∀ s ∈ msgs, s.isErrorMessage = true := by
    cases hv : L.isValid with
    | true => exact ⟨[], by simp [(hvalid hv).2.2], by simp⟩
    | false =>
      obtain ⟨-, -, text, e⟩ := hinvalid hv
      exact ⟨[Signal.errorMessage text], e, by simp [Signal.isErrorMessage]⟩
  obtain ⟨msgs, hsig, hall⟩ := hmsgs
  have hrun : u.setUrl L = some
      (({ ({ u1 with m_loadingDirectory := loading, m_expanderActive := expander,
                     openUrlCalls := calls, emitted := signals } : DolphinView) with
          m_viewAccessor := u1.m_viewAccessor.modifyDirModel DolphinModel.clearVersionData } :
          DolphinView).emit (Signal.startedPathLoading L)) := by
    unfold setUrl updateView
    simp only [hne', if_false]
    rw [← hu1, happly]
    simp only [h4]
  refine ⟨_, msgs, hrun, hurl1, ?_, hi1, ?_, hall⟩
  · apply shown_congr
    · simp only [emit, ViewAccessor.modifyDirModel, ViewAccessor.itemView_modifyProxyModel, hacc1,
        (ViewAccessor.prepareUrlChange_facts L u.m_viewAccessor).2.1]
    · simp only [emit, ViewAccessor.modifyDirModel, ViewAccessor.proxyModel_modifyProxyModel,
        hacc1, ViewAccessor.proxyModel_prepareUrlChange]
    · simp only [emit, ViewAccessor.modifyDirModel, ViewAccessor.proxyModel_modifyProxyModel,
        hacc1, ViewAccessor.proxyModel_prepareUrlChange]
    · simp only [emit, ViewAccessor.modifyDirModel, ViewAccessor.proxyModel_modifyProxyModel,
        hacc1, ViewAccessor.proxyModel_prepareUrlChange]
    · simp only [emit, ViewAccessor.modifyDirModel, ViewAccessor.proxyModel_modifyProxyModel,
        hacc1, ViewAccessor.proxyModel_prepareUrlChange, DolphinModel.clearVersionData]
    · exact hmode1
    · exact hstored1
    · exact hpreview1
  · show signals ++ [Signal.startedPathLoading L] = _
    rw [hsig, hem1]
    simp

theorem selectedItems_of_ready {u : DolphinView} (hr : u.ready = true) :
    ∃ items, u.selectedItems = some items := by
  obtain ⟨-, view, h2, -, h4⟩ := (ready_iff u).mp hr
  unfold selectedItems DolphinView.viewSelectionModel
  rw [h2]
  simp [List.getElem?_eq_getElem h4]

/-- What `loadDirectory(L, true)` keeps on a ready view. -/
theorem loadDirectory_true_kept (L : KUrl) (u : DolphinView) (hr : u.ready = true) :
    ∃ u', u.loadDirectory L true = some u' ∧ SameBackend u u' ∧ u'.shown = u.shown ∧
      u'.m_ignoreViewProperties = u.m_ignoreViewProperties ∧ u'.settings = u.settings := by
  unfold loadDirectory
  cases hv : L.isValid with
  | false =>
    by_cases he : L.pathOrUrl.isEmpty = true
    · simp only [Bool.not_false, if_true, he]
      exact ⟨_, rfl, emit_same _ _, rfl, rfl, rfl⟩
    · simp only [Bool.not_false, if_true, he, Bool.false_eq_true, if_false]
      exact ⟨_, rfl, emit_same _ _, rfl, rfl, rfl⟩
  | true =>
    obtain ⟨items, hitems⟩ := selectedItems_of_ready hr
    have h1 : DolphinView.selectedItems
        ({ u with m_loadingDirectory := true, m_expanderActive := false } : DolphinView)
        = some items := hitems
    simp only [Bool.not_true, Bool.false_eq_true, if_false, if_true, h1]
    refine ⟨_, rfl, ⟨rfl, fun m => ViewAccessor.onlySlot_modifyProxyModel _ m _, ?_, rfl, rfl⟩,
      ?_, rfl, rfl⟩
    · simp [ViewAccessor.modifyDirLister, ViewAccessor.modifyDirModel,
        ViewAccessor.itemView_modifyProxyModel]
    · apply shown_congr <;>
        simp only [ViewAccessor.modifyDirLister, ViewAccessor.modifyDirModel,
          ViewAccessor.itemView_modifyProxyModel, ViewAccessor.proxyModel_modifyProxyModel]

/-- What `setActive(active)` keeps on a ready view. -/
theorem setActive_kept (active : Bool) (u : DolphinView) (hr : u.ready = true) :
    ∃ u', u.setActive active = some u' ∧ SameBackend u u' ∧ u'.shown = u.shown ∧
      u'.m_ignoreViewProperties = u.m_ignoreViewProperties ∧ u'.settings = u.settings := by
  unfold setActive
  by_cases ha : active = u.m_active
  · simp only [ha, if_true]
    exact ⟨u, rfl, SameBackend.unchanged u, rfl, rfl, rfl⟩
  · obtain ⟨items, hitems⟩ := selectedItems_of_ready hr
    obtain ⟨view, hview⟩ := Option.isSome_iff_exists.mp (ready_itemView hr)
    have h1 : DolphinView.selectedItems ({ u with m_active := active } : DolphinView)
        = some items := hitems
    cases active with
    | true =>
      simp only [ha, if_false, if_true, emitSelectionChangedSignal, h1]
      have h2 : (({ u with m_active := true } : DolphinView).emit
          (Signal.selectionChanged items)).m_viewAccessor.itemView = some view := hview
      simp only [h2, Option.isNone_some, Bool.false_eq_true, if_false]
      exact ⟨_, rfl, ⟨rfl, fun _ => rfl, rfl, rfl, rfl⟩, rfl, rfl, rfl⟩
    | false =>
      simp only [ha, if_false, Bool.false_eq_true]
      have h2 : ({ u with m_active := false } : DolphinView).m_viewAccessor.itemView
          = some view := hview
      simp only [h2, Option.isNone_some, Bool.false_eq_true, if_false]
      exact ⟨_, rfl, ⟨rfl, fun _ => rfl, rfl, rfl, rfl⟩, rfl, rfl, rfl⟩

/-- On a ready view `refresh()` succeeds and applies the properties stored for the
location of the view again, whatever `m_ignoreViewProperties` was; with global view
properties the flag is set afterwards. -/
theorem refresh_shows (u : DolphinView) (hr : u.ready = true)
    (hg : u.settings.globalViewProps = true) :
    ∃ w, u.refresh = some w ∧ w.ready = true ∧ w.shown = some (u.store.load u.url) ∧
      w.m_ignoreViewProperties = true := by
  have hp2 : DolphinView.prepared
      ({ u with m_ignoreViewProperties := false, m_active := true } : DolphinView) = true :=
    ready_prepared hr
  obtain ⟨r3, hc, hr3, hf3, -, -, -, hi3, -⟩ := createView_ready _ hp2
  have hroot3 : r3.rootUrl = u.url := by
    rw [createView_rootUrl _ _ hc]
    exact hf3.url
  obtain ⟨r4, h4, hr4, hf4, hshown4, hflag4⟩ :=
    applyViewProperties_shows r3 (ready_prepared hr3) (fun _ => hr3) hi3
  have hg3 : r3.settings.globalViewProps = true := by
    rw [hf3.settings]
    exact hg
  have hflag4' := hflag4 hg3
  rw [hroot3, hf3.store] at hshown4
  have hr4' : DolphinView.ready ({ r4 with m_newFileNames := ∅ } : DolphinView) = true :=
    (show SameBackend r4 ({ r4 with m_newFileNames := ∅ } : DolphinView) from
      ⟨rfl, fun _ => rfl, rfl, rfl, rfl⟩).ready hr4
  obtain ⟨r5, h5, hsb5, hshown5, hflag5, hset5⟩ :=
    loadDirectory_true_kept r4.url ({ r4 with m_newFileNames := ∅ } : DolphinView) hr4'
  have hreload : r4.reload = some r5 := by
    unfold reload
    have : r4.setUrl r4.url = some ({ r4 with m_newFileNames := ∅ } : DolphinView) := by
      simp [setUrl, updateView, url]
    rw [this]
    exact h5
  have hr5 := hsb5.ready hr4'
  obtain ⟨r6, h6, hsb6, hshown6, hflag6, -⟩ := setActive_kept u.m_active r5 hr5
  have hr6 := hsb6.ready hr5
  obtain ⟨w, h7, hsb7, -⟩ := updateZoomLevel_spec u.m_controller.zoomLevel r6 (ready_itemView hr6)
  obtain ⟨hshown7, hflag7, -⟩ := updateZoomLevel_shown _ _ _ h7
  refine ⟨w, ?_, hsb7.ready hr6, ?_, ?_⟩
  · unfold refresh
    simp only [hc, h4, hreload, h6]
    exact h7
  · rw [hshown7, hshown6, hshown5]
    exact hshown4
  · rw [hflag7, hflag6, hflag5]
    exact hflag4'

/-- The constructor runs the first `applyViewProperties()`: the new view shows the
properties stored for its location, and with global view properties the flag
`m_ignoreViewProperties` is set from then on. -/
theorem ctor_shows (url : KUrl) (proxyModel : DolphinSortFilterProxyModel)
    (store : ViewPropertiesStore) (settings : Settings) (zoomLevel : Int) (expanderActive : Bool) :
    ∃ c, ctor url proxyModel store settings zoomLevel expanderActive = some c ∧
      c.shown = some (store.load url) ∧
      (settings.globalViewProps = true → c.m_ignoreViewProperties = true) := by
  have key : ∀ s : DolphinView, s.prepared = true → s.m_viewAccessor.itemView = none →
      s.m_ignoreViewProperties = false → s.store = store → s.rootUrl = url →
      s.settings = settings →
      ∃ c, s.applyViewProperties = some c ∧ c.shown = some (store.load url) ∧
        (settings.globalViewProps = true → c.m_ignoreViewProperties = true) := by
    intro s h1 h2 h3 h4 h5 h6
    obtain ⟨c, h, -, -, hs, hf⟩ := applyViewProperties_shows s h1 (fun h => by simp [h2] at h) h3
    rw [h4, h5] at hs
    rw [h6] at hf
    exact ⟨c, h, hs, hf⟩
  unfold ctor
  dsimp only
  apply key <;> rfl

/-! ### Counting, numbering and lists -/

theorem wrapInt32_of_fits (x : Int) (h1 : -2 ^ 31 ≤ x) (h2 : x < 2 ^ 31) : wrapInt32 x = x := by
  unfold wrapInt32
  omega

theorem wrapInt32_add (x n : Int) : wrapInt32 (wrapInt32 x + n) = wrapInt32 (x + n) := by
  unfold wrapInt32
  omega

theorem wrapInt32_range (x : Int) : -2 ^ 31 ≤ wrapInt32 x ∧ wrapInt32 x < 2 ^ 31 := by
  unfold wrapInt32
  omega

theorem count_fold (items : KFileItemList) :
    ∀ (fileCount folderCount : Int) (size : Nat),
      -2 ^ 31 ≤ fileCount → fileCount < 2 ^ 31 → -2 ^ 31 ≤ folderCount → folderCount < 2 ^ 31 →
      size < 2 ^ 64 →
      items.foldl
          (fun (acc : Int × Int × Nat) item =>
            if item.isDir then (acc.1, wrapInt32 (acc.2.1 + 1), acc.2.2)
            else (wrapInt32 (acc.1 + 1), acc.2.1, (acc.2.2 + item.size) % 2 ^ 64))
          (fileCount, folderCount, size)
        = (wrapInt32 (fileCount + ((items.filter (fun item => !item.isDir)).length : Int)),
           wrapInt32 (folderCount + ((items.filter (fun item => item.isDir)).length : Int)),
           (size + ((items.filter (fun item => !item.isDir)).map (fun item => item.size)).sum)
             % 2 ^ 64) := by
  induction items with
  | nil =>
    intro a b s ha1 ha2 hb1 hb2 hs
    simp only [List.foldl_nil, List.filter_nil, List.length_nil, Nat.cast_zero, add_zero,
      List.map_nil, List.sum_nil]
    rw [wrapInt32_of_fits a ha1 ha2, wrapInt32_of_fits b hb1 hb2, Nat.mod_eq_of_lt hs]
  | cons item rest ih =>
    intro a b s ha1 ha2 hb1 hb2 hs
    cases hd : item.isDir with
    | true =>
      simp only [List.foldl_cons, hd, if_true]
      rw [ih a (wrapInt32 (b + 1)) s ha1 ha2 (wrapInt32_range _).1 (wrapInt32_range _).2 hs,
        wrapInt32_add]
      simp only [hd, Bool.not_true, Bool.false_eq_true, not_false_eq_true,
        List.filter_cons_of_neg, List.filter_cons_of_pos, List.length_cons, Nat.cast_add,
        Nat.cast_one]
      congr 2
      congr 1
      omega
    | false =>
      simp only [List.foldl_cons, hd, Bool.false_eq_true, if_false]
      rw [ih (wrapInt32 (a + 1)) b _ (wrapInt32_range _).1 (wrapInt32_range _).2 hb1 hb2
        (Nat.mod_lt _ (by norm_num)), wrapInt32_add]
      simp only [hd, Bool.not_false, Bool.false_eq_true, not_false_eq_true,
        List.filter_cons_of_neg, List.filter_cons_of_pos, List.length_cons, Nat.cast_add,
        Nat.cast_one, List.map_cons, List.sum_cons]
      congr 1
      · congr 1
        omega
      · congr 1
        omega

theorem filter_dir_length (items : KFileItemList) :
    (items.filter (fun item => !item.isDir)).length + (items.filter (fun item => item.isDir)).length
      = items.length := by
  induction items with
  | nil => rfl
  | cons item rest ih =>
    cases hd : item.isDir <;> simp [hd] <;> omega

theorem selected_fold (items : KFileItemList) :
    ∀ (folderCount fileCount : Int) (size : Nat), size < 2 ^ 64 →
      items.foldl
          (fun (acc : Int × Int × Nat) item =>
            if item.isDir then (acc.1 + 1, acc.2.1, acc.2.2)
            else (acc.1, acc.2.1 + 1, (acc.2.2 + item.size) % 2 ^ 64))
          (folderCount, fileCount, size)
        = (folderCount + ((items.filter (fun item => item.isDir)).length : Int),
           fileCount + ((items.filter (fun item => !item.isDir)).length : Int),
           (size + ((items.filter (fun item => !item.isDir)).map (fun item => item.size)).sum)
             % 2 ^ 64) := by
  induction items with
  | nil =>
    intro a b s hs
    simp
    omega
  | cons item rest ih =>
    intro a b s hs
    cases hd : item.isDir with
    | true =>
      simp only [List.foldl_cons, hd, if_true]
      rw [ih (a + 1) b s hs]
      simp [hd]
      omega
    | false =>
      simp only [List.foldl_cons, hd, Bool.false_eq_true, if_false]
      rw [ih a (b + 1) _ (Nat.mod_lt _ (by norm_num))]
      simp [hd]
      omega

theorem digitChar_value (d : Nat) (hd : d < 10) : (Nat.digitChar d).toNat - 48 = d := by
  interval_cases d <;> rfl

theorem decimalValue_append (ds : List Char) (c : Char) :
    decimalValue (ds ++ [c]) = decimalValue ds * 10 + (c.toNat - 48) := by
  simp [decimalValue, List.foldl_append]

theorem decimalValue_decimalDigits :
    ∀ (fuel n : Nat), n < fuel → decimalValue (decimalDigits fuel n) = n := by
  intro fuel
  induction fuel with
  | zero => intro n h; omega
  | succ f ih =>
    intro n h
    unfold decimalDigits
    by_cases h10 : n < 10
    · simp only [h10, if_true]
      simp [decimalValue, digitChar_value n h10]
    · simp only [h10, if_false]
      rw [decimalValue_append, ih (n / 10) (by omega), digitChar_value _ (Nat.mod_lt _ (by norm_num))]
      omega

theorem setNum_injective (i j : Nat) (h : QString.setNum i = QString.setNum j) : i = j := by
  unfold QString.setNum at h
  have h' : decimalDigits (i + 1) i = decimalDigits (j + 1) j := congrArg String.data h
  have := congrArg decimalValue h'
  rwa [decimalValue_decimalDigits _ _ (Nat.lt_succ_self i),
    decimalValue_decimalDigits _ _ (Nat.lt_succ_self j)] at this

theorem replace_length (before : Char) (a : List Char) (l : List Char) :
    (l.flatMap (fun c => if c = before then a else [c])).length
      = (l.filter (fun c => decide (c ≠ before))).length + l.count before * a.length := by
  induction l with
  | nil => simp
  | cons c t ih =>
    by_cases hc : c = before
    · subst hc
      simp [List.flatMap_cons, ih]
      ring
    · have hc' : ¬ before = c := fun h => hc h.symm
      simp [List.flatMap_cons, ih, hc, List.count_cons, hc']
      omega

theorem replace_injective (before : Char) (a b : List Char) (hlen : a.length = b.length) :
    ∀ l : List Char, before ∈ l →
      l.flatMap (fun c => if c = before then a else [c])
        = l.flatMap (fun c => if c = before then b else [c]) → a = b := by
  intro l
  induction l with
  | nil => intro h; simp at h
  | cons c t ih =>
    intro hmem heq
    by_cases hc : c = before
    · subst hc
      simp only [List.flatMap_cons, if_true] at heq
      exact (List.append_inj heq hlen).1
    · simp only [List.flatMap_cons, hc, if_false, List.singleton_append, List.cons.injEq,
        true_and] at heq
      have : before ∈ t := by
        rcases List.mem_cons.mp hmem with h | h
        · exact absurd h.symm hc
        · exact h
      exact ih this heq

theorem replace_ne (P : String) (a b : String) (hP : QString.contains (Char.ofNat 35) P = true)
    (hab : a ≠ b) :
    QString.replace (Char.ofNat 35) a P ≠ QString.replace (Char.ofNat 35) b P := by
  intro h
  unfold QString.replace at h
  have h' : P.toList.flatMap (fun c => if c = Char.ofNat 35 then a.toList else [c])
      = P.toList.flatMap (fun c => if c = Char.ofNat 35 then b.toList else [c]) :=
    congrArg String.data h
  have hmem : Char.ofNat 35 ∈ P.toList := by simpa [QString.contains] using hP
  have hlen := congrArg List.length h'
  rw [replace_length, replace_length] at hlen
  have hcount : 0 < P.toList.count (Char.ofNat 35) := List.count_pos_iff.mpr hmem
  have hl : a.toList.length = b.toList.length := by
    have := Nat.add_left_cancel hlen
    exact Nat.eq_of_mul_eq_mul_left hcount this
  have := replace_injective (Char.ofNat 35) a.toList b.toList hl P.toList hmem h'
  apply hab
  cases a
  cases b
  exact congrArg String.mk this

theorem setAdditionalInfo_spec (info : InformationList) (v : DolphinView)
    (hv : v.m_viewAccessor.itemView.isSome = true) :
    ∃ v', v.setAdditionalInfo info = some v' ∧ v'.additionalInfo = some info ∧
      SameBackend v v' := by
  obtain ⟨v1, hs, hsb, -, he⟩ := setShowInformation_spec info v hv
  obtain ⟨view, hview⟩ := Option.isSome_iff_exists.mp hv
  have hinfo1 : v1.additionalInfo = some info := by
    rw [he]
    simp [additionalInfo, ViewAccessor.itemView_modifyItemView, hview]
  obtain ⟨loading, expander, calls, signals, h4, -, -⟩ :=
    loadDirectory_false_spec v.rootUrl (v1.emit Signal.additionalInfoChanged)
  unfold setAdditionalInfo
  simp only [hs]
  by_cases hreload : (v1.emit Signal.additionalInfoChanged).m_viewAccessor.reloadOnAdditionalInfoChange
      = true
  · simp only [hreload, if_true, h4]
    exact ⟨_, rfl, hinfo1, hsb.followedBy ⟨rfl, fun _ => rfl, rfl, rfl, rfl⟩⟩
  · simp only [hreload, Bool.false_eq_true, if_false]
    exact ⟨_, rfl, hinfo1, hsb.followedBy ⟨rfl, fun _ => rfl, rfl, rfl, rfl⟩⟩

theorem indexOf_of_mem {info : Information} {list : InformationList} (h : info ∈ list) :
    QList.indexOf info list = (list.indexOf info : Int) ∧ 0 ≤ QList.indexOf info list ∧
      QList.removeAt (QList.indexOf info list) list = list.erase info := by
  have e : QList.indexOf info list = (list.indexOf info : Int) := by simp [QList.indexOf, h]
  refine ⟨e, by rw [e]; exact Int.natCast_nonneg _, ?_⟩
  rw [e]
  simp [QList.removeAt, List.eraseIdx_indexOf_eq_erase]

theorem indexOf_of_not_mem {info : Information} {list : InformationList} (h : info ∉ list) :
    QList.indexOf info list = -1 := by
  simp [QList.indexOf, h]

/-! ### Categorized sorting in step with the backend -/

theorem categorizedInSync_iff (v : DolphinView) (hr : v.ready = true) :
    v.categorizedInSync = true ↔
      v.m_viewAccessor.proxyModel.isCategorizedModel
        = (v.m_storedCategorizedSorting && decide (v.m_mode = Mode.IconsView)) := by
  obtain ⟨hs, -⟩ := (ready_iff v).mp hr
  unfold categorizedInSync supportsCategorizedSorting
  rw [ViewAccessor.supports_of_onlySlot hs]
  simp

theorem categorizedInSync_congr {v w : DolphinView} (hv : v.ready = true) (hw : w.ready = true)
    (h1 : w.m_viewAccessor.proxyModel.isCategorizedModel
      = v.m_viewAccessor.proxyModel.isCategorizedModel)
    (h2 : w.m_storedCategorizedSorting = v.m_storedCategorizedSorting)
    (h3 : w.m_mode = v.m_mode) (h : v.categorizedInSync = true) :
    w.categorizedInSync = true := by
  rw [categorizedInSync_iff w hw, h1, h2, h3]
  exact (categorizedInSync_iff v hv).mp h

theorem ViewAccessor.supports_modifyProxyModel
    (f : DolphinSortFilterProxyModel → DolphinSortFilterProxyModel) (va : ViewAccessor) :
    (va.modifyProxyModel f).supportsCategorizedSorting = va.supportsCategorizedSorting := by
  obtain ⟨i, d, c, p, g, e⟩ := va
  cases c <;> rfl

theorem applySorting_flags (props : ViewProperties) (v : DolphinView) :
    (v.applySorting props).m_viewAccessor.proxyModel.isCategorizedModel
        = v.m_viewAccessor.proxyModel.isCategorizedModel ∧
      (v.applySorting props).m_storedCategorizedSorting = v.m_storedCategorizedSorting := by
  unfold applySorting
  dsimp only
  split_ifs with h
  · constructor <;> simp [emit, ViewAccessor.proxyModel_modifyProxyModel]
  · exact ⟨rfl, rfl⟩

theorem applySortOrder_flags (props : ViewProperties) (v : DolphinView) :
    (v.applySortOrder props).m_viewAccessor.proxyModel.isCategorizedModel
        = v.m_viewAccessor.proxyModel.isCategorizedModel ∧
      (v.applySortOrder props).m_storedCategorizedSorting = v.m_storedCategorizedSorting := by
  unfold applySortOrder
  dsimp only
  split_ifs with h
  · constructor <;> simp [emit, ViewAccessor.proxyModel_modifyProxyModel]
  · exact ⟨rfl, rfl⟩

theorem applySortFoldersFirst_flags (props : ViewProperties) (v : DolphinView) :
    (v.applySortFoldersFirst props).m_viewAccessor.proxyModel.isCategorizedModel
        = v.m_viewAccessor.proxyModel.isCategorizedModel ∧
      (v.applySortFoldersFirst props).m_storedCategorizedSorting
        = v.m_storedCategorizedSorting := by
  unfold applySortFoldersFirst
  dsimp only
  split_ifs with h
  · constructor <;> simp [emit, ViewAccessor.proxyModel_modifyProxyModel]
  · exact ⟨rfl, rfl⟩

theorem applyAdditionalInfo_flags (props : ViewProperties) (v v' : DolphinView)
    (h : v.applyAdditionalInfo props = some v') :
    v'.m_viewAccessor.proxyModel.isCategorizedModel
        = v.m_viewAccessor.proxyModel.isCategorizedModel ∧
      v'.m_storedCategorizedSorting = v.m_storedCategorizedSorting := by
  unfold applyAdditionalInfo at h
  cases hview : v.m_viewAccessor.itemView with
  | none => simp [hview] at h
  | some view =>
    simp only [hview, setShowInformation] at h
    by_cases hi : props.additionalInfo = view.showInformation
    · simp only [hi, ne_eq, not_true_eq_false, if_false, Option.some.injEq] at h
      subst h
      exact ⟨rfl, rfl⟩
    · simp only [ne_eq, hi, not_false_eq_true, if_true, Option.some.injEq] at h
      subst h
      simp only [emit, (ViewAccessor.proxyModel_modifyItemView _ _).2]
      exact ⟨trivial, trivial⟩

theorem applyShowPreview_flags (props : ViewProperties) (v v' : DolphinView)
    (hv : v.m_viewAccessor.itemView.isSome = true)
    (h : v.applyShowPreview props = some v') :
    v'.m_viewAccessor.proxyModel.isCategorizedModel
        = v.m_viewAccessor.proxyModel.isCategorizedModel ∧
      v'.m_storedCategorizedSorting = v.m_storedCategorizedSorting := by
  unfold applyShowPreview at h
  by_cases hp : props.showPreview = v.m_showPreview
  · simp only [hp, ne_eq, not_true_eq_false, if_false, Option.some.injEq] at h
    subst h
    exact ⟨rfl, rfl⟩
  · simp only [ne_eq, hp, not_false_eq_true, if_true] at h
    obtain ⟨v1, hz, -, -, hacc, -, -, hst⟩ := updateZoomLevel_spec v.m_controller.zoomLevel
      (({ v with m_showPreview := props.showPreview } : DolphinView).emit
        Signal.showPreviewChanged) hv
    have h' := hz.symm.trans h
    have e := Option.some.inj h'
    subst e
    rw [hacc, hst]
    exact ⟨rfl, rfl⟩

theorem applyGlobalViewProps_flags (v : DolphinView) :
    v.applyGlobalViewProps.m_viewAccessor.proxyModel.isCategorizedModel
        = v.m_viewAccessor.proxyModel.isCategorizedModel ∧
      v.applyGlobalViewProps.m_storedCategorizedSorting = v.m_storedCategorizedSorting := by
  unfold applyGlobalViewProps
  split_ifs <;> exact ⟨rfl, rfl⟩

/-- An `applyViewProperties()` that is not suppressed leaves the categorized flag of the
proxy model in step with the stored preference and the backend. -/
theorem applyViewProperties_inSync (v : DolphinView) (hp : v.prepared = true)
    (hv : v.m_viewAccessor.itemView.isSome = true → v.ready = true)
    (hi : v.m_ignoreViewProperties = false) :
    ∃ v', v.applyViewProperties = some v' ∧ v'.ready = true ∧ v'.categorizedInSync = true := by
  obtain ⟨v', h, hr', -⟩ := applyViewProperties_core v hp hv hi
  refine ⟨v', h, hr', ?_⟩
  unfold applyViewProperties at h
  simp only [hi, Bool.false_eq_true, if_false] at h
  obtain ⟨v1, h1, hp1, hv1, -⟩ := applyViewMode_spec (v.store.load v.rootUrl) v hp hv
  obtain ⟨v2, h2, hr2, -⟩ := ensureView_spec v1 hp1 hv1
  simp only [h1, h2] at h
  obtain ⟨hs3, -⟩ := applyShowHiddenFiles_spec (v.store.load v.rootUrl) v2
  have hr3 := hs3.ready hr2
  obtain ⟨hs4, -, hst4, hflag4, -⟩ := reconcileCategorizedSorting_spec (v.store.load v.rootUrl)
    (v2.applyShowHiddenFiles (v.store.load v.rootUrl))
  have hr4 := hs4.ready hr3
  obtain ⟨hs5, -⟩ := applySorting_spec (v.store.load v.rootUrl)
    ((v2.applyShowHiddenFiles (v.store.load v.rootUrl)).reconcileCategorizedSorting
      (v.store.load v.rootUrl))
  obtain ⟨hs6, -⟩ := applySortOrder_spec (v.store.load v.rootUrl)
    (((v2.applyShowHiddenFiles (v.store.load v.rootUrl)).reconcileCategorizedSorting
      (v.store.load v.rootUrl)).applySorting (v.store.load v.rootUrl))
  obtain ⟨hs7, -⟩ := applySortFoldersFirst_spec (v.store.load v.rootUrl)
    ((((v2.applyShowHiddenFiles (v.store.load v.rootUrl)).reconcileCategorizedSorting
      (v.store.load v.rootUrl)).applySorting (v.store.load v.rootUrl)).applySortOrder
        (v.store.load v.rootUrl))
  have hsb7 := (hs5.followedBy hs6).followedBy hs7
  have hr7 := hsb7.ready hr4
  have hsync4 : ((v2.applyShowHiddenFiles (v.store.load v.rootUrl)).reconcileCategorizedSorting
      (v.store.load v.rootUrl)).categorizedInSync = true := by
    rw [categorizedInSync_iff _ hr4, hflag4, hst4, hs4.mode]
    obtain ⟨hslot3, -⟩ := (ready_iff _).mp hr3
    rw [ViewAccessor.supports_of_onlySlot hslot3]
  cases h8 : ((((v2.applyShowHiddenFiles (v.store.load v.rootUrl)).reconcileCategorizedSorting
      (v.store.load v.rootUrl)).applySorting (v.store.load v.rootUrl)).applySortOrder
      (v.store.load v.rootUrl)).applySortFoldersFirst (v.store.load v.rootUrl)
      |>.applyAdditionalInfo (v.store.load v.rootUrl) with
  | none => simp [h8] at h
  | some v8 =>
    simp only [h8] at h
    obtain ⟨v8', h8', hs8, -⟩ := applyAdditionalInfo_spec (v.store.load v.rootUrl) _
      (ready_itemView hr7)
    have e8 := Option.some.inj (h8'.symm.trans h8)
    subst e8
    have hr8 := hs8.ready hr7
    cases h9 : v8'.applyShowPreview (v.store.load v.rootUrl) with
    | none => simp [h9] at h
    | some v9 =>
      simp only [h9, Option.some.injEq] at h
      subst h
      obtain ⟨f5, s5⟩ := applySorting_flags (v.store.load v.rootUrl)
        ((v2.applyShowHiddenFiles (v.store.load v.rootUrl)).reconcileCategorizedSorting
          (v.store.load v.rootUrl))
      obtain ⟨f6, s6⟩ := applySortOrder_flags (v.store.load v.rootUrl)
        (((v2.applyShowHiddenFiles (v.store.load v.rootUrl)).reconcileCategorizedSorting
          (v.store.load v.rootUrl)).applySorting (v.store.load v.rootUrl))
      obtain ⟨f7, s7⟩ := applySortFoldersFirst_flags (v.store.load v.rootUrl)
        ((((v2.applyShowHiddenFiles (v.store.load v.rootUrl)).reconcileCategorizedSorting
          (v.store.load v.rootUrl)).applySorting (v.store.load v.rootUrl)).applySortOrder
            (v.store.load v.rootUrl))
      obtain ⟨f8, s8⟩ := applyAdditionalInfo_flags _ _ _ h8
      obtain ⟨f9, s9⟩ := applyShowPreview_flags _ _ _ (ready_itemView hr8) h9
      obtain ⟨f10, s10⟩ := applyGlobalViewProps_flags v9
      obtain ⟨v9', h9', hs9, -⟩ := applyShowPreview_spec (v.store.load v.rootUrl) v8'
        (ready_itemView hr8)
      have e9 := Option.some.inj (h9'.symm.trans h9)
      subst e9
      obtain ⟨hs10, -⟩ := applyGlobalViewProps_spec v9'
      exact categorizedInSync_congr hr4 hr'
        (f10.trans (f9.trans (f8.trans (f7.trans (f6.trans f5)))))
        (s10.trans (s9.trans (s8.trans (s7.trans (s6.trans s5)))))
        ((((hsb7.followedBy hs8).followedBy hs9).followedBy hs10).mode) hsync4

theorem setCategorizedSorting_inSync (categorized : Bool) (v : DolphinView)
    (hr : v.ready = true) (hsync : v.categorizedInSync = true)
    (hpre : categorized = true → v.supportsCategorizedSorting = true) :
    ∃ v', v.setCategorizedSorting categorized = some v' ∧ v'.ready = true ∧
      v'.categorizedInSync = true ∧
      (categorized ≠ v.categorizedSorting →
        v'.m_storedCategorizedSorting = categorized ∧
        v'.m_viewAccessor.proxyModel.isCategorizedModel = categorized) := by
  unfold setCategorizedSorting
  by_cases he : categorized = v.categorizedSorting
  · simp only [he, if_true]
    exact ⟨v, rfl, hr, hsync, fun h => absurd rfl h⟩
  · have hassert : (!(!categorized || v.supportsCategorizedSorting)) = false := by
      cases hc : categorized with
      | false => rfl
      | true => simp [hpre hc]
    simp only [he, if_false, hassert, Bool.false_eq_true]
    refine ⟨_, rfl, ?_, ?_, fun _ => ⟨rfl, ?_⟩⟩
    · refine SameBackend.ready ?_ hr
      exact ⟨rfl, fun m => ViewAccessor.onlySlot_modifyProxyModel _ m _,
        by simp [emit, ViewAccessor.itemView_modifyProxyModel], rfl, rfl⟩
    · simp only [categorizedInSync, supportsCategorizedSorting, emit,
        ViewAccessor.proxyModel_modifyProxyModel, ViewAccessor.supports_modifyProxyModel,
        DolphinSortFilterProxyModel.setCategorizedModel]
      cases hc : categorized with
      | false => rfl
      | true =>
        have hsup := hpre hc
        unfold supportsCategorizedSorting at hsup
        simp [hsup]
    · simp only [emit, ViewAccessor.proxyModel_modifyProxyModel,
        DolphinSortFilterProxyModel.setCategorizedModel]

theorem setMode_inSync (m : Mode) (v : DolphinView) (hr : v.ready = true)
    (hsync : v.categorizedInSync = true) :
    ∃ v', v.setMode m = some v' ∧ v'.ready = true ∧ v'.categorizedInSync = true := by
  by_cases hm : m = v.m_mode
  · exact ⟨v, by simp [setMode, hm], hr, hsync⟩
  · obtain ⟨v', h, hr', hmode, -, -, -, hst, hflag, -⟩ := setMode_spec m v hr hm
    refine ⟨v', h, hr', ?_⟩
    rw [categorizedInSync_iff _ hr', hflag, hst, hmode]

theorem ctor_inSync (url : KUrl) (proxyModel : DolphinSortFilterProxyModel)
    (store : ViewPropertiesStore) (settings : Settings) (zoomLevel : Int) (expanderActive : Bool) :
    ∃ c, ctor url proxyModel store settings zoomLevel expanderActive = some c ∧
      c.ready = true ∧ c.categorizedInSync = true := by
  have key : ∀ s : DolphinView, s.prepared = true → s.m_viewAccessor.itemView = none →
      s.m_ignoreViewProperties = false →
      ∃ c, s.applyViewProperties = some c ∧ c.ready = true ∧ c.categorizedInSync = true :=
    fun s h1 h2 h3 => applyViewProperties_inSync s h1 (fun h => by simp [h2] at h) h3
  unfold ctor
  dsimp only
  apply key <;> rfl

/-! ### Renaming -/

/-- The rename requests the loop of `renameSelectedItems()` issues for the items
`items`, numbered from `index`: the item number `i` gets the pattern with every
number sign replaced by the numeral of `i`, unless that is its file name already. -/
theorem renameItems_spec (newName : String) :
    ∀ (items : KFileItemList) (index : Nat) (v : DolphinView),
      renameItems newName items index v
        = { v with renameCalls := v.renameCalls ++
              (items.enumFrom index).filterMap (fun p =>
                if p.2.url.fileName ≠
                    QString.replace (Char.ofNat 35) (QString.setNum p.1) newName then
                  some (p.2.url, p.2.url.setFileName
                    (QString.replace (Char.ofNat 35) (QString.setNum p.1) newName))
                else none) } := by
  intro items
  induction items with
  | nil => intro index v; simp [renameItems]
  | cons item rest ih =>
    intro index v
    unfold renameItems
    dsimp only
    rw [ih]
    by_cases h : item.url.fileName
        = QString.replace (Char.ofNat 35) (QString.setNum index) newName
    · simp [h]
    · simp [h, List.append_assoc]

theorem qSort_perm {α : Type} (lessThan : α → α → Bool) (items : List α) :
    (qSort lessThan items).Perm items :=
  List.perm_insertionSort _ items

theorem qSort_sorted {α : Type} (lessThan : α → α → Bool)
    (hasymm : ∀ a b, lessThan a b = true → lessThan b a = false)
    (htrans : ∀ a b c, lessThan b a = false → lessThan c b = false → lessThan c a = false)
    (items : List α) :
    (qSort lessThan items).Pairwise (fun a b => lessThan b a = false) := by
  haveI : IsTotal α (fun a b => lessThan b a = false) :=
    ⟨fun a b => by
      cases h : lessThan b a with
      | false => exact Or.inl rfl
      | true => exact Or.inr (hasymm b a h)⟩
  haveI : IsTrans α (fun a b => lessThan b a = false) := ⟨fun a b c h1 h2 => htrans a b c h1 h2⟩
  exact List.sorted_insertionSort (fun a b => lessThan b a = false) items

/-! ### Completion of loading -/

theorem ready_of_same_accessor (v w : DolphinView) (h1 : w.m_viewAccessor = v.m_viewAccessor)
    (h2 : w.m_mode = v.m_mode) (h3 : w.m_selectionModel = v.m_selectionModel)
    (h4 : w.selectionModels.length = v.selectionModels.length) (hr : v.ready = true) :
    w.ready = true := by
  obtain ⟨hs, view, hview, hown, hlt⟩ := (ready_iff v).mp hr
  rw [ready_iff, h1, h2, h3, h4]
  exact ⟨hs, view, hview, hown, hlt⟩

theorem viewSelectionModel_of_ready {v : DolphinView} (hr : v.ready = true) :
    ∃ k model, v.viewSelectionModel = some (k, model) := by
  obtain ⟨-, view, h2, -, h4⟩ := (ready_iff v).mp hr
  refine ⟨view.selectionModel, v.selectionModels[view.selectionModel], ?_⟩
  unfold DolphinView.viewSelectionModel
  rw [h2]
  simp [List.getElem?_eq_getElem h4]

/-- On a ready view `slotLoadingCompleted()` succeeds: both flags are cleared and
`restoreContentsPosition()` is queued. -/
theorem slotLoadingCompleted_spec (w : DolphinView) (hr : w.ready = true) :
    ∃ w', w.slotLoadingCompleted = some w' ∧ w'.ready = true ∧
      w'.m_expanderActive = false ∧ w'.m_loadingDirectory = false ∧
      w'.queued = w.queued ++ [Slot.restoreContentsPosition] ∧
      w'.m_newFileNames = w.m_newFileNames ∧ w'.m_viewAccessor = w.m_viewAccessor := by
  obtain ⟨k, model, hm⟩ := viewSelectionModel_of_ready hr
  have hm1 : DolphinView.viewSelectionModel
      ({ w with m_expanderActive := false, m_loadingDirectory := false } : DolphinView)
      = some (k, model) := hm
  unfold slotLoadingCompleted
  dsimp only
  by_cases h1 : w.m_activeItemUrl.isEmpty = true
  · simp only [h1, Bool.not_true, Bool.false_eq_true, if_false]
    exact ⟨_, rfl, ready_of_same_accessor w _ rfl rfl rfl rfl hr, rfl, rfl, rfl, rfl, rfl⟩
  · simp only [h1, Bool.not_false, if_true]
    by_cases h2 : (w.m_viewAccessor.dirModel.indexForUrl w.m_activeItemUrl).isSome = true
    · simp only [h2, if_true, viewSetCurrentIndex, hm1]
      have hm2 := viewSelectionModel_setSelectionModelState
        (model.setCurrentIndex
          (w.m_viewAccessor.proxyModel.mapFromSource
            (w.m_viewAccessor.dirModel.indexForUrl w.m_activeItemUrl))
          SelectionFlags.ClearAndSelect) hm1
      by_cases h3 : (!DolphinView.hasSelection
          ({ w with m_expanderActive := false, m_loadingDirectory := false } : DolphinView)) = true
      · simp only [h3, if_true, viewClearSelection, hm2]
        exact ⟨_, rfl, ready_of_same_accessor w _ rfl rfl rfl
          (by simp [setSelectionModelState]) hr, rfl, rfl, rfl, rfl, rfl⟩
      · simp only [h3, Bool.false_eq_true, if_false]
        exact ⟨_, rfl, ready_of_same_accessor w _ rfl rfl rfl
          (by simp [setSelectionModelState]) hr, rfl, rfl, rfl, rfl, rfl⟩
    · simp only [h2, Bool.false_eq_true, if_false]
      exact ⟨_, rfl, ready_of_same_accessor w _ rfl rfl rfl rfl hr, rfl, rfl, rfl, rfl, rfl⟩

/-- What `slotDirListerCompleted()` does on a ready view: with the flag `m_expanderActive`
set the finalization is skipped, with the flag clear it runs; the selection of
pasted items that follows keeps the flags, the queue and the accessor. -/
theorem slotDirListerCompleted_spec (w : DolphinView) (hr : w.ready = true) :
    (w.m_expanderActive = true →
      ∃ w', w.slotDirListerCompleted = some w' ∧ w'.m_expanderActive = true ∧
        w'.m_loadingDirectory = w.m_loadingDirectory ∧ w'.queued = w.queued ∧
        w'.ready = true ∧ w'.m_viewAccessor = w.m_viewAccessor) ∧
    (w.m_expanderActive = false →
      ∃ w', w.slotDirListerCompleted = some w' ∧ w'.m_expanderActive = false ∧
        w'.m_loadingDirectory = false ∧
        w'.queued = w.queued ++ [Slot.restoreContentsPosition] ∧
        w'.ready = true ∧ w'.m_viewAccessor = w.m_viewAccessor) := by
  have second : ∀ u : DolphinView, u.ready = true →
      ∃ u', (if u.m_newFileNames ≠ ∅ then
          (match u.viewSelectionModel with
          | none => none
          | some (k, model) =>
            some { (u.setSelectionModelState k (model.select
              ((List.range u.m_viewAccessor.proxyModel.rowCount).foldl
                (fun acc row =>
                  if (match u.m_viewAccessor.dirModel.itemForIndex
                        (u.m_viewAccessor.proxyModel.mapToSource
                          (u.m_viewAccessor.proxyModel.index row 0)) with
                      | some item => item.url
                      | none => KUrl.empty).fileName ∈ u.m_newFileNames then
                    acc ∪ QItemSelection.range (u.m_viewAccessor.proxyModel.index row 0)
                      (u.m_viewAccessor.proxyModel.index row 0)
                  else acc)
                ∅) SelectionFlags.Select)) with m_newFileNames := ∅ })
        else some u) = some u' ∧ u'.m_expanderActive = u.m_expanderActive ∧
        u'.m_loadingDirectory = u.m_loadingDirectory ∧ u'.queued = u.queued ∧
        u'.ready = true ∧ u'.m_viewAccessor = u.m_viewAccessor := by
    intro u hu
    obtain ⟨k, model, hm⟩ := viewSelectionModel_of_ready hu
    by_cases hn : u.m_newFileNames = ∅
    · simp only [hn, ne_eq, not_true_eq_false, if_false]
      exact ⟨u, rfl, rfl, rfl, rfl, hu, rfl⟩
    · simp only [ne_eq, hn, not_false_eq_true, if_true, hm]
      exact ⟨_, rfl, rfl, rfl, rfl,
        ready_of_same_accessor u _ rfl rfl rfl (by simp [setSelectionModelState]) hu, rfl⟩
  constructor
  · intro he
    obtain ⟨u', h, e1, e2, e3, e4, e5⟩ := second w hr
    refine ⟨u', ?_, e1.trans he, e2, e3, e4, e5⟩
    unfold slotDirListerCompleted
    simp only [he, Bool.not_true, Bool.false_eq_true, if_false]
    exact h
  · intro he
    obtain ⟨w1, h1, hr1, e1, e2, e3, -, e4⟩ := slotLoadingCompleted_spec w hr
    obtain ⟨u', h, f1, f2, f3, f4, f5⟩ := second w1 hr1
    refine ⟨u', ?_, f1.trans e1, f2.trans e2, f3.trans e3, f4, f5.trans e4⟩
    unfold slotDirListerCompleted
    simp only [he, Bool.not_false, if_true, h1]
    exact h

/-- On a ready view `restoreSelection()` succeeds, disconnects itself and keeps the flags
and the queue. -/
theorem restoreSelection_flags (u : DolphinView) (hr : u.ready = true) :
    ∃ w, u.restoreSelection = some w ∧ w.m_expanderActive = u.m_expanderActive ∧
      w.m_loadingDirectory = u.m_loadingDirectory ∧ w.queued = u.queued ∧
      Slot.restoreSelection ∉ w.m_viewAccessor.dirLister.completedSlots := by
  obtain ⟨f, hf⟩ : ∃ f : KDirLister → KDirLister, f = fun l =>
      { l with completedSlots := l.completedSlots.filter (· ≠ Slot.restoreSelection) } :=
    ⟨_, rfl⟩
  obtain ⟨u0, hu0⟩ : ∃ u0 : DolphinView,
      u0 = { u with m_viewAccessor := u.m_viewAccessor.modifyDirLister f } := ⟨_, rfl⟩
  have hsel : u0.viewSelectionModel = u.viewSelectionModel := by
    rw [hu0]
    exact (modifyDirLister_same f u).selection_same
  obtain ⟨k, model, hu⟩ := viewSelectionModel_of_ready hr
  rw [hu] at hsel
  have hrun : u.restoreSelection = some
      { (u0.setSelectionModelState k
          (model.setCurrentIndex model.currentIndex SelectionFlags.CurrentClear)) with
        m_selectedItems := [] } := by
    unfold restoreSelection
    rw [← hf]
    dsimp only
    rw [← hu0]
    unfold changeSelection clearSelection
    simp only [hsel]
    simp [readRef]
  refine ⟨_, hrun, ?_, ?_, ?_, ?_⟩
  · show u0.m_expanderActive = _
    rw [hu0]
  · show u0.m_loadingDirectory = _
    rw [hu0]
  · show u0.queued = _
    rw [hu0]
  · show Slot.restoreSelection ∉ u0.m_viewAccessor.dirLister.completedSlots
    rw [hu0, hf]
    simp [ViewAccessor.dirLister, ViewAccessor.dirModel, ViewAccessor.modifyDirLister,
      ViewAccessor.modifyDirModel, ViewAccessor.proxyModel_modifyProxyModel]

/-- The event `completed()` of a lister to which `slotDirListerCompleted()` and, any number
of times, `restoreSelection()` are connected: on a ready view the slots succeed,
and the flags and the queue are those `slotDirListerCompleted()` leaves. -/
theorem dirListerCompleted_spec (k : Nat) (w : DolphinView) (hr : w.ready = true)
    (hconn : w.m_viewAccessor.dirLister.completedSlots
      = Slot.slotDirListerCompleted :: List.replicate k Slot.restoreSelection) :
    (w.m_expanderActive = true →
      ∃ w', w.dirListerCompleted = some w' ∧ w'.m_expanderActive = true ∧
        w'.m_loadingDirectory = w.m_loadingDirectory ∧ w'.queued = w.queued) ∧
    (w.m_expanderActive = false →
      ∃ w', w.dirListerCompleted = some w' ∧ w'.m_expanderActive = false ∧
        w'.m_loadingDirectory = false ∧
        w'.queued = w.queued ++ [Slot.restoreContentsPosition]) := by
  have rest : ∀ w1 : DolphinView, w1.ready = true →
      w1.m_viewAccessor.dirLister.completedSlots
        = Slot.slotDirListerCompleted :: List.replicate k Slot.restoreSelection →
      ∃ w2, activate (fun x => x.m_viewAccessor.dirLister.completedSlots)
          (List.replicate k Slot.restoreSelection) w1 = some w2 ∧
        w2.m_expanderActive = w1.m_expanderActive ∧
        w2.m_loadingDirectory = w1.m_loadingDirectory ∧ w2.queued = w1.queued := by
    intro w1 hr1 hc1
    cases k with
    | zero => exact ⟨w1, rfl, rfl, rfl, rfl⟩
    | succ n =>
      obtain ⟨w2, h2, e1, e2, e3, hd⟩ := restoreSelection_flags w1 hr1
      refine ⟨w2, ?_, e1, e2, e3⟩
      have hmem : Slot.restoreSelection ∈ w1.m_viewAccessor.dirLister.completedSlots := by
        rw [hc1]
        simp [List.replicate_succ]
      simp only [List.replicate_succ, activate, hmem, if_true, runSlot, h2]
      exact activate_disconnected _ w2 _ (fun s hs => by
        rw [List.eq_of_mem_replicate hs]
        exact hd)
  have first : ∀ w1 : DolphinView, w.slotDirListerCompleted = some w1 →
      w1.ready = true → w1.m_viewAccessor = w.m_viewAccessor →
      ∃ w2, w.dirListerCompleted = some w2 ∧ w2.m_expanderActive = w1.m_expanderActive ∧
        w2.m_loadingDirectory = w1.m_loadingDirectory ∧ w2.queued = w1.queued := by
    intro w1 h1 hr1 ha1
    obtain ⟨w2, h2, e⟩ := rest w1 hr1 (by rw [ha1]; exact hconn)
    refine ⟨w2, ?_, e⟩
    unfold dirListerCompleted
    rw [hconn]
    simp only [activate, hconn, List.mem_cons, true_or, if_true, runSlot, h1, h2]
  constructor
  · intro he
    obtain ⟨w1, h1, e1, e2, e3, hr1, ha1⟩ := (slotDirListerCompleted_spec w hr).1 he
    obtain ⟨w2, h2, f1, f2, f3⟩ := first w1 h1 hr1 ha1
    exact ⟨w2, h2, f1.trans e1, f2.trans e2, f3.trans e3⟩
  · intro he
    obtain ⟨w1, h1, e1, e2, e3, hr1, ha1⟩ := (slotDirListerCompleted_spec w hr).2 he
    obtain ⟨w2, h2, f1, f2, f3⟩ := first w1 h1 hr1 ha1
    exact ⟨w2, h2, f1.trans e1, f2.trans e2, f3.trans e3⟩

/-- What `loadDirectory(L, reload)` with a valid `L` does on a ready view to whose lister
`slotDirListerCompleted()` and `k` times `restoreSelection()` are connected: the
loading flag is set, the flag `m_expanderActive` is cleared, the expander is left
as it is, and a reload connects `restoreSelection()` once more. -/
theorem loadDirectory_valid_spec (L : KUrl) (reload : Bool) (k : Nat) (w : DolphinView)
    (hw : w.ready = true) (hL : L.isValid = true)
    (hconn : w.m_viewAccessor.dirLister.completedSlots
      = Slot.slotDirListerCompleted :: List.replicate k Slot.restoreSelection) :
    ∃ w', w.loadDirectory L reload = some w' ∧ w'.ready = true ∧
      w'.m_expanderActive = false ∧ w'.m_loadingDirectory = true ∧ w'.queued = w.queued ∧
      w'.m_viewAccessor.m_detailsViewExpander = w.m_viewAccessor.m_detailsViewExpander ∧
      w'.m_viewAccessor.dirLister.completedSlots
        = Slot.slotDirListerCompleted
          :: List.replicate (if reload then k + 1 else k) Slot.restoreSelection := by
  unfold loadDirectory
  simp only [hL, Bool.not_true, Bool.false_eq_true, if_false]
  cases reload with
  | false =>
    exact ⟨_, rfl, ready_of_same_accessor w _ rfl rfl rfl rfl hw, rfl, rfl, rfl, rfl, hconn⟩
  | true =>
    obtain ⟨items, hitems⟩ := selectedItems_of_ready hw
    have h1 : DolphinView.selectedItems
        ({ w with m_loadingDirectory := true, m_expanderActive := false } : DolphinView)
        = some items := hitems
    simp only [if_true, h1]
    refine ⟨_, rfl, ?_, rfl, rfl, rfl, ?_, ?_⟩
    · have hb := modifyDirLister_same
        (fun l : KDirLister =>
          { l with completedSlots := l.completedSlots ++ [Slot.restoreSelection] }) w
      exact ready_of_same_accessor _ _ rfl rfl rfl rfl (hb.ready hw)
    · show (ViewAccessor.modifyDirLister _ w.m_viewAccessor).m_detailsViewExpander = _
      cases hp : w.m_viewAccessor.m_columnsContainer <;>
        simp [ViewAccessor.modifyDirLister, ViewAccessor.modifyDirModel,
          ViewAccessor.modifyProxyModel, hp]
    · show (ViewAccessor.modifyDirLister _ w.m_viewAccessor).dirLister.completedSlots = _
      have hc : w.m_viewAccessor.proxyModel.sourceModel.dirLister.completedSlots
          = Slot.slotDirListerCompleted :: List.replicate k Slot.restoreSelection := hconn
      simp only [ViewAccessor.dirLister, ViewAccessor.dirModel, ViewAccessor.modifyDirLister,
        ViewAccessor.modifyDirModel, ViewAccessor.proxyModel_modifyProxyModel, hc,
        List.cons_append, List.replicate_succ']

/-! ### Selection across a change of the mode -/

/-- Between the icons and the details view `setMode(m)` with a changed mode keeps the
selection: the new backend uses the selection model owned by the view and reads
the items through the same proxy model, so the selected cells, the current index,
the selected items and the current item are the same after the switch as
before. -/
theorem setMode_icons_details_selection (m : Mode) (v : DolphinView) (hr : v.ready = true)
    (hne : m ≠ v.m_mode) (h1 : v.m_mode ≠ Mode.ColumnView) (h2 : m ≠ Mode.ColumnView) :
    ∃ v', v.setMode m = some v' ∧
      v'.selection = v.selection ∧ v'.currentIndex = v.currentIndex ∧
      v'.selectedItems = v.selectedItems ∧ v'.currentItemUrl = v.currentItemUrl := by
  obtain ⟨v', h, hr', hm', hsel, -, -, -, -, hord, hsrc⟩ := setMode_spec m v hr hne
  obtain ⟨hs, -⟩ := (ready_iff v).mp hr
  obtain ⟨hs', -⟩ := (ready_iff v').mp hr'
  rw [hm'] at hs'
  have e := (ViewAccessor.rootUrl_of_onlySlot hs h1).2
  have e' := (ViewAccessor.rootUrl_of_onlySlot hs' h2).2
  have hboth := selectedItems_congr hsel (by rw [e, e', hord]) (by rw [e, e', hsrc])
  exact ⟨v', h, by simp [selection, hsel], by simp [currentIndex, hsel], hboth.1, hboth.2⟩

/-! ### Properties of the specification -/

/-- C1 (the code at the failing input): in `/home` with the file `a` selected,
`reload()` stores the selection in `m_selectedItems` and registers
`restoreSelection()`; when the lister then reports completion, with the listing in
the same or in another proxy order, nothing is selected any more:
`changeSelection(m_selectedItems)` runs `clearSelection()`, which empties the very
list it was given, and returns at `selection.isEmpty()`. -/
theorem reload_completed_example :
    Example.selected.url.isValid = true ∧
      Example.selected.selectedItems = some [Example.itemA] ∧
      (Example.selected.reload).map (fun v => v.m_selectedItems) = some [Example.itemA] ∧
      (Example.selected.reload).map (fun v => v.m_viewAccessor.dirLister.completedSlots)
        = some [Slot.slotDirListerCompleted, Slot.restoreSelection] ∧
      ((Example.selected.reload).bind dirListerCompleted).bind selectedItems = some [] ∧
      ((Example.selected.reload).bind (fun v =>
        (v.listingChanged [Example.itemB, Example.itemA] [0, 1]).dirListerCompleted)).bind
          selectedItems = some [] := by
  decide

/-- C3 (as stated, refuted): after `reload()` in `/home` and `setUrl(/tmp)` the slot
`restoreSelection()` is still connected to `completed()`; when the listing of
`/tmp` has arrived and the user has selected the file `c`, the completion event
runs the stale slot and the selection is empty. -/
theorem setUrl_stale_restoreSelection_example :
    (Example.reloaded.setUrl Example.tmp).map
        (fun v => v.m_viewAccessor.dirLister.completedSlots)
      = some [Slot.slotDirListerCompleted, Slot.restoreSelection] ∧
    ((Example.reloaded.setUrl Example.tmp).bind (fun v =>
        (v.listingChanged [Example.itemC] [0]).viewSetCurrentIndex (some (0, 0)))).map
          selection = some {(0, 0)} ∧
    (((Example.reloaded.setUrl Example.tmp).bind (fun v =>
        (v.listingChanged [Example.itemC] [0]).viewSetCurrentIndex (some (0, 0)))).bind
          dirListerCompleted).map selection = some ∅ := by
  decide

/-- C3 (amended): `setUrl(L2)` with `L2` different from the current location does not
disconnect `restoreSelection()`: a handler that `reload()` has connected to
`completed()` of the lister of the view's proxy model is still connected after
`setUrl`.  When it then runs in a view `u` none of whose stored items lies in the
directory shown, it disconnects itself, empties the selection and leaves the
current index unchanged. -/
theorem setUrl_keeps_restoreSelection (L2 : KUrl) (v u : DolphinView) (hr : v.ready = true)
    (hne : L2 ≠ v.url)
    (hreg : Slot.restoreSelection ∈
      v.m_viewAccessor.m_proxyModel.sourceModel.dirLister.completedSlots)
    (hu : u.ready = true)
    (_hstale : ∀ item ∈ u.m_selectedItems,
      u.url.equalsWithoutTrailingSlash item.url.upUrl = false) :
    (∃ v', v.setUrl L2 = some v' ∧ v'.url = L2 ∧ v'.ready = true ∧
      Slot.restoreSelection ∈
        v'.m_viewAccessor.m_proxyModel.sourceModel.dirLister.completedSlots) ∧
      ∃ w, u.restoreSelection = some w ∧ w.selection = ∅ ∧
        w.currentIndex = u.currentIndex ∧
        Slot.restoreSelection ∉ w.m_viewAccessor.dirLister.completedSlots := by
  constructor
  · obtain ⟨v', h, hr', hurl, -, hcompleted, -⟩ :=
      updateView_spec L2 ({ v with m_newFileNames := ∅ } : DolphinView) hr
        (fun h => hne h.symm)
    refine ⟨v', h, hurl, hr', ?_⟩
    rw [hcompleted]
    exact hreg
  · obtain ⟨w, h1, h2, h3, -, h4⟩ := restoreSelection_spec u hu
    exact ⟨w, h1, h2, h3, h4⟩

/-- Witness of `setUrl_keeps_restoreSelection`: `/tmp` requested after `reload()` in
`/home`; the handler then runs in the view that shows `/tmp` with the file `c`
selected. -/
theorem setUrl_keeps_restoreSelection_witness :
    Example.reloaded.ready = true ∧ Example.tmp ≠ Example.reloaded.url ∧
      Slot.restoreSelection ∈
        Example.reloaded.m_viewAccessor.m_proxyModel.sourceModel.dirLister.completedSlots ∧
      Example.stale.ready = true ∧
      (∀ item ∈ Example.stale.m_selectedItems,
        Example.stale.url.equalsWithoutTrailingSlash item.url.upUrl = false) ∧
      (∃ v', Example.reloaded.setUrl Example.tmp = some v' ∧ v'.url = Example.tmp ∧
        Slot.restoreSelection ∈
          v'.m_viewAccessor.m_proxyModel.sourceModel.dirLister.completedSlots) ∧
      ∃ w, Example.stale.restoreSelection = some w ∧ w.selection = ∅ :=
  ⟨by decide, by decide, by decide, by decide, by decide,
    let ⟨v', h, hu, _, hc⟩ :=
      (setUrl_keeps_restoreSelection Example.tmp Example.reloaded Example.stale (by decide)
        (by decide) (by decide) (by decide) (by decide)).1
    ⟨v', h, hu, hc⟩,
    let ⟨w, h, hs, _⟩ :=
      (setUrl_keeps_restoreSelection Example.tmp Example.reloaded Example.stale (by decide)
        (by decide) (by decide) (by decide) (by decide)).2
    ⟨w, h, hs⟩⟩

/-- C4: take a view whose current item has the location `L` (the empty location when there
is no current item), whose item view is scrolled to `(x, y)` and whose details
view has exactly the locations `E` expanded (`E` is empty without a details view).
The stream written by `saveState` holds `L`, then `(x, y)`, then `E`; `restoreState` on
any view (a freshly constructed one included) reads the three in that order,
consumes the whole stream, sets the pending current-item location to `L` and the
pending contents position to `(x, y)` and passes exactly `E` to `setExpandedUrls`, so a
details view with expandable folders gets an expander for exactly `E` when `E` is
not empty. -/
theorem saveState_restoreState_roundtrip (v w : DolphinView) (view : QAbstractItemView)
    (model : QItemSelectionModel) (current : Option KFileItem) (L : KUrl) (x y : Int)
    (E : Finset KUrl)
    (hL : L = match current with
      | some item => item.url
      | none => KUrl.empty)
    (hview : v.m_viewAccessor.itemView = some view)
    (hmodel : v.selectionModels[view.selectionModel]? = some model)
    (hcur : v.m_viewAccessor.dirModel.itemForIndex
      (v.m_viewAccessor.proxyModel.mapToSource model.currentIndex) = current)
    (hx : view.contentsX = x) (hy : view.contentsY = y)
    (hE : ∀ details, v.m_viewAccessor.m_detailsView = some details → details.expandedUrls = E)
    (hE0 : v.m_viewAccessor.m_detailsView = none → E = ∅) :
    v.saveState [] = some [StreamItem.url L, StreamItem.point x y, StreamItem.urlSet E] ∧
      (w.restoreState [StreamItem.url L, StreamItem.point x y, StreamItem.urlSet E]).2 = [] ∧
      (w.restoreState [StreamItem.url L, StreamItem.point x y,
        StreamItem.urlSet E]).1.m_activeItemUrl = L ∧
      (w.restoreState [StreamItem.url L, StreamItem.point x y,
        StreamItem.urlSet E]).1.m_restoredContentsPosition = (x, y) ∧
      (w.restoreState [StreamItem.url L, StreamItem.point x y,
        StreamItem.urlSet E]).1.m_expanderActive = (w.m_viewAccessor.setExpandedUrls E).2 ∧
      (w.restoreState [StreamItem.url L, StreamItem.point x y,
        StreamItem.urlSet E]).1.m_viewAccessor.m_detailsViewExpander.map
          (fun e => e.urlsToExpand)
          = (w.m_viewAccessor.setExpandedUrls E).1.m_detailsViewExpander.map
            (fun e => e.urlsToExpand) ∧
      (∀ details, w.m_viewAccessor.m_detailsView = some details →
        details.itemsExpandable = true → E ≠ ∅ →
        (w.restoreState [StreamItem.url L, StreamItem.point x y,
          StreamItem.urlSet E]).1.m_expanderActive = true ∧
        (w.restoreState [StreamItem.url L, StreamItem.point x y,
          StreamItem.urlSet E]).1.m_viewAccessor.m_detailsViewExpander.map
            (fun e => e.urlsToExpand) = some E) := by
  refine ⟨?_, ?_, ?_, ?_, ?_, ?_, ?_⟩
  · have hexp : v.m_viewAccessor.expandedUrls = E := by
      unfold ViewAccessor.expandedUrls
      cases hd : v.m_viewAccessor.m_detailsView with
      | none => exact (hE0 hd).symm
      | some details => exact hE details hd
    unfold saveState contentsPosition DolphinView.viewSelectionModel
    simp only [hview, hmodel, hcur, hexp, hx, hy, List.nil_append, List.cons_append,
      List.singleton_append]
    rw [hL]
  · unfold restoreState
    simp only [QDataStream.readUrl, QDataStream.readPoint, QDataStream.readUrlSet]
    split_ifs <;> rfl
  · unfold restoreState
    simp only [QDataStream.readUrl, QDataStream.readPoint, QDataStream.readUrlSet]
    split_ifs <;> rfl
  · unfold restoreState
    simp only [QDataStream.readUrl, QDataStream.readPoint, QDataStream.readUrlSet]
    split_ifs <;> rfl
  · unfold restoreState
    simp only [QDataStream.readUrl, QDataStream.readPoint, QDataStream.readUrlSet]
    split_ifs with h
    · exact h.symm
    · simpa using h
  · unfold restoreState
    simp only [QDataStream.readUrl, QDataStream.readPoint, QDataStream.readUrlSet]
    split_ifs with h
    · cases (w.m_viewAccessor.setExpandedUrls E).1.m_detailsViewExpander <;> rfl
    · rfl
  · intro details hd he hne
    unfold restoreState
    simp only [QDataStream.readUrl, QDataStream.readPoint, QDataStream.readUrlSet]
    simp [ViewAccessor.setExpandedUrls, hd, he, hne]

/-- C4 at a concrete input: the details view with the file `a` current, scrolled to
(3, 40), with the folder `b` expanded, is saved; the stream is restored on a freshly
constructed details view, which gets the pending location of `a`, the pending
position (3, 40) and an expander for the folder `b`. -/
theorem saveState_restoreState_roundtrip_witness :
    Example.scrolled.saveState []
        = some [StreamItem.url Example.itemA.url, StreamItem.point 3 40,
            StreamItem.urlSet {Example.itemB.url}] ∧
      ((Example.scrolled.saveState []).map
          (fun stream => (Example.freshDetails.restoreState stream).1)).map
        (fun r => (r.m_activeItemUrl, r.m_restoredContentsPosition, r.m_expanderActive,
          r.m_viewAccessor.m_detailsViewExpander.map (fun e => e.urlsToExpand)))
        = some (Example.itemA.url, (3, 40), true, some {Example.itemB.url}) := by
  obtain ⟨h1, -, h3, h4, -, -, h7⟩ := saveState_restoreState_roundtrip Example.scrolled
    Example.freshDetails
    ⟨2, 0, [], 2, 3, 40, false⟩ ⟨{(1, 0)}, some (1, 0)⟩ (some Example.itemA)
    Example.itemA.url 3 40 {Example.itemB.url}
    rfl (by decide) (by decide) (by decide) rfl rfl (by decide) (by decide)
  obtain ⟨h8, h9⟩ := h7 ⟨⟨0, 0, [], 2, 0, 0, false⟩, true, ∅⟩ (by decide) rfl (by decide)
  refine ⟨h1, ?_⟩
  rw [h1]
  simp only [Option.map_some', h3, h4, h8, h9]

/-- C5: the constructor succeeds, and after every sequence of `setMode` calls on
the constructed view (so after each call of any sequence) the calls have
succeeded, exactly one of the three backend slots is occupied, and it is the slot
of the mode that `mode()` returns. -/
theorem setMode_sequence_one_backend (url : KUrl) (proxyModel : DolphinSortFilterProxyModel)
    (store : ViewPropertiesStore) (settings : Settings) (zoomLevel : Int) (expanderActive : Bool)
    (modes : List Mode) :
    ∃ v0 v, ctor url proxyModel store settings zoomLevel expanderActive = some v0 ∧
      v0.setModes modes = some v ∧
      v.m_viewAccessor.occupiedSlots = 1 ∧
      v.m_viewAccessor.onlySlot v.mode = true := by
  obtain ⟨v0, h0, hr0⟩ := ctor_ready url proxyModel store settings zoomLevel expanderActive
  obtain ⟨v, h, hr⟩ := setModes_ready modes v0 hr0
  obtain ⟨hs, -⟩ := (ready_iff v).mp hr
  exact ⟨v0, v, h0, h, ViewAccessor.occupied_of_onlySlot hs, hs⟩

/-- C6 (the code at the failing input): in the icons view of `/home` the file `a` is
selected and current.  After `setMode(ColumnView)` no item is selected and there is
no current item: the items are read through the proxy model of the active column,
not through the model the shared selection model belongs to.  After
`setMode(DetailsView)` on the same view the file `a` is still selected and current. -/
theorem setMode_columns_selectedItems_example :
    Example.selected.mode = Mode.IconsView ∧
      Example.selected.selectedItems = some [Example.itemA] ∧
      Example.selected.currentItemUrl = Example.itemA.url ∧
      (Example.selected.setMode Mode.ColumnView).bind selectedItems = some [] ∧
      (Example.selected.setMode Mode.ColumnView).map currentItemUrl = some KUrl.empty ∧
      (Example.selected.setMode Mode.DetailsView).bind selectedItems
        = some [Example.itemA] ∧
      (Example.selected.setMode Mode.DetailsView).map currentItemUrl
        = some Example.itemA.url := by
  refine ⟨by decide, by decide, by decide, by decide, by decide, by decide, by decide⟩

/-- C7: in the icons view with the persisted categorized-sorting preference of the
root location true, `setMode(DetailsView)` or `setMode(ColumnView)` leaves the
persisted preference and `categorizedSorting()` true and the categorized flag of
the proxy model false; a following `setMode(IconsView)` leaves the proxy's flag
true again, the preference and `categorizedSorting()` still true. -/
theorem setMode_categorized_sorting (m : Mode) (v : DolphinView) (hr : v.ready = true)
    (hicons : v.m_mode = Mode.IconsView)
    (hpref : (v.store.load v.rootUrl).categorizedSorting = true)
    (hm : m = Mode.DetailsView ∨ m = Mode.ColumnView) :
    ∃ v1 v2, v.setMode m = some v1 ∧
      (v1.store.load v.rootUrl).categorizedSorting = true ∧
      v1.categorizedSorting = true ∧
      v1.m_viewAccessor.proxyModel.isCategorizedModel = false ∧
      v1.setMode Mode.IconsView = some v2 ∧
      v2.m_viewAccessor.proxyModel.isCategorizedModel = true ∧
      v2.categorizedSorting = true ∧
      (v2.store.load v.rootUrl).categorizedSorting = true := by
  obtain ⟨hs, -⟩ := (ready_iff v).mp hr
  have hroot : v.rootUrl = v.url := by
    have e := (ViewAccessor.rootUrl_of_onlySlot hs (by rw [hicons]; decide)).1
    simp [rootUrl, e, KUrl.isEmpty]
  rw [hroot] at hpref ⊢
  have hne : m ≠ v.m_mode := by
    rw [hicons]
    rcases hm with h | h <;> (rw [h]; decide)
  have hmi : m ≠ Mode.IconsView := by rw [← hicons]; exact hne
  obtain ⟨v1, h1, hr1, hm1, -, hu1, hst1, hcs1, hcat1, -, -⟩ := setMode_spec m v hr hne
  have hurl1 : v1.url = v.url := hu1
  have hload1 : (v1.store.load v.url).categorizedSorting = true := by
    rw [hst1, ViewPropertiesStore.load_save]
    exact hpref
  obtain ⟨v2, h2, hr2, hm2, -, hu2, hst2, hcs2, hcat2, -, -⟩ :=
    setMode_spec Mode.IconsView v1 hr1 (by rw [hm1]; exact fun h => hmi h.symm)
  rw [hurl1] at hst2 hcs2 hcat2
  refine ⟨v1, v2, h1, hload1, ?_, ?_, h2, ?_, ?_, ?_⟩
  · show v1.m_storedCategorizedSorting = true
    rw [hcs1, hpref]
  · rw [hcat1, hpref]
    simp [hmi]
  · rw [hcat2, hload1]
    simp
  · show v2.m_storedCategorizedSorting = true
    rw [hcs2, hload1]
  · rw [hst2, ViewPropertiesStore.load_save]
    exact hload1

/-- Witness of `setMode_categorized_sorting`: the view constructed on `/home` with
categorized sorting persisted, switched to the details view. -/
theorem setMode_categorized_sorting_witness :
    Example.categorized.ready = true ∧ Example.categorized.m_mode = Mode.IconsView ∧
      (Example.categorized.store.load Example.categorized.rootUrl).categorizedSorting = true ∧
      ∃ v1 v2, Example.categorized.setMode Mode.DetailsView = some v1 ∧
        v1.m_viewAccessor.proxyModel.isCategorizedModel = false ∧
        v1.setMode Mode.IconsView = some v2 ∧
        v2.m_viewAccessor.proxyModel.isCategorizedModel = true :=
  ⟨by decide, by decide, by decide,
    let ⟨v1, v2, h1, _, _, h2, h3, h4, _⟩ :=
      setMode_categorized_sorting Mode.DetailsView Example.categorized (by decide) (by decide)
        (by decide) (Or.inl rfl)
    ⟨v1, v2, h1, h2, h3, h4⟩⟩

/-- C8: for every listing and every selection, `invertSelection()` succeeds on a
view with a backend and toggles exactly the cells of the full extent of the proxy
model (row 0, column 0 to the last row and column): a cell of the extent is
selected afterwards iff it was not before, a cell outside keeps its state.  Two
calls in succession give back the original selection and current index; one call
turns the empty selection into the full extent and the full extent into the empty
selection. -/
theorem invertSelection_toggles_extent (v : DolphinView) (hview : v.viewSelectionModel.isSome) :
    ∃ v1 v2, v.invertSelection = some v1 ∧ v1.invertSelection = some v2 ∧
      (∀ cell, cell ∈ v.m_viewAccessor.proxyModel.extent →
        (cell ∈ v1.selection ↔ cell ∉ v.selection)) ∧
      (∀ cell, cell ∉ v.m_viewAccessor.proxyModel.extent →
        (cell ∈ v1.selection ↔ cell ∈ v.selection)) ∧
      v2.selection = v.selection ∧ v2.currentIndex = v.currentIndex ∧
      (v.selection = ∅ → v1.selection = v.m_viewAccessor.proxyModel.extent) ∧
      (v.selection = v.m_viewAccessor.proxyModel.extent → v1.selection = ∅) := by
  obtain ⟨⟨k, model⟩, hm⟩ := Option.isSome_iff_exists.mp hview
  have hsel : v.selection = model.selection := by simp [selection, hm]
  have hcur : v.currentIndex = model.currentIndex := by simp [currentIndex, hm]
  have h1 : v.invertSelection = some (v.setSelectionModelState k
      (model.select v.m_viewAccessor.proxyModel.extent SelectionFlags.Toggle)) := by
    simp [invertSelection, hm, extent_eq_range]
  have hm1 := viewSelectionModel_setSelectionModelState
    (model.select v.m_viewAccessor.proxyModel.extent SelectionFlags.Toggle) hm
  have hva1 : (v.setSelectionModelState k
      (model.select v.m_viewAccessor.proxyModel.extent SelectionFlags.Toggle)).m_viewAccessor
        = v.m_viewAccessor := rfl
  have h2 : (v.setSelectionModelState k
      (model.select v.m_viewAccessor.proxyModel.extent SelectionFlags.Toggle)).invertSelection
      = some ((v.setSelectionModelState k
          (model.select v.m_viewAccessor.proxyModel.extent SelectionFlags.Toggle)).setSelectionModelState k
        ((model.select v.m_viewAccessor.proxyModel.extent SelectionFlags.Toggle).select
          v.m_viewAccessor.proxyModel.extent SelectionFlags.Toggle)) := by
    simp [invertSelection, hm1, hva1, extent_eq_range]
  have hm2 := viewSelectionModel_setSelectionModelState
    ((model.select v.m_viewAccessor.proxyModel.extent SelectionFlags.Toggle).select
      v.m_viewAccessor.proxyModel.extent SelectionFlags.Toggle) hm1
  have s1 : (v.setSelectionModelState k
      (model.select v.m_viewAccessor.proxyModel.extent SelectionFlags.Toggle)).selection
      = (model.selection \ v.m_viewAccessor.proxyModel.extent) ∪
        (v.m_viewAccessor.proxyModel.extent \ model.selection) := by
    simp only [selection, hm1]
    rfl
  have s2 : ((v.setSelectionModelState k
      (model.select v.m_viewAccessor.proxyModel.extent SelectionFlags.Toggle)).setSelectionModelState k
        ((model.select v.m_viewAccessor.proxyModel.extent SelectionFlags.Toggle).select
          v.m_viewAccessor.proxyModel.extent SelectionFlags.Toggle)).selection
      = model.selection := by
    simp only [selection, hm2]
    show ((model.selection \ v.m_viewAccessor.proxyModel.extent) ∪
        (v.m_viewAccessor.proxyModel.extent \ model.selection)) \
          v.m_viewAccessor.proxyModel.extent ∪
        v.m_viewAccessor.proxyModel.extent \
          ((model.selection \ v.m_viewAccessor.proxyModel.extent) ∪
            (v.m_viewAccessor.proxyModel.extent \ model.selection)) = model.selection
    ext cell
    simp only [Finset.mem_union, Finset.mem_sdiff]
    tauto
  have c2 : ((v.setSelectionModelState k
      (model.select v.m_viewAccessor.proxyModel.extent SelectionFlags.Toggle)).setSelectionModelState k
        ((model.select v.m_viewAccessor.proxyModel.extent SelectionFlags.Toggle).select
          v.m_viewAccessor.proxyModel.extent SelectionFlags.Toggle)).currentIndex
      = model.currentIndex := by
    simp only [currentIndex, hm2]
    rfl
  refine ⟨_, _, h1, h2, ?_, ?_, ?_, ?_, ?_, ?_⟩
  · intro cell hc
    rw [s1, hsel]
    simp only [Finset.mem_union, Finset.mem_sdiff]
    tauto
  · intro cell hc
    rw [s1, hsel]
    simp only [Finset.mem_union, Finset.mem_sdiff]
    tauto
  · rw [s2, hsel]
  · rw [c2, hcur]
  · intro he
    rw [hsel] at he
    rw [s1, he]
    simp
  · intro he
    rw [hsel] at he
    rw [s1, he]
    simp

/-- Witness of `invertSelection_toggles_extent`: the view in which the file `a` is
selected has a backend. -/
theorem invertSelection_toggles_extent_witness :
    Example.selected.viewSelectionModel.isSome ∧
      ∃ v1 v2, Example.selected.invertSelection = some v1 ∧ v1.invertSelection = some v2 ∧
        v2.selection = Example.selected.selection :=
  ⟨by decide,
    let ⟨v1, v2, h1, h2, _, _, h3, _⟩ :=
      invertSelection_toggles_extent Example.selected (by decide)
    ⟨v1, v2, h1, h2, h3⟩⟩

/-- C9: for every level, `setZoomLevel(level)` leaves the controller with the level
clamped into the zoom range; when the clamped value differs from the current zoom
level the controller is set and `zoomLevelChanged(clamped)` is emitted, and
nothing else changes; otherwise the view is unchanged and nothing is emitted. -/
theorem setZoomLevel_clamps (v : DolphinView) (level : Int)
    (hrange : v.settings.minimumLevel ≤ v.settings.maximumLevel) :
    (v.setZoomLevel level).zoomLevel
        = max v.settings.minimumLevel (min level v.settings.maximumLevel) ∧
      (max v.settings.minimumLevel (min level v.settings.maximumLevel) ≠ v.zoomLevel →
        v.setZoomLevel level =
          { v with
            m_controller :=
              { v.m_controller with
                zoomLevel := max v.settings.minimumLevel (min level v.settings.maximumLevel) },
            emitted := v.emitted ++
              [Signal.zoomLevelChanged
                (max v.settings.minimumLevel (min level v.settings.maximumLevel))] }) ∧
      (max v.settings.minimumLevel (min level v.settings.maximumLevel) = v.zoomLevel →
        v.setZoomLevel level = v) := by
  have hclamp :
      (if level < v.settings.minimumLevel then v.settings.minimumLevel
        else if level > v.settings.maximumLevel then v.settings.maximumLevel else level)
        = max v.settings.minimumLevel (min level v.settings.maximumLevel) := by
    split_ifs with h1 h2
    · rw [max_eq_left]; exact le_trans (min_le_left _ _) (le_of_lt h1)
    · rw [min_eq_right (le_of_lt h2), max_eq_right hrange]
    · rw [min_eq_left (not_lt.mp h2), max_eq_right (not_lt.mp h1)]
  unfold setZoomLevel
  simp only [hclamp]
  refine ⟨?_, ?_, ?_⟩
  · split_ifs with h
    · simp [zoomLevel, emit, controllerSetZoomLevel]
    · exact (not_not.mp h).symm
  · intro h
    rw [if_pos h]
    rfl
  · intro h
    rw [if_neg (not_not.mpr h)]

/-- Witness of `setZoomLevel_clamps`: level 99 on the constructed view (range 0 to
16, current level 4) ends at level 16. -/
theorem setZoomLevel_clamps_witness :
    Example.constructed.settings.minimumLevel ≤ Example.constructed.settings.maximumLevel ∧
      (Example.constructed.setZoomLevel 99).zoomLevel = 16 :=
  ⟨by decide, (setZoomLevel_clamps Example.constructed 99 (by decide)).1.trans (by decide)⟩

/-- C10 (as stated, refuted): while the names of pasted files are watched, `setUrl`
with the current location empties the set of watched names. -/
theorem same_location_clears_watch_example :
    Example.pasting.url = Example.home ∧
      Example.pasting.m_newFileNames = {"c"} ∧
      (Example.pasting.setUrl Example.home).map (fun v => v.m_newFileNames) = some ∅ := by
  decide

/-- C10 (amended): `setUrl(L)` with `L` equal to the current location empties the
set of watched new file names and does nothing else: location, loading flag,
selection and pending-creation marker stay, no directory load is requested and no
signal is emitted. -/
theorem setUrl_current_url (v : DolphinView) :
    v.setUrl v.url = some { v with m_newFileNames := ∅ } := by
  simp [setUrl, updateView, url]

/-- C11 (as stated, refuted): after the creation of `/home/new` was announced,
`setUrl(/tmp)`, a valid location that differs from the current one, leaves
`m_createdItemUrl` set to `/home/new`; the set of watched names is emptied. -/
theorem setUrl_keeps_created_marker_example :
    Example.tmp.isValid = true ∧ Example.tmp ≠ Example.creating.url ∧
      Example.creating.m_createdItemUrl = Example.itemNew.url ∧
      Example.creating.m_newFileNames = {"c"} ∧
      (Example.creating.setUrl Example.tmp).map (fun v => v.m_createdItemUrl)
        = some Example.itemNew.url ∧
      (Example.creating.setUrl Example.tmp).map (fun v => v.m_newFileNames) = some ∅ := by
  decide

/-- C11 (amended): on a ready view, `setUrl(L)` with an `L` (valid or not) that differs
from the current location succeeds, makes `L` the current location and empties the
set of watched new file names; the pending-creation marker `m_createdItemUrl` keeps
the value it had before the call. -/
theorem setUrl_clears_new_file_names (L : KUrl) (v : DolphinView) (hr : v.ready = true)
    (hne : L ≠ v.url) :
    ∃ v', v.setUrl L = some v' ∧ v'.url = L ∧ v'.m_newFileNames = ∅ ∧
      v'.m_createdItemUrl = v.m_createdItemUrl := by
  obtain ⟨v', h, -, hurl, -, -, hnew, -⟩ :=
    updateView_spec L ({ v with m_newFileNames := ∅ } : DolphinView) hr (fun h => hne h.symm)
  exact ⟨v', h, hurl, hnew,
    updateView_createdItemUrl L ({ v with m_newFileNames := ∅ } : DolphinView) hr
      (fun h => hne h.symm) v' h⟩

/-- C11 (amended) at a concrete input: the view that watches `/home/new`, sent to `/tmp`. -/
theorem setUrl_clears_new_file_names_witness :
    Example.creating.ready = true ∧ Example.tmp.isValid = true ∧
      Example.tmp ≠ Example.creating.url ∧
      ∃ v', Example.creating.setUrl Example.tmp = some v' ∧ v'.url = Example.tmp ∧
        v'.m_newFileNames = ∅ ∧ v'.m_createdItemUrl = Example.creating.m_createdItemUrl :=
  ⟨by decide, by decide, by decide,
    setUrl_clears_new_file_names Example.tmp Example.creating (by decide) (by decide)⟩

/-- C12: after `ViewAccessor::deleteView()`, whatever the accessor held and whichever
widget is the source of a drag, the three backend slots are null, `itemView()` is
null, `supportsCategorizedSorting()`, `itemsExpandable()` and
`reloadOnAdditionalInfoChange()` are false and `rootUrl()` is the empty location. -/
theorem deleteView_clears_backend (dragSource : Option Nat) (va : ViewAccessor) :
    (va.deleteView dragSource).1.m_iconsView = none ∧
      (va.deleteView dragSource).1.m_detailsView = none ∧
      (va.deleteView dragSource).1.m_columnsContainer = none ∧
      (va.deleteView dragSource).1.itemView = none ∧
      (va.deleteView dragSource).1.supportsCategorizedSorting = false ∧
      (va.deleteView dragSource).1.itemsExpandable = false ∧
      (va.deleteView dragSource).1.reloadOnAdditionalInfoChange = false ∧
      (va.deleteView dragSource).1.rootUrl = KUrl.empty :=
  ⟨rfl, rfl, rfl, rfl, rfl, rfl, rfl, rfl⟩

/-- C13 (the code at the failing input): in the column view whose active column
(object 2, owned by the container, object 3) is the source of a drag,
`ViewAccessor::deleteView()` hides the column and keeps it in `m_dragSource`, and
schedules the container for destruction in the same call.  In the icons view that
is the source of a drag nothing is scheduled. -/
theorem deleteView_column_drag_example :
    Example.draggingColumn.m_viewAccessor.m_columnsContainer.map
        (fun c => (c.objectId, c.activeColumn.objectId)) = some (3, 2) ∧
      Example.draggingColumn.dragSource = some 2 ∧
      (Example.draggingColumn.m_viewAccessor.deleteView Example.draggingColumn.dragSource).2
        = [QtCall.hide 2, QtCall.deleteLater 3] ∧
      (Example.draggingColumn.m_viewAccessor.deleteView
          Example.draggingColumn.dragSource).1.m_dragSource.map
        (fun view => (view.objectId, view.hidden)) = some (2, true) ∧
      Example.draggingIcons.dragSource = some 0 ∧
      (Example.draggingIcons.m_viewAccessor.deleteView Example.draggingIcons.dragSource).2
        = [QtCall.hide 0] ∧
      (Example.draggingIcons.m_viewAccessor.deleteView
          Example.draggingIcons.dragSource).1.m_dragSource.map
        (fun view => (view.objectId, view.hidden)) = some (0, true) := by
  decide

/-- C14: `ViewAccessor::createView(mode)` fails its assertion exactly when `itemView()` is
not null; called without an active backend it succeeds for each of the three
modes, the slot of the mode is then the only occupied one, and the proxy model,
the deferred drag source and the expander are untouched. -/
theorem createView_asserts_no_backend (fresh : NewBackend) (mode : Mode) (va : ViewAccessor) :
    (va.createView fresh mode = none ↔ va.itemView.isSome = true) ∧
      (va.itemView = none →
        ∃ created, va.createView fresh mode = some created ∧
          created.onlySlot mode = true ∧ created.occupiedSlots = 1 ∧
          created.itemView = some fresh.view ∧
          created.m_proxyModel = va.m_proxyModel ∧ created.m_dragSource = va.m_dragSource ∧
          created.m_detailsViewExpander = va.m_detailsViewExpander) := by
  constructor
  · unfold ViewAccessor.createView
    cases h : va.itemView.isSome <;> cases mode <;> simp
  · intro hnone
    obtain ⟨h1, h2, h3⟩ := (ViewAccessor.itemView_eq_none_iff va).mp hnone
    obtain ⟨i, d, c, p, g, e⟩ := va
    simp only at h1 h2 h3
    subst h1 h2 h3
    cases mode <;>
      simp [ViewAccessor.createView, ViewAccessor.itemView, ViewAccessor.onlySlot,
        ViewAccessor.occupiedSlots]

/-- C14 at a concrete input: a new accessor has no backend, and `createView(DetailsView)`
fills the details slot only. -/
theorem createView_asserts_no_backend_witness :
    (ViewAccessor.ctor Example.proxy).itemView = none ∧
      ∃ created, (ViewAccessor.ctor Example.proxy).createView
          Example.constructed.newBackend Mode.DetailsView = some created ∧
        created.onlySlot Mode.DetailsView = true ∧ created.occupiedSlots = 1 ∧
        created.itemView = some Example.constructed.newBackend.view ∧
        created.m_proxyModel = (ViewAccessor.ctor Example.proxy).m_proxyModel ∧
        created.m_dragSource = (ViewAccessor.ctor Example.proxy).m_dragSource ∧
        created.m_detailsViewExpander = (ViewAccessor.ctor Example.proxy).m_detailsViewExpander :=
  ⟨rfl, (createView_asserts_no_backend Example.constructed.newBackend Mode.DetailsView
    (ViewAccessor.ctor Example.proxy)).2 rfl⟩

/-- C15: the capability queries of the accessor follow the occupied slot:
`supportsCategorizedSorting()` holds exactly when the icons slot is occupied,
`reloadOnAdditionalInfoChange()` exactly when the details slot is occupied,
`itemsExpandable()` is false when the details slot is empty and `rootUrl()` is the
empty location when the columns slot is empty; with exactly the backend of
`mode` active this reads: categorized sorting exactly for the icons mode, reload
exactly for the details mode, nothing expandable outside the details mode, no
root location outside the column mode. -/
theorem capability_queries_follow_backend (va : ViewAccessor) (mode : Mode) :
    (va.supportsCategorizedSorting = true ↔ va.m_iconsView.isSome = true) ∧
      (va.reloadOnAdditionalInfoChange = true ↔ va.m_detailsView.isSome = true) ∧
      (va.m_detailsView = none → va.itemsExpandable = false) ∧
      (va.m_columnsContainer = none → va.rootUrl = KUrl.empty) ∧
      (va.onlySlot mode = true →
        (va.supportsCategorizedSorting = true ↔ mode = Mode.IconsView) ∧
        (va.reloadOnAdditionalInfoChange = true ↔ mode = Mode.DetailsView) ∧
        (mode ≠ Mode.DetailsView → va.itemsExpandable = false) ∧
        (mode ≠ Mode.ColumnView → va.rootUrl = KUrl.empty)) := by
  obtain ⟨i, d, c, p, g, e⟩ := va
  refine ⟨Iff.rfl, Iff.rfl, ?_, ?_, ?_⟩
  · intro h
    simp only at h
    subst h
    rfl
  · intro h
    simp only at h
    subst h
    rfl
  · intro h
    cases mode <;> cases i <;> cases d <;> cases c <;>
      simp [ViewAccessor.onlySlot, ViewAccessor.supportsCategorizedSorting,
        ViewAccessor.reloadOnAdditionalInfoChange, ViewAccessor.itemsExpandable,
        ViewAccessor.rootUrl] at h ⊢

/-- C15 at a concrete input: the constructed view has the icons backend only. -/
theorem capability_queries_follow_backend_witness :
    Example.constructed.m_viewAccessor.onlySlot Mode.IconsView = true ∧
      Example.constructed.m_viewAccessor.supportsCategorizedSorting = true ∧
      Example.constructed.m_viewAccessor.reloadOnAdditionalInfoChange = false ∧
      Example.constructed.m_viewAccessor.itemsExpandable = false ∧
      Example.constructed.m_viewAccessor.rootUrl = KUrl.empty := by
  have h := (capability_queries_follow_backend Example.constructed.m_viewAccessor
    Mode.IconsView).2.2.2.2 (by decide)
  exact ⟨by decide, h.1.mpr rfl, by decide, h.2.2.1 (by decide), h.2.2.2 (by decide)⟩

/-- C16: `loadDirectory(u, reload)` with an invalid `u`, for either value of `reload`,
only emits one `errorMessage`: the text for an empty location when `pathOrUrl()` is
empty, the text that quotes the location otherwise.  Nothing else of the state
changes: no `openUrl` request, the loading flag, `m_selectedItems` and the slots
connected to `completed()` are as before. -/
theorem loadDirectory_invalid (u : KUrl) (reload : Bool) (v : DolphinView)
    (hu : u.isValid = false) :
    ∃ text, v.loadDirectory u reload = some (v.emit (Signal.errorMessage text)) ∧
      text = (if u.pathOrUrl.isEmpty then "The location is empty."
        else "The location " ++ String.singleton (Char.ofNat 39) ++ u.pathOrUrl
          ++ String.singleton (Char.ofNat 39) ++ " is invalid.") ∧
      (v.emit (Signal.errorMessage text)).emitted = v.emitted ++ [Signal.errorMessage text] ∧
      (v.emit (Signal.errorMessage text)).openUrlCalls = v.openUrlCalls ∧
      (v.emit (Signal.errorMessage text)).m_loadingDirectory = v.m_loadingDirectory ∧
      (v.emit (Signal.errorMessage text)).m_selectedItems = v.m_selectedItems ∧
      (v.emit (Signal.errorMessage text)).m_viewAccessor = v.m_viewAccessor := by
  unfold loadDirectory
  simp only [hu, Bool.not_false, if_true]
  by_cases he : u.pathOrUrl.isEmpty = true
  · exact ⟨"The location is empty.", by simp [he], by simp [he], rfl, rfl, rfl, rfl, rfl⟩
  · exact ⟨"The location " ++ String.singleton (Char.ofNat 39) ++ u.pathOrUrl
      ++ String.singleton (Char.ofNat 39) ++ " is invalid.", by simp [he], by simp [he],
      rfl, rfl, rfl, rfl, rfl⟩

/-- C16 at a concrete input: reloading the empty location in the view that has the
file `a` selected. -/
theorem loadDirectory_invalid_witness :
    KUrl.empty.isValid = false ∧
      Example.selected.loadDirectory KUrl.empty true
        = some (Example.selected.emit (Signal.errorMessage "The location is empty.")) := by
  obtain ⟨text, h1, h2, -⟩ := loadDirectory_invalid KUrl.empty true Example.selected rfl
  refine ⟨rfl, ?_⟩
  rw [h1, h2]
  rfl

/-- C17: `slotDeleteFileFinished(job)` emits `operationCompletedMessage` and nothing else
when the error code is 0, nothing when the code is `ERR_USER_CANCELED`, and
`errorMessage` with the error string of the job and nothing else for every other
code. -/
theorem slotDeleteFileFinished_notifies (job : KJob) (v : DolphinView) :
    (job.error = 0 →
      v.slotDeleteFileFinished job
        = v.emit (Signal.operationCompletedMessage "Delete operation completed.")) ∧
      (job.error = ERR_USER_CANCELED → v.slotDeleteFileFinished job = v) ∧
      (job.error ≠ 0 → job.error ≠ ERR_USER_CANCELED →
        v.slotDeleteFileFinished job = v.emit (Signal.errorMessage job.errorString)) ∧
      ((v.slotDeleteFileFinished job).emitted = v.emitted ∨
        ∃ s, (v.slotDeleteFileFinished job).emitted = v.emitted ++ [s]) := by
  unfold slotDeleteFileFinished
  refine ⟨fun h => by simp [h], fun h => by simp [h, ERR_USER_CANCELED], fun h1 h2 => by
    simp [h1, h2], ?_⟩
  split_ifs
  · exact Or.inr ⟨_, rfl⟩
  · exact Or.inr ⟨_, rfl⟩
  · exact Or.inl rfl

/-- C17 at concrete inputs: a job without error, a cancelled job and a failed job. -/
theorem slotDeleteFileFinished_notifies_witness :
    (Example.constructed.slotDeleteFileFinished ⟨0, ""⟩).emitted
        = Example.constructed.emitted
          ++ [Signal.operationCompletedMessage "Delete operation completed."] ∧
      Example.constructed.slotDeleteFileFinished ⟨ERR_USER_CANCELED, "cancelled"⟩
        = Example.constructed ∧
      (Example.constructed.slotDeleteFileFinished ⟨115, "Access denied"⟩).emitted
        = Example.constructed.emitted ++ [Signal.errorMessage "Access denied"] := by
  refine ⟨?_, ?_, ?_⟩
  · rw [(slotDeleteFileFinished_notifies ⟨0, ""⟩ Example.constructed).1 rfl]
    rfl
  · exact (slotDeleteFileFinished_notifies ⟨ERR_USER_CANCELED, "cancelled"⟩
      Example.constructed).2.1 rfl
  · rw [(slotDeleteFileFinished_notifies ⟨115, "Access denied"⟩ Example.constructed).2.2.1
      (by decide) (by decide)]
    rfl

/-- C19: on a view with an item view, `k ≥ 1` calls of
`emitDelayedSelectionChangedSignal()` without an expiry of the timer in between leave
the single-shot timer running once; the expiry that follows stops it and emits
`selectionChanged` exactly once, and a further expiry emits nothing.  The same
holds for `k ≥ 1` emissions of the controller signal `selectionChanged()` when that
signal is connected to the slot any number of times (at least once). -/
theorem delayed_selectionChanged_once (v : DolphinView) (k : Nat) (hk : 1 ≤ k)
    (hview : v.viewSelectionModel.isSome = true) :
    ∃ items, v.selectedItems = some items ∧
      (Nat.iterate emitDelayedSelectionChangedSignal k v).selectionChangedTimerTimeout
        = some (({ v with m_selectionChangedTimerActive := false } : DolphinView).emit
            (Signal.selectionChanged items)) ∧
      (1 ≤ v.m_controller.selectionChangedConnections →
        (Nat.iterate controllerSelectionChanged k v).selectionChangedTimerTimeout
          = some (({ v with m_selectionChangedTimerActive := false } : DolphinView).emit
              (Signal.selectionChanged items))) ∧
      ((({ v with m_selectionChangedTimerActive := false } : DolphinView).emit
          (Signal.selectionChanged items)).emitted.filter Signal.isSelectionChanged).length
        = (v.emitted.filter Signal.isSelectionChanged).length + 1 ∧
      (({ v with m_selectionChangedTimerActive := false } : DolphinView).emit
          (Signal.selectionChanged items)).selectionChangedTimerTimeout
        = some (({ v with m_selectionChangedTimerActive := false } : DolphinView).emit
            (Signal.selectionChanged items)) := by
  obtain ⟨⟨n, model⟩, hm⟩ := Option.isSome_iff_exists.mp hview
  have hitems : ∃ items, v.selectedItems = some items := by
    unfold selectedItems
    rw [hm]
    exact ⟨_, rfl⟩
  obtain ⟨items, hitems⟩ := hitems
  have hexp : DolphinView.selectionChangedTimerTimeout
      ({ v with m_selectionChangedTimerActive := true } : DolphinView)
      = some (({ v with m_selectionChangedTimerActive := false } : DolphinView).emit
          (Signal.selectionChanged items)) := by
    have h1 : DolphinView.selectedItems
        ({ v with m_selectionChangedTimerActive := false } : DolphinView) = some items := hitems
    simp only [selectionChangedTimerTimeout, if_true, emitSelectionChangedSignal, h1]
  refine ⟨items, hitems, ?_, ?_, ?_, ?_⟩
  · rw [iterate_emitDelayed k hk, hexp]
  · intro hc
    have hone : ∀ w : DolphinView, 1 ≤ w.m_controller.selectionChangedConnections →
        w.controllerSelectionChanged = { w with m_selectionChangedTimerActive := true } :=
      fun w hw => iterate_emitDelayed _ hw w
    have hall : ∀ j : Nat, 1 ≤ j → Nat.iterate controllerSelectionChanged j v
        = { v with m_selectionChangedTimerActive := true } := by
      intro j
      induction j with
      | zero => intro h0; omega
      | succ n ih =>
        intro _
        rw [Function.iterate_succ_apply']
        by_cases hn : 1 ≤ n
        · rw [ih hn]
          exact hone ({ v with m_selectionChangedTimerActive := true } : DolphinView) hc
        · have h0 : n = 0 := by omega
          subst h0
          exact hone v hc
    rw [hall k hk, hexp]
  · simp [emit, List.filter_append, Signal.isSelectionChanged]
  · simp [selectionChangedTimerTimeout, emit]

/-- C19 at a concrete input: the column view, built by the second `createView()`, whose
controller signal is connected twice; three emissions of the signal and one expiry
of the timer. -/
theorem delayed_selectionChanged_once_witness :
    Example.columns.m_controller.selectionChangedConnections = 2 ∧
      (Nat.iterate controllerSelectionChanged 3 Example.columns).selectionChangedTimerTimeout
        = some (({ Example.columns with m_selectionChangedTimerActive := false } :
            DolphinView).emit (Signal.selectionChanged [])) := by
  obtain ⟨items, h1, -, h3, -⟩ :=
    delayed_selectionChanged_once Example.columns 3 (by decide) (by decide)
  have h : items = [] := by
    have h2 : Example.columns.selectedItems = some [] := by decide
    rw [h2] at h1
    exact (Option.some.inj h1).symm
  subst h
  exact ⟨by decide, h3 (by decide)⟩

/-- C20: with global view properties on, the constructor, which runs the first
`applyViewProperties()`, leaves a view that shows the stored properties and has
`m_ignoreViewProperties` set.  In general an `applyViewProperties()` that finds the
flag unset makes the view show the stored properties (mode, sorting, sort order,
folders first, categorized sorting, additional information, hidden files, preview)
and sets the flag, so that the next call returns the state unchanged.  On any
ready view `u` with the flag set, `applyViewProperties()` returns
`u` itself (nothing changed, nothing emitted); `setUrl` to another location leaves
the properties shown and the flag as they are and emits only `urlChanged`, at most
an error message and `startedPathLoading`; `refresh()` resets the flag, so that the
properties stored for the location are shown again, and the flag is set anew. -/
theorem applyViewProperties_global_once (v u : DolphinView) (hp : v.prepared = true)
    (hv : v.m_viewAccessor.itemView.isSome = true → v.ready = true)
    (hg : v.settings.globalViewProps = true) (hi : v.m_ignoreViewProperties = false)
    (hru : u.ready = true) (hgu : u.settings.globalViewProps = true)
    (hiu : u.m_ignoreViewProperties = true) :
    (∀ (url : KUrl) (proxyModel : DolphinSortFilterProxyModel) (store : ViewPropertiesStore)
        (zoomLevel : Int) (expanderActive : Bool),
        ∃ c, ctor url proxyModel store v.settings zoomLevel expanderActive = some c ∧
          c.shown = some (store.load url) ∧ c.m_ignoreViewProperties = true) ∧
      (∃ v1, v.applyViewProperties = some v1 ∧ v1.shown = some (v.store.load v.rootUrl) ∧
        v1.m_ignoreViewProperties = true ∧ v1.applyViewProperties = some v1) ∧
      u.applyViewProperties = some u ∧
      (∀ L, L ≠ u.url →
        ∃ u2 msgs, u.setUrl L = some u2 ∧ u2.url = L ∧ u2.shown = u.shown ∧
          u2.m_ignoreViewProperties = true ∧
          u2.emitted
            = u.emitted ++ Signal.urlChanged L :: (msgs ++ [Signal.startedPathLoading L]) ∧
          ∀ s ∈ msgs, s.isErrorMessage = true) ∧
      ∃ w, u.refresh = some w ∧ w.shown = some (u.store.load u.url) ∧
        w.m_ignoreViewProperties = true := by
  obtain ⟨v1, h1, -, -, hshown1, hflag1⟩ := applyViewProperties_shows v hp hv hi
  obtain ⟨w, hw, -, hshownw, hflagw⟩ := refresh_shows u hru hgu
  refine ⟨fun url proxyModel store zoomLevel expanderActive => ?_, ?_⟩
  · obtain ⟨c, hc, hs, hf⟩ := ctor_shows url proxyModel store v.settings zoomLevel expanderActive
    exact ⟨c, hc, hs, hf hg⟩
  exact ⟨⟨v1, h1, hshown1, hflag1 hg, by simp [applyViewProperties, hflag1 hg]⟩,
    by simp [applyViewProperties, hiu], fun L hne => setUrl_ignoring L u hiu hne,
    ⟨w, hw, hshownw, hflagw⟩⟩

/-- C20 at a concrete input: under global view properties, a view on `/home` whose store
asks for the details view with previews.  Before the flag is set,
`applyViewProperties()` switches to the details view; with the flag set it changes
nothing, and `refresh()` brings the details view. -/
theorem applyViewProperties_global_once_witness :
    (Example.unapplied.applyViewProperties).map (fun v1 => (v1.m_mode, v1.m_ignoreViewProperties))
        = some (Mode.DetailsView, true) ∧
      Example.overridden.m_mode = Mode.IconsView ∧
      Example.overridden.applyViewProperties = some Example.overridden ∧
      ∃ w, Example.overridden.refresh = some w ∧
        w.shown = some { Example.props with viewMode := Mode.DetailsView, showPreview := true } ∧
        w.m_ignoreViewProperties = true := by
  have h := applyViewProperties_global_once Example.unapplied Example.overridden (by decide)
    (fun _ => by decide) (by decide) (by decide) (by decide) (by decide) (by decide)
  exact ⟨by decide, by decide, h.2.2.1, h.2.2.2.2⟩

/-- C23 (as stated, refuted): in the details view `restoreState` has started an expansion
restoration for the folder `b`, and its expander, neither stopped nor disconnected,
has not reported completion.  After `reload()` the `completed()` event of the lister
runs the finalization all the same: the loading flag is cleared and
`restoreContentsPosition()` is queued, while the expander is still waiting to
report completion. -/
theorem reload_finalizes_before_expander_example :
    Example.restoring.ready = true ∧
      Example.restoring.m_expanderActive = true ∧
      Example.restoring.queued = [] ∧
      Example.restoring.m_viewAccessor.m_detailsViewExpander
        = some ⟨{Example.itemB.url}, false, [Slot.slotLoadingCompleted]⟩ ∧
      (Example.restoring.reload.bind dirListerCompleted).map
          (fun v => (v.m_viewAccessor.m_detailsViewExpander, v.m_loadingDirectory, v.queued))
        = some (some ⟨{Example.itemB.url}, false, [Slot.slotLoadingCompleted]⟩, false,
            [Slot.restoreContentsPosition]) := by
  refine ⟨by decide, by decide, by decide, by decide, by decide⟩

/-- C23 (amended): `restoreState` sets `m_expanderActive` exactly when `setExpandedUrls`
returns an expander, which is then running with `slotLoadingCompleted()` as the only
slot connected to its `completed()` signal.  Take a ready view and the lister to
which `slotDirListerCompleted()` is connected (and, from earlier reloads,
`restoreSelection()` any number of times).  While the flag `m_expanderActive` is set,
the event `completed()` of that lister does not run the finalization: the flag, the
loading flag and the queue of deferred calls are as before.  When an expander with
the connection made by `restoreState` reports completion the finalization runs:
both flags become false and `restoreContentsPosition()` is queued.  When the flag is
clear, the event `completed()` of the lister runs the finalization at once, after
which `m_expanderActive` and `m_loadingDirectory` are false.  `loadDirectory` with a
valid location clears the flag and leaves the expander as it is, so the
completion of the lister that follows it runs the finalization, also while an
expander has not reported completion. -/
theorem loading_completion_deferred (stream : QDataStream) (L : KUrl) (reload : Bool)
    (k : Nat) (v w : DolphinView) (hw : w.ready = true) (hL : L.isValid = true)
    (hconn : w.m_viewAccessor.dirLister.completedSlots
      = Slot.slotDirListerCompleted :: List.replicate k Slot.restoreSelection) :
    (v.restoreState stream).1.m_expanderActive
        = (v.m_viewAccessor.setExpandedUrls stream.readUrl.2.readPoint.2.readUrlSet.1).2 ∧
      ((v.restoreState stream).1.m_expanderActive = true →
        (v.restoreState stream).1.m_viewAccessor.m_detailsViewExpander
          = some ⟨stream.readUrl.2.readPoint.2.readUrlSet.1, false,
              [Slot.slotLoadingCompleted]⟩) ∧
      (w.m_expanderActive = true →
        ∃ w', w.dirListerCompleted = some w' ∧ w'.m_expanderActive = true ∧
          w'.m_loadingDirectory = w.m_loadingDirectory ∧ w'.queued = w.queued) ∧
      (∀ e, w.m_viewAccessor.m_detailsViewExpander = some e →
        e.completedSlots = [Slot.slotLoadingCompleted] →
        ∃ w', w.expanderCompleted = some w' ∧ w'.m_expanderActive = false ∧
          w'.m_loadingDirectory = false ∧
          w'.queued = w.queued ++ [Slot.restoreContentsPosition]) ∧
      (w.m_expanderActive = false →
        ∃ w', w.dirListerCompleted = some w' ∧ w'.m_expanderActive = false ∧
          w'.m_loadingDirectory = false ∧
          w'.queued = w.queued ++ [Slot.restoreContentsPosition]) ∧
      (∃ w' w'', w.loadDirectory L reload = some w' ∧ w'.m_expanderActive = false ∧
        w'.m_loadingDirectory = true ∧
        w'.m_viewAccessor.m_detailsViewExpander = w.m_viewAccessor.m_detailsViewExpander ∧
        w'.dirListerCompleted = some w'' ∧ w''.m_expanderActive = false ∧
        w''.m_loadingDirectory = false ∧
        w''.queued = w.queued ++ [Slot.restoreContentsPosition]) := by
  refine ⟨?_, ?_, (dirListerCompleted_spec k w hw hconn).1, ?_,
    (dirListerCompleted_spec k w hw hconn).2, ?_⟩
  · unfold restoreState
    dsimp only
    split_ifs with h
    · exact h.symm
    · simpa using h
  · unfold restoreState
    dsimp only
    split_ifs with h
    · intro _
      revert h
      unfold ViewAccessor.setExpandedUrls
      cases v.m_viewAccessor.m_detailsView with
      | none => simp
      | some details =>
        dsimp only
        split_ifs <;> simp
    · intro h'
      simp at h'
  · intro e he hslots
    obtain ⟨w1, h1, -, e1, e2, e3, -, ha⟩ := slotLoadingCompleted_spec w hw
    refine ⟨w1, ?_, e1, e2, e3⟩
    unfold expanderCompleted
    simp only [he, hslots, activate, List.mem_singleton, if_true, runSlot, h1]
  · obtain ⟨w', h1, hr1, e1, e2, e3, e4, e5⟩ := loadDirectory_valid_spec L reload k w hw hL hconn
    obtain ⟨w'', h2, f1, f2, f3⟩ := (dirListerCompleted_spec _ w' hr1 e5).2 e1
    exact ⟨w', w'', h1, e1, e2, e4, h2, f1, f2, by rw [f3, e3]⟩

/-- C23 (amended) at a concrete input: the details view restoring the expansion of the
folder `b`, to whose lister only `slotDirListerCompleted()` is connected.  Its flag is
set, the completion of the lister is not finalized, the completion of the
expander is; after a reload the completion of the lister is finalized while the
expander is still waiting. -/
theorem loading_completion_deferred_witness :
    Example.restoring.ready = true ∧ Example.home.isValid = true ∧
      Example.restoring.m_viewAccessor.dirLister.completedSlots
        = [Slot.slotDirListerCompleted] ∧
      Example.restoring.m_expanderActive = true ∧
      (∃ w', Example.restoring.dirListerCompleted = some w' ∧ w'.m_expanderActive = true ∧
        w'.m_loadingDirectory = Example.restoring.m_loadingDirectory ∧
        w'.queued = Example.restoring.queued) ∧
      (∃ w', Example.restoring.expanderCompleted = some w' ∧ w'.m_expanderActive = false ∧
        w'.m_loadingDirectory = false ∧
        w'.queued = Example.restoring.queued ++ [Slot.restoreContentsPosition]) ∧
      (∃ w' w'', Example.restoring.loadDirectory Example.home true = some w' ∧
        w'.m_expanderActive = false ∧ w'.m_loadingDirectory = true ∧
        w'.m_viewAccessor.m_detailsViewExpander
          = Example.restoring.m_viewAccessor.m_detailsViewExpander ∧
        w'.dirListerCompleted = some w'' ∧ w''.m_expanderActive = false ∧
        w''.m_loadingDirectory = false ∧
        w''.queued = Example.restoring.queued ++ [Slot.restoreContentsPosition]) := by
  have h := loading_completion_deferred
    [StreamItem.url KUrl.empty, StreamItem.point 0 0, StreamItem.urlSet {Example.itemB.url}]
    Example.home true 0 Example.details Example.restoring (by decide) (by decide) (by decide)
  exact ⟨by decide, by decide, by decide, by decide, h.2.2.1 (by decide),
    h.2.2.2.1 ⟨{Example.itemB.url}, false, [Slot.slotLoadingCompleted]⟩ (by decide) rfl,
    h.2.2.2.2.2⟩

/-- C24 (the code at the failing input): in the details view of `/home`,
`setAdditionalInfo` with the size column requests the listing of `/home` again and
sets the loading flag, because `reloadOnAdditionalInfoChange()` is true exactly for
the details view; in the icons view and in the column view the same call requests
nothing. -/
theorem setAdditionalInfo_details_reloads_example :
    Example.details.m_viewAccessor.onlySlot Mode.DetailsView = true ∧
      Example.details.m_viewAccessor.reloadOnAdditionalInfoChange = true ∧
      Example.details.m_loadingDirectory = false ∧
      (Example.details.setAdditionalInfo [Information.Size]).map
          (fun w => (w.additionalInfo, w.openUrlCalls, w.m_loadingDirectory))
        = some (some [Information.Size],
            Example.details.openUrlCalls ++ [(Example.home, false)], true) ∧
      (Example.selected.setAdditionalInfo [Information.Size]).map
          (fun w => (w.additionalInfo, w.openUrlCalls, w.m_loadingDirectory))
        = some (some [Information.Size], Example.selected.openUrlCalls, false) ∧
      (Example.columns.setAdditionalInfo [Information.Size]).map
          (fun w => (w.additionalInfo, w.openUrlCalls, w.m_loadingDirectory))
        = some (some [Information.Size], Example.columns.openUrlCalls, false) := by
  refine ⟨by decide, by decide, by decide, ?_, ?_, ?_⟩ <;> decide

/-- C25: with at least two selected items and an accepted pattern that contains the
number sign, `renameSelectedItems()` succeeds; the requests it issues are those for
the selected items in the order `qSort` gives them by `lessThan` (a rearrangement
of the selection in which, for a comparison that is a strict weak order, no item
is less than an earlier one), the item number `i`, counted from 1, being renamed
to the pattern with every number sign replaced by the numeral of `i` and skipped
when that is its file name already; afterwards nothing is selected and no signal
has been emitted. -/
theorem renameSelectedItems_numbers (naturalCompare : String → String → Int)
    (P errorString : String) (items : KFileItemList) (v : DolphinView)
    (hitems : v.selectedItems = some items) (hn : 2 ≤ items.length)
    (hP : QString.contains (Char.ofNat 35) P = true) :
    ∃ v', v.renameSelectedItems naturalCompare (RenameDialog.accepted P errorString) = some v' ∧
      v'.renameCalls = v.renameCalls ++
        ((qSort (lessThan naturalCompare) items).enumFrom 1).filterMap (fun p =>
          if p.2.url.fileName ≠ QString.replace (Char.ofNat 35) (QString.setNum p.1) P then
            some (p.2.url, p.2.url.setFileName
              (QString.replace (Char.ofNat 35) (QString.setNum p.1) P))
          else none) ∧
      (qSort (lessThan naturalCompare) items).Perm items ∧
      ((∀ a b, naturalCompare a b < 0 → ¬ naturalCompare b a < 0) →
        (∀ a b c, ¬ naturalCompare b a < 0 → ¬ naturalCompare c b < 0 →
          ¬ naturalCompare c a < 0) →
        (qSort (lessThan naturalCompare) items).Pairwise
          (fun a b => ¬ naturalCompare b.name a.name < 0)) ∧
      v'.selection = ∅ ∧ v'.selectedItems = some [] ∧ v'.m_selectedItems = [] ∧
      v'.emitted = v.emitted := by
  have hvs : ∃ k model, v.viewSelectionModel = some (k, model) := by
    unfold selectedItems at hitems
    cases hm : v.viewSelectionModel with
    | none => simp [hm] at hitems
    | some km => exact ⟨km.1, km.2, rfl⟩
  obtain ⟨k, model, hm⟩ := hvs
  have hne : P.isEmpty = false := by
    cases h : P.isEmpty with
    | false => rfl
    | true =>
      have := (String.isEmpty_iff P).mp h
      subst this
      simp [QString.contains] at hP
  have hclear : v.clearSelection = some
      { (v.setSelectionModelState k
          (model.setCurrentIndex model.currentIndex SelectionFlags.CurrentClear)) with
        m_selectedItems := [] } := by
    simp [clearSelection, hm]
  have hvs1 : DolphinView.viewSelectionModel
      { (v.setSelectionModelState k
          (model.setCurrentIndex model.currentIndex SelectionFlags.CurrentClear)) with
        m_selectedItems := [] }
      = some (k, model.setCurrentIndex model.currentIndex SelectionFlags.CurrentClear) :=
    viewSelectionModel_setSelectionModelState _ hm
  have hrun : v.renameSelectedItems naturalCompare (RenameDialog.accepted P errorString) = some
      { (renameItems P (qSort (lessThan naturalCompare) items) 1
          { (v.setSelectionModelState k
              (model.setCurrentIndex model.currentIndex SelectionFlags.CurrentClear)) with
            m_selectedItems := [] }) with m_assureVisibleCurrentIndex := true } := by
    unfold renameSelectedItems
    have h1 : ¬ items.length < 1 := by omega
    have h2 : items.length > 1 := by omega
    simp only [hitems, h1, h2, if_false, if_true, hne, Bool.false_eq_true, hclear, hP,
      Bool.not_true]
  rw [renameItems_spec] at hrun
  have hvs' : ∀ (calls : List (KUrl × KUrl)) (flag : Bool), DolphinView.viewSelectionModel
      { ({ ({ (v.setSelectionModelState k
              (model.setCurrentIndex model.currentIndex SelectionFlags.CurrentClear)) with
            m_selectedItems := [] } : DolphinView) with renameCalls := calls } : DolphinView) with
        m_assureVisibleCurrentIndex := flag }
      = some (k, model.setCurrentIndex model.currentIndex SelectionFlags.CurrentClear) :=
    fun _ _ => hvs1
  refine ⟨_, hrun, rfl, qSort_perm _ _, ?_, ?_, ?_, rfl, rfl⟩
  · intro hasymm htrans
    have := qSort_sorted (lessThan naturalCompare)
      (fun a b h => by
        have h' : naturalCompare a.name b.name < 0 := by simpa [lessThan] using h
        simpa [lessThan] using hasymm _ _ h')
      (fun a b c h1 h2 => by
        have h1' : ¬ naturalCompare b.name a.name < 0 := by simpa [lessThan] using h1
        have h2' : ¬ naturalCompare c.name b.name < 0 := by simpa [lessThan] using h2
        simpa [lessThan] using htrans _ _ _ h1' h2')
      items
    refine this.imp ?_
    intro a b h
    simpa [lessThan] using h
  · simp only [selection, hvs' _ _]
    rfl
  · simp only [selectedItems, hvs' _ _]
    have : (model.setCurrentIndex model.currentIndex SelectionFlags.CurrentClear).selection = ∅ :=
      rfl
    simp [this]

/-- C25 at a concrete input: the folder `b` and the file `a` of `/home` are selected (in
this order) and the pattern is `file#`, with names compared by their length and
then by their first character. -/
theorem renameSelectedItems_numbers_witness :
    Example.bothSelected.selectedItems = some [Example.itemB, Example.itemA] ∧
      qSort (lessThan Example.compareNames) [Example.itemB, Example.itemA]
        = [Example.itemA, Example.itemB] ∧
      (qSort (lessThan Example.compareNames) [Example.itemB, Example.itemA]).Pairwise
        (fun a b => ¬ Example.compareNames b.name a.name < 0) ∧
      ∃ v', Example.bothSelected.renameSelectedItems Example.compareNames
          (RenameDialog.accepted "file#" "") = some v' ∧
        v'.renameCalls
          = [(Example.itemA.url, KUrl.path ["home", "file1"] false),
             (Example.itemB.url, KUrl.path ["home", "file2"] false)] ∧
        v'.selectedItems = some [] := by
  obtain ⟨v', h1, h2, -, h4, -, h6, -⟩ :=
    renameSelectedItems_numbers Example.compareNames "file#" ""
      [Example.itemB, Example.itemA] Example.bothSelected (by decide) (by decide) (by decide)
  refine ⟨by decide, by decide, h4 ?_ ?_, v', h1, ?_, h6⟩
  · intro a b
    unfold Example.compareNames
    split_ifs <;> omega
  · intro a b c
    unfold Example.compareNames
    split_ifs <;> omega
  · rw [h2]
    decide

/-- C26: for a pattern that contains the number sign and two different numbers
(positive or not), replacing every number sign by the decimal numeral of the one and of the
other gives two different names; hence the names `renameSelectedItems()` computes
for the items number 1 to `n` are pairwise different. -/
theorem rename_targets_differ (P : String) (i j : Nat)
    (hP : QString.contains (Char.ofNat 35) P = true) (hij : i ≠ j) :
    QString.replace (Char.ofNat 35) (QString.setNum i) P
        ≠ QString.replace (Char.ofNat 35) (QString.setNum j) P ∧
      ∀ n : Nat, ((List.range n).map
        (fun k => QString.replace (Char.ofNat 35) (QString.setNum (k + 1)) P)).Nodup := by
  have key : ∀ a b : Nat, a ≠ b →
      QString.replace (Char.ofNat 35) (QString.setNum a) P
        ≠ QString.replace (Char.ofNat 35) (QString.setNum b) P :=
    fun a b hab => replace_ne P _ _ hP (fun h => hab (setNum_injective a b h))
  refine ⟨key i j hij, fun n => ?_⟩
  refine (List.nodup_range n).map_on ?_
  intro a _ b _ h
  by_contra hne
  exact key (a + 1) (b + 1) (by omega) h

/-- C26 at a concrete input: the pattern `x#y#` with the numbers 1 and 11. -/
theorem rename_targets_differ_witness :
    QString.replace (Char.ofNat 35) (QString.setNum 1) "x#y#" = "x1y1" ∧
      QString.replace (Char.ofNat 35) (QString.setNum 11) "x#y#" = "x11y11" ∧
      QString.replace (Char.ofNat 35) (QString.setNum 1) "x#y#"
        ≠ QString.replace (Char.ofNat 35) (QString.setNum 11) "x#y#" :=
  ⟨by decide, by decide,
    (rename_targets_differ "x#y#" 1 11 (by decide) (by decide)).1⟩

/-- C27: the constructor leaves a view whose proxy model has the categorized flag
`m_storedCategorizedSorting && supportsCategorizedSorting()`; from every ready view
with that property, `setMode(m)`, `setCategorizedSorting(categorized)` called within
its precondition (`categorized` only if the backend supports it) and
`applyViewProperties()` succeed and lead to a ready view with that property again. -/
theorem categorized_flag_in_sync (v : DolphinView) (m : Mode) (categorized : Bool)
    (hr : v.ready = true) (hsync : v.categorizedInSync = true)
    (hpre : categorized = true → v.supportsCategorizedSorting = true) :
    (∀ (url : KUrl) (proxyModel : DolphinSortFilterProxyModel) (store : ViewPropertiesStore)
        (settings : Settings) (zoomLevel : Int) (expanderActive : Bool),
        ∃ c, ctor url proxyModel store settings zoomLevel expanderActive = some c ∧
          c.ready = true ∧
          c.m_viewAccessor.proxyModel.isCategorizedModel
            = (c.m_storedCategorizedSorting && c.supportsCategorizedSorting)) ∧
      (∃ v', v.setMode m = some v' ∧ v'.ready = true ∧
        v'.m_viewAccessor.proxyModel.isCategorizedModel
          = (v'.m_storedCategorizedSorting && v'.supportsCategorizedSorting)) ∧
      (∃ v', v.setCategorizedSorting categorized = some v' ∧ v'.ready = true ∧
        v'.m_viewAccessor.proxyModel.isCategorizedModel
          = (v'.m_storedCategorizedSorting && v'.supportsCategorizedSorting)) ∧
      (∃ v', v.applyViewProperties = some v' ∧ v'.ready = true ∧
        v'.m_viewAccessor.proxyModel.isCategorizedModel
          = (v'.m_storedCategorizedSorting && v'.supportsCategorizedSorting)) := by
  have unfolded : ∀ w : DolphinView, w.categorizedInSync = true →
      w.m_viewAccessor.proxyModel.isCategorizedModel
        = (w.m_storedCategorizedSorting && w.supportsCategorizedSorting) := by
    intro w hw
    simpa [categorizedInSync] using hw
  refine ⟨fun url proxyModel store settings zoomLevel expanderActive => ?_, ?_, ?_, ?_⟩
  · obtain ⟨c, hc, hrc, hs⟩ := ctor_inSync url proxyModel store settings zoomLevel expanderActive
    exact ⟨c, hc, hrc, unfolded c hs⟩
  · obtain ⟨v', h, hr', hs⟩ := setMode_inSync m v hr hsync
    exact ⟨v', h, hr', unfolded v' hs⟩
  · obtain ⟨v', h, hr', hs, -⟩ := setCategorizedSorting_inSync categorized v hr hsync hpre
    exact ⟨v', h, hr', unfolded v' hs⟩
  · by_cases hi : v.m_ignoreViewProperties = true
    · exact ⟨v, by simp [applyViewProperties, hi], hr, unfolded v hsync⟩
    · obtain ⟨v', h, hr', hs⟩ := applyViewProperties_inSync v (ready_prepared hr) (fun _ => hr)
        (by simpa using hi)
      exact ⟨v', h, hr', unfolded v' hs⟩

/-- C27 at a concrete input: the icons view of `/home` with categorized sorting, sent to
the details view, and asked to give up categorized sorting. -/
theorem categorized_flag_in_sync_witness :
    Example.categorized.m_viewAccessor.proxyModel.isCategorizedModel = true ∧
      (∃ v', Example.categorized.setMode Mode.DetailsView = some v' ∧ v'.ready = true ∧
        v'.m_viewAccessor.proxyModel.isCategorizedModel
          = (v'.m_storedCategorizedSorting && v'.supportsCategorizedSorting)) ∧
      (Example.categorized.setMode Mode.DetailsView).map
          (fun w => (w.m_viewAccessor.proxyModel.isCategorizedModel, w.m_storedCategorizedSorting))
        = some (false, true) ∧
      (Example.categorized.setCategorizedSorting false).map
          (fun w => (w.m_viewAccessor.proxyModel.isCategorizedModel, w.m_storedCategorizedSorting))
        = some (false, false) :=
  ⟨by decide,
    (categorized_flag_in_sync Example.categorized Mode.DetailsView false (by decide) (by decide)
      (fun h => Bool.noConfusion h)).2.1,
    by decide, by decide⟩

/-- C28: `statusBarText()` always returns a text: the assertion `folderCount > 0` never
fails.  The text "n Folders selected" of the branch that holds the assertion is
returned only when the list of selected items is not empty, has not exactly one
item and contains folders only; `n` is then the number of selected items. -/
theorem statusBarText_assertion_holds (v : DolphinView) :
    v.statusBarText.isSome = true ∧
      ∀ n, v.statusBarText = some (StatusBarText.foldersSelected n) →
        ∃ list, v.selectedItems = some list ∧ list ≠ [] ∧ list.length ≠ 1 ∧
          (∀ item ∈ list, item.isDir = true) ∧ n = (list.length : Int) ∧ 0 < n := by
  unfold statusBarText
  cases hsel : v.hasSelection with
  | false => simp
  | true =>
    have hvs : ∃ k model, v.viewSelectionModel = some (k, model) := by
      unfold hasSelection at hsel
      cases hm : v.viewSelectionModel with
      | none => simp [hm] at hsel
      | some km => exact ⟨km.1, km.2, rfl⟩
    obtain ⟨k, model, hm⟩ := hvs
    have hitems : ∃ list, v.selectedItems = some list := by
      unfold selectedItems
      rw [hm]
      exact ⟨_, rfl⟩
    obtain ⟨list, hlist⟩ := hitems
    simp only [if_true, hlist]
    cases list with
    | nil => simp
    | cons first rest =>
      have hfold := selected_fold (first :: rest) 0 0 0 (by norm_num)
      have hlen := filter_dir_length (first :: rest)
      obtain ⟨D, hD⟩ : ∃ D, D = ((first :: rest).filter (fun item => item.isDir)).length :=
        ⟨_, rfl⟩
      obtain ⟨F, hF⟩ : ∃ F, F = ((first :: rest).filter (fun item => !item.isDir)).length :=
        ⟨_, rfl⟩
      rw [← hD, ← hF] at hfold
      rw [← hD, ← hF] at hlen
      have hlen' : F + D = rest.length + 1 := by simpa using hlen
      simp only [List.isEmpty_cons, Bool.false_eq_true, if_false, hfold, List.head?_cons,
        zero_add]
      have hdirs : F = 0 → ∀ item ∈ first :: rest, item.isDir = true := by
        intro h0 item hitem
        have hnil : (first :: rest).filter (fun item => !item.isDir) = [] :=
          List.length_eq_zero.mp (by rw [← hF]; exact h0)
        have := (List.filter_eq_nil_iff.mp hnil) item hitem
        simpa using this
      constructor
      · split_ifs <;> first | rfl | (exfalso; omega)
      · intro n hn
        split_ifs at hn with h1 h2 h3 h4 h5 <;>
          simp only [Option.some.injEq, reduceCtorEq, StatusBarText.foldersSelected.injEq] at hn
        have hF0 : F = 0 := by omega
        refine ⟨first :: rest, rfl, by simp, ?_, hdirs hF0, ?_, ?_⟩
        · simp only [List.length_cons]
          omega
        · rw [← hn]
          simp only [List.length_cons]
          push_cast
          omega
        · omega

/-- C28 at a concrete input: with the two folders `b` and `d` selected the branch of the
assertion is taken and the text counts two folders. -/
theorem statusBarText_assertion_holds_witness :
    Example.foldersSelected.statusBarText = some (StatusBarText.foldersSelected 2) ∧
      ∃ list, Example.foldersSelected.selectedItems = some list ∧ list ≠ [] ∧
        list.length ≠ 1 ∧ (∀ item ∈ list, item.isDir = true) ∧
        (2 : Int) = (list.length : Int) ∧ (0 : Int) < 2 :=
  ⟨by decide,
    (statusBarText_assertion_holds Example.foldersSelected).2 2 (by decide)⟩

/-- C29: on a view whose additional-info list is free of duplicates,
`toggleAdditionalInfo` with a checked action leaves a list that contains the value
exactly once (the old list with the value appended when it was absent, the
untouched state when it was present), and with an unchecked action a list without
the value (the old list with the value removed, so the assertion holds; the
untouched state when it was absent).  Both lists are free of duplicates and show
the other values in their old order. -/
theorem toggleAdditionalInfo_keeps_nodup (info : Information) (list : InformationList)
    (v : DolphinView) (hlist : v.additionalInfo = some list) (hnodup : list.Nodup) :
    (∃ v', v.toggleAdditionalInfo info true = some v' ∧
        v'.additionalInfo = some (if info ∈ list then list else list ++ [info]) ∧
        (info ∈ list → v' = v)) ∧
      (if info ∈ list then list else list ++ [info]).count info = 1 ∧
      (if info ∈ list then list else list ++ [info]).Nodup ∧
      (if info ∈ list then list else list ++ [info]).filter (· ≠ info)
        = list.filter (· ≠ info) ∧
      (∃ v', v.toggleAdditionalInfo info false = some v' ∧
        v'.additionalInfo = some (list.filter (· ≠ info)) ∧
        (info ∉ list → v' = v)) ∧
      info ∉ list.filter (· ≠ info) ∧ (list.filter (· ≠ info)).Nodup := by
  have hv : v.m_viewAccessor.itemView.isSome = true := by
    unfold additionalInfo at hlist
    cases h : v.m_viewAccessor.itemView with
    | none => simp [h] at hlist
    | some view => rfl
  by_cases hmem : info ∈ list
  · obtain ⟨e1, e2, e3⟩ := indexOf_of_mem hmem
    have herase : list.erase info = list.filter (· ≠ info) := by
      rw [hnodup.erase_eq_filter info]
      congr 1
      funext x
      by_cases h : x = info <;> simp [bne, h]
    obtain ⟨v2, hs2, hi2, -⟩ := setAdditionalInfo_spec (list.erase info) v hv
    have hassert : QList.indexOf info (list.erase info) < 0 := by
      rw [indexOf_of_not_mem (hnodup.not_mem_erase)]
      decide
    refine ⟨⟨v, ?_, by simp [hmem, hlist], fun _ => rfl⟩, ?_, by simpa [hmem] using hnodup,
      by simp [hmem], ⟨v2, ?_, by rw [hi2, herase], fun h => absurd hmem h⟩, by simp, hnodup.filter _⟩
    · simp [toggleAdditionalInfo, hlist, e2]
    · simp only [hmem, if_true]
      exact List.count_eq_one_of_mem hnodup hmem
    · simp only [toggleAdditionalInfo, hlist, e2, e3, hs2, hassert]
      simp
  · have e1 := indexOf_of_not_mem hmem
    obtain ⟨v1, hs1, hi1, -⟩ := setAdditionalInfo_spec (list ++ [info]) v hv
    have hnd : (list ++ [info]).Nodup := by
      rw [List.nodup_append]
      exact ⟨hnodup, List.nodup_singleton _, by simpa using hmem⟩
    have hfilter : list.filter (· ≠ info) = list := by
      rw [List.filter_eq_self]
      intro a ha
      simpa using fun h : a = info => hmem (h ▸ ha)
    refine ⟨⟨v1, ?_, by simp [hmem, hi1], fun h => absurd h hmem⟩, ?_, by simpa [hmem] using hnd,
      ?_, ⟨v, ?_, by rw [hfilter, hlist], fun _ => rfl⟩, by simp, hnodup.filter _⟩
    · simp [toggleAdditionalInfo, hlist, e1, hs1]
    · simp only [hmem, if_false]
      exact List.count_eq_one_of_mem hnd (by simp)
    · simp [hmem, List.filter_append]
    · simp [toggleAdditionalInfo, hlist, e1]

/-- C29 at a concrete input: in the details view, which shows no additional
information, the size is checked and unchecked again. -/
theorem toggleAdditionalInfo_keeps_nodup_witness :
    Example.details.additionalInfo = some [] ∧
      (∃ v', Example.details.toggleAdditionalInfo Information.Size true = some v' ∧
        v'.additionalInfo = some [Information.Size]) ∧
      ((Example.details.toggleAdditionalInfo Information.Size true).bind
        (toggleAdditionalInfo Information.Size false)).bind additionalInfo = some [] := by
  obtain ⟨⟨v', h1, h2, -⟩, -⟩ :=
    toggleAdditionalInfo_keeps_nodup Information.Size [] Example.details (by decide)
      List.nodup_nil
  exact ⟨by decide, ⟨v', h1, by simpa using h2⟩, by decide⟩

/-- C30: for incoming counters that are `int` values and an incoming size that is a 64-bit
value, `calculateItemCount` adds the number of non-directory items to `fileCount` and
the number of directory items to `folderCount`, both in 32-bit arithmetic, and the
sizes of the non-directory items to `totalFileSize` in 64-bit unsigned arithmetic.
Whenever a sum fits its type the counter holds exactly that sum: the incoming
value plus the number of items of its kind; when both counts fit they grow
together by the number of items.  Nothing is reset: the results are offsets of
the incoming values. -/
theorem calculateItemCount_adds (fileCount folderCount : Int) (totalFileSize : Nat)
    (v : DolphinView)
    (hfile : -2 ^ 31 ≤ fileCount ∧ fileCount < 2 ^ 31)
    (hfolder : -2 ^ 31 ≤ folderCount ∧ folderCount < 2 ^ 31)
    (hsize : totalFileSize < 2 ^ 64) :
    (v.calculateItemCount fileCount folderCount totalFileSize).1
        = wrapInt32 (fileCount
          + ((v.m_viewAccessor.dirLister.items.filter (fun item => !item.isDir)).length : Int)) ∧
      (v.calculateItemCount fileCount folderCount totalFileSize).2.1
        = wrapInt32 (folderCount
          + ((v.m_viewAccessor.dirLister.items.filter (fun item => item.isDir)).length : Int)) ∧
      (v.calculateItemCount fileCount folderCount totalFileSize).2.2
        = (totalFileSize + ((v.m_viewAccessor.dirLister.items.filter
            (fun item => !item.isDir)).map (fun item => item.size)).sum) % 2 ^ 64 ∧
      (fileCount
          + ((v.m_viewAccessor.dirLister.items.filter (fun item => !item.isDir)).length : Int)
          < 2 ^ 31 →
        (v.calculateItemCount fileCount folderCount totalFileSize).1
          = fileCount
            + ((v.m_viewAccessor.dirLister.items.filter
                (fun item => !item.isDir)).length : Int)) ∧
      (folderCount
          + ((v.m_viewAccessor.dirLister.items.filter (fun item => item.isDir)).length : Int)
          < 2 ^ 31 →
        (v.calculateItemCount fileCount folderCount totalFileSize).2.1
          = folderCount
            + ((v.m_viewAccessor.dirLister.items.filter (fun item => item.isDir)).length : Int)) ∧
      (fileCount
          + ((v.m_viewAccessor.dirLister.items.filter (fun item => !item.isDir)).length : Int)
          < 2 ^ 31 →
        folderCount
          + ((v.m_viewAccessor.dirLister.items.filter (fun item => item.isDir)).length : Int)
          < 2 ^ 31 →
        ((v.calculateItemCount fileCount folderCount totalFileSize).1 - fileCount)
            + ((v.calculateItemCount fileCount folderCount totalFileSize).2.1 - folderCount)
          = (v.m_viewAccessor.dirLister.items.length : Int)) ∧
      (totalFileSize + ((v.m_viewAccessor.dirLister.items.filter
          (fun item => !item.isDir)).map (fun item => item.size)).sum < 2 ^ 64 →
        (v.calculateItemCount fileCount folderCount totalFileSize).2.2
          = totalFileSize + ((v.m_viewAccessor.dirLister.items.filter
              (fun item => !item.isDir)).map (fun item => item.size)).sum) := by
  have h := count_fold v.m_viewAccessor.dirLister.items fileCount folderCount totalFileSize
    hfile.1 hfile.2 hfolder.1 hfolder.2 hsize
  have hlen := filter_dir_length v.m_viewAccessor.dirLister.items
  unfold calculateItemCount
  rw [h]
  refine ⟨rfl, rfl, rfl, ?_, ?_, ?_, fun hfit => Nat.mod_eq_of_lt hfit⟩
  · intro hf
    exact wrapInt32_of_fits _ (by omega) hf
  · intro hf
    exact wrapInt32_of_fits _ (by omega) hf
  · intro hf hd
    simp only
    rw [wrapInt32_of_fits _ (by omega) hf, wrapInt32_of_fits _ (by omega) hd]
    omega

/-- C30 at a concrete input: `/home` with the file `a` of size 10 and the folder `b`, and
counters that start at 3, 5 and 7; and the same listing with a file counter that
starts one below the largest `int`. -/
theorem calculateItemCount_adds_witness :
    Example.constructed.calculateItemCount 3 5 7 = (4, 6, 17) ∧
      (Example.constructed.calculateItemCount 2147483646 5 7).1 = 2147483647 := by
  obtain ⟨h1, h2, h3, -⟩ := calculateItemCount_adds 3 5 7 Example.constructed
    (by norm_num) (by norm_num) (by norm_num)
  obtain ⟨-, -, -, h4, -⟩ := calculateItemCount_adds 2147483646 5 7 Example.constructed
    (by norm_num) (by norm_num) (by norm_num)
  have e1 : (Example.constructed.calculateItemCount 3 5 7).1 = 4 := by rw [h1]; decide
  have e2 : (Example.constructed.calculateItemCount 3 5 7).2.1 = 6 := by rw [h2]; decide
  have e3 : (Example.constructed.calculateItemCount 3 5 7).2.2 = 17 := by rw [h3]; decide
  have e4 : (Example.constructed.calculateItemCount 2147483646 5 7).1 = 2147483647 := by
    rw [h4 (by decide)]
    decide
  exact ⟨Prod.ext e1 (Prod.ext e2 e3), e4⟩

end DolphinView

namespace TreeViewSidebarPage

/-! ### The sidebar tree -/

theorem baseUrl_valid (closestPlaceUrl : KUrl → KUrl) (u : KUrl) (hu : u.isValid = true) :
    (baseUrl closestPlaceUrl u).isValid = true := by
  unfold baseUrl
  by_cases h : (closestPlaceUrl u).isValid = true
  · simp [h]
  · simp [h, hu]

theorem shown_iff (p : TreeViewSidebarPage) :
    p.shown = true ↔ ∃ lister model proxy treeView, p.m_dirLister = some lister ∧
      p.m_dolphinModel = some model ∧ p.m_proxyModel = some proxy ∧
      p.m_treeView = some treeView := by
  obtain ⟨u, l, m, x, t, f, n, c⟩ := p
  cases l <;> cases m <;> cases x <;> cases t <;> simp [shown]

theorem unshown_iff (p : TreeViewSidebarPage) :
    p.unshown = true ↔ p.m_dirLister = none ∧ p.m_dolphinModel = none ∧
      p.m_proxyModel = none ∧ p.m_treeView = none := by
  obtain ⟨u, l, m, x, t, f, n, c⟩ := p
  cases l <;> cases m <;> cases x <;> cases t <;> simp [unshown]

/-- On a page with its four objects `loadSubTree()` succeeds; it keeps the lister, the
stored location, the leaf and the number of listers. -/
theorem loadSubTree_shown (p : TreeViewSidebarPage) (h : p.shown = true) :
    ∃ q, p.loadSubTree = some q ∧ q.shown = true ∧ q.listersCreated = p.listersCreated ∧
      q.m_url = p.m_url ∧ q.m_dirLister = p.m_dirLister ∧ q.m_leafDir = p.m_leafDir := by
  obtain ⟨lister, model, proxy, treeView, h1, h2, h3, h4⟩ := (shown_iff p).mp h
  unfold loadSubTree
  simp only [h1, h2, h3, h4]
  split_ifs
  · exact ⟨_, rfl, by simp [shown, call, h1, h2, h3], rfl, rfl, rfl, rfl⟩
  · exact ⟨_, rfl, by simp [shown, call, h1, h2, h3], rfl, rfl, rfl, rfl⟩
  · exact ⟨_, rfl, by simp [shown, call, h1, h2, h3], rfl, rfl, rfl, rfl⟩

/-- On a page with its four objects `loadTree(u)` succeeds; it constructs nothing and
makes `u` the leaf. -/
theorem loadTree_shown (closestPlaceUrl : KUrl → KUrl) (u : KUrl) (p : TreeViewSidebarPage)
    (h : p.shown = true) :
    ∃ q, p.loadTree closestPlaceUrl u = some q ∧ q.shown = true ∧
      q.listersCreated = p.listersCreated ∧ q.m_url = p.m_url ∧ q.m_leafDir = u := by
  obtain ⟨lister, model, proxy, treeView, h1, h2, h3, h4⟩ := (shown_iff p).mp h
  unfold loadTree
  simp only [h1]
  by_cases hne : lister.url ≠ baseUrl closestPlaceUrl u
  · simp only [hne, ne_eq, not_false_eq_true, if_true, call, h4]
    exact ⟨_, rfl, by simp [shown, h2, h3, h4], rfl, rfl, rfl⟩
  · have hs : TreeViewSidebarPage.shown
        ({ p with m_dirLister := some lister, m_leafDir := u } : TreeViewSidebarPage)
        = true := by simp [shown, h2, h3, h4]
    obtain ⟨q, e, e1, e2, e3, -, e5⟩ := loadSubTree_shown _ hs
    obtain ⟨l2, m2, x2, t2, g1, g2, g3, g4⟩ := (shown_iff q).mp e1
    simp only [hne, if_false, e, g4]
    exact ⟨_, rfl, by simp [shown, call, g1, g2, g3, g4], e2, e3, e5⟩

/-- On a page without objects the construction block of `showEvent` succeeds. -/
theorem createTree_unshown (p : TreeViewSidebarPage) (h : p.unshown = true) :
    ∃ q lister, p.createTree = some q ∧ q.shown = true ∧
      q.listersCreated = p.listersCreated + 1 ∧ q.m_url = p.m_url ∧ q.calls = p.calls ∧
      q.m_leafDir = p.m_leafDir ∧ q.m_dirLister = some lister ∧ lister.url = KUrl.empty := by
  obtain ⟨h1, h2, h3, h4⟩ := (unshown_iff p).mp h
  unfold createTree
  simp only [h2, h3, h4, Option.isSome_none, Bool.false_eq_true, if_false]
  exact ⟨_, _, rfl, rfl, rfl, rfl, rfl, rfl, rfl, rfl⟩

/-- The pages reached from a new page: none of the objects and no lister constructed,
or all four objects and one lister constructed. -/
theorem serve_settled (closestPlaceUrl : KUrl → KUrl) (request : Request)
    (p : TreeViewSidebarPage)
    (h : (p.unshown = true ∧ p.listersCreated = 0) ∨ (p.shown = true ∧ p.listersCreated = 1)) :
    ∃ q, p.serve closestPlaceUrl request = some q ∧
      ((q.unshown = true ∧ q.listersCreated = 0) ∨ (q.shown = true ∧ q.listersCreated = 1)) ∧
      q.listersCreated = (if request.isShow || decide (p.listersCreated = 1) then 1 else 0) := by
  cases request with
  | setUrl u =>
    have hcount : ∀ q : TreeViewSidebarPage, q.listersCreated = p.listersCreated →
        q.listersCreated
          = (if (Request.setUrl u).isShow || decide (p.listersCreated = 1) then 1 else 0) := by
      intro q hq
      rcases h with ⟨-, h0⟩ | ⟨-, h1⟩
      · simp [hq, h0, Request.isShow]
      · simp [hq, h1, Request.isShow]
    simp only [serve]
    unfold setUrl
    by_cases hc : (!u.isValid || decide (u = p.url)) = true
    · simp only [hc, if_true]
      exact ⟨p, rfl, h, hcount p rfl⟩
    · simp only [hc, Bool.false_eq_true, if_false]
      rcases h with ⟨hu, h0⟩ | ⟨hs, h1⟩
      · have hn : (p.sidebarPageSetUrl u).m_dirLister = none := ((unshown_iff p).mp hu).1
        simp only [hn, Option.isSome_none, Bool.false_eq_true, if_false]
        exact ⟨_, rfl, Or.inl ⟨hu, h0⟩, hcount _ rfl⟩
      · have hs1 : (p.sidebarPageSetUrl u).shown = true := hs
        obtain ⟨lister, -, -, -, hl, -⟩ := (shown_iff p).mp hs
        have hl1 : (p.sidebarPageSetUrl u).m_dirLister = some lister := hl
        obtain ⟨q, e, e1, e2, -, -⟩ := loadTree_shown closestPlaceUrl u _ hs1
        simp only [hl1, Option.isSome_some, if_true, e]
        exact ⟨q, rfl, Or.inr ⟨e1, e2.trans h1⟩, hcount q e2⟩
  | showEvent spontaneous =>
    cases spontaneous with
    | true =>
      simp only [serve, showEvent, if_true, Request.isShow, Bool.false_or]
      refine ⟨_, rfl, h, ?_⟩
      rcases h with ⟨-, h0⟩ | ⟨-, h1⟩
      · simp [call, h0]
      · simp [call, h1]
    | false =>
      simp only [serve, showEvent, Bool.false_eq_true, if_false, Request.isShow, Bool.true_or,
        if_true]
      rcases h with ⟨hu, h0⟩ | ⟨hs, h1⟩
      · obtain ⟨q, lister, e, e1, e2, -⟩ := createTree_unshown p hu
        obtain ⟨r, f, f1, f2, -, -⟩ := loadTree_shown closestPlaceUrl q.url q e1
        have hn := ((unshown_iff p).mp hu).1
        simp only [hn, Option.isNone_none, if_true, e, f]
        have f3 : r.listersCreated = 1 := by rw [f2, e2, h0]
        exact ⟨_, rfl, Or.inr ⟨f1, f3⟩, f3⟩
      · obtain ⟨lister, -, -, -, hl, -⟩ := (shown_iff p).mp hs
        obtain ⟨r, f, f1, f2, -, -⟩ := loadTree_shown closestPlaceUrl p.url p hs
        simp only [hl, Option.isNone_some, Bool.false_eq_true, if_false, f]
        have f3 : r.listersCreated = 1 := f2.trans h1
        exact ⟨_, rfl, Or.inr ⟨f1, f3⟩, f3⟩

theorem serveAll_settled (closestPlaceUrl : KUrl → KUrl) (requests : List Request) :
    ∀ p : TreeViewSidebarPage,
      ((p.unshown = true ∧ p.listersCreated = 0) ∨ (p.shown = true ∧ p.listersCreated = 1)) →
      ∃ q, p.serveAll closestPlaceUrl requests = some q ∧
        ((q.unshown = true ∧ q.listersCreated = 0) ∨
          (q.shown = true ∧ q.listersCreated = 1)) ∧
        q.listersCreated
          = (if requests.any Request.isShow || decide (p.listersCreated = 1) then 1 else 0) := by
  induction requests with
  | nil =>
    intro p h
    refine ⟨p, rfl, h, ?_⟩
    rcases h with ⟨-, h0⟩ | ⟨-, h1⟩
    · simp [h0]
    · simp [h1]
  | cons request rest ih =>
    intro p h
    obtain ⟨p1, e, hp1, hc⟩ := serve_settled closestPlaceUrl request p h
    obtain ⟨q, f, hq, hd⟩ := ih p1 hp1
    refine ⟨q, ?_, hq, ?_⟩
    · simp only [serveAll, e, f]
    · rw [hd, hc, List.any_cons]
      cases request.isShow <;> cases List.any rest Request.isShow <;>
        by_cases hp : p.listersCreated = 1 <;> simp [hp]

/-- C21: a `TreeViewSidebarPage` has no lister after construction.  While it has none,
`setUrl(u)` with a valid `u` that differs from the stored location only stores `u`,
and a spontaneous show event constructs nothing.  The first non-spontaneous show
event constructs the lister, once, and loads the tree for the stored location:
that location becomes the leaf, and when it is valid the new lister is stopped and
opened at the root computed for it, and the name column is resized.  A later non-spontaneous show event constructs
nothing.  Whatever requests a new page serves, they all succeed, and the number of
listers constructed is one when a non-spontaneous show event was among them and
zero otherwise.  `setUrl` with an invalid location or with the stored location
changes nothing. -/
theorem lister_created_on_first_show (closestPlaceUrl : KUrl → KUrl) (u : KUrl)
    (p : TreeViewSidebarPage) (requests : List Request) :
    ctor.m_dirLister = none ∧ ctor.listersCreated = 0 ∧
      (p.m_dirLister = none → u.isValid = true → u ≠ p.url →
        p.setUrl closestPlaceUrl u = some { p with m_url := u }) ∧
      p.showEvent closestPlaceUrl true
        = some { p with calls := p.calls ++ [SidebarCall.showEvent true] } ∧
      (p.unshown = true →
        ∃ q lister, p.showEvent closestPlaceUrl false = some q ∧ q.m_dirLister = some lister ∧
          q.listersCreated = p.listersCreated + 1 ∧ q.url = p.url ∧ q.m_leafDir = p.url ∧
          (p.url.isValid = true →
            lister.url = baseUrl closestPlaceUrl p.url ∧
            q.calls = p.calls ++ [SidebarCall.stop,
              SidebarCall.openUrl (baseUrl closestPlaceUrl p.url) true,
              SidebarCall.resizeColumnToContents, SidebarCall.showEvent false])) ∧
      (p.shown = true →
        ∃ q, p.showEvent closestPlaceUrl false = some q ∧ q.m_dirLister.isSome = true ∧
          q.listersCreated = p.listersCreated ∧ q.url = p.url ∧ q.m_leafDir = p.url) ∧
      (∃ q, ctor.serveAll closestPlaceUrl requests = some q ∧
        q.listersCreated = (if requests.any Request.isShow then 1 else 0) ∧
        q.m_dirLister.isSome = requests.any Request.isShow) ∧
      (u.isValid = false ∨ u = p.url → p.setUrl closestPlaceUrl u = some p) := by
  refine ⟨rfl, rfl, ?_, rfl, ?_, ?_, ?_, ?_⟩
  · intro hn hu hne
    unfold setUrl
    simp [hu, hne, sidebarPageSetUrl, hn]
  · intro hun
    obtain ⟨q1, lister, e, e1, e2, e3, e4, e5, e6, e7⟩ := createTree_unshown p hun
    have hn := ((unshown_iff p).mp hun).1
    have hurl : q1.url = p.url := e3
    by_cases hv : p.url.isValid = true
    · have hb := baseUrl_valid closestPlaceUrl p.url hv
      have hne : lister.url ≠ baseUrl closestPlaceUrl p.url := by
        rw [e7]
        intro h
        rw [← h] at hb
        simp [KUrl.isValid] at hb
      refine ⟨{ q1 with
          m_leafDir := p.url,
          m_dirLister := some (lister.openUrl (baseUrl closestPlaceUrl p.url)),
          calls := q1.calls ++ [SidebarCall.stop,
            SidebarCall.openUrl (baseUrl closestPlaceUrl p.url) true,
            SidebarCall.resizeColumnToContents, SidebarCall.showEvent false] },
        lister.openUrl (baseUrl closestPlaceUrl p.url), ?_, rfl, e2, e3, rfl, ?_⟩
      · obtain ⟨l1, m1, x1, t1, -, -, -, g4⟩ := (shown_iff q1).mp e1
        simp only [showEvent, Bool.false_eq_true, if_false, hn, Option.isNone_none, if_true, e,
          loadTree, e6, hurl, hne, ne_eq, not_false_eq_true, call, g4, List.append_assoc,
          List.singleton_append, List.cons_append, List.nil_append]
      · intro _
        refine ⟨by simp [TreeDirLister.openUrl, hb], ?_⟩
        simp [e4]
    · obtain ⟨r, f, f1, f2, f3, f4⟩ := loadTree_shown closestPlaceUrl q1.url q1 e1
      obtain ⟨l2, -, -, -, hl2, -⟩ := (shown_iff r).mp f1
      refine ⟨r.call (SidebarCall.showEvent false), l2, ?_, hl2, f2.trans e2, f3.trans e3,
        f4.trans hurl, fun h => absurd h hv⟩
      simp only [showEvent, Bool.false_eq_true, if_false, hn, Option.isNone_none, if_true, e, f]
  · intro hs
    obtain ⟨lister, -, -, -, hl, -⟩ := (shown_iff p).mp hs
    obtain ⟨r, f, f1, f2, f3, f4⟩ := loadTree_shown closestPlaceUrl p.url p hs
    obtain ⟨l2, -, -, -, hl2, -⟩ := (shown_iff r).mp f1
    refine ⟨r.call (SidebarCall.showEvent false), ?_, by simp [call, hl2], f2, f3, f4⟩
    simp only [showEvent, Bool.false_eq_true, if_false, hl, Option.isNone_some, f]
  · obtain ⟨q, e, hq, hc⟩ := serveAll_settled closestPlaceUrl requests ctor (Or.inl ⟨rfl, rfl⟩)
    have hc1 : q.listersCreated = (if requests.any Request.isShow then 1 else 0) := by
      rw [hc]
      simp [ctor]
    refine ⟨q, e, hc1, ?_⟩
    rcases hq with ⟨hu, h0⟩ | ⟨hs, h1⟩
    · rw [((unshown_iff q).mp hu).1]
      rw [h0] at hc1
      cases ha : requests.any Request.isShow
      · rfl
      · simp [ha] at hc1
    · obtain ⟨lister, -, -, -, hl, -⟩ := (shown_iff q).mp hs
      rw [hl]
      rw [h1] at hc1
      cases ha : requests.any Request.isShow
      · simp [ha] at hc1
      · rfl
  · intro h
    unfold setUrl
    rcases h with h | h
    · simp [h]
    · simp [h]

/-- C21 at a concrete input: a page without objects that mirrors `/home`.  `setUrl(/tmp)`
only stores the location; the first show event constructs the lister and opens it
at `/home`.  A new page that is sent to `/tmp` and to `/home`, gets a spontaneous show
event, its first show event, then `/tmp` and a second show event, has constructed
one lister. -/
theorem lister_created_on_first_show_witness :
    ({ ctor with m_url := Example.home } : TreeViewSidebarPage).unshown = true ∧
      Example.tmp.isValid = true ∧
      TreeViewSidebarPage.setUrl Example.homePlace Example.tmp
          ({ ctor with m_url := Example.home } : TreeViewSidebarPage)
        = some { ctor with m_url := Example.tmp } ∧
      (∃ q lister, TreeViewSidebarPage.showEvent Example.homePlace false
            ({ ctor with m_url := Example.home } : TreeViewSidebarPage) = some q ∧
          q.m_dirLister = some lister ∧ q.listersCreated = 1 ∧ q.m_leafDir = Example.home ∧
          lister.url = Example.home ∧
          q.calls = [SidebarCall.stop, SidebarCall.openUrl Example.home true,
            SidebarCall.resizeColumnToContents, SidebarCall.showEvent false]) ∧
      ∃ q, ctor.serveAll Example.homePlace
          [Request.setUrl Example.tmp, Request.setUrl Example.home, Request.showEvent true,
            Request.showEvent false, Request.setUrl Example.tmp, Request.showEvent false]
          = some q ∧
        q.listersCreated = 1 ∧ q.m_dirLister.isSome = true := by
  have h := lister_created_on_first_show Example.homePlace Example.tmp
    ({ ctor with m_url := Example.home } : TreeViewSidebarPage)
    [Request.setUrl Example.tmp, Request.setUrl Example.home, Request.showEvent true,
      Request.showEvent false, Request.setUrl Example.tmp, Request.showEvent false]
  obtain ⟨q, lister, e1, e2, e3, -, e5, e6⟩ := h.2.2.2.2.1 (by decide)
  obtain ⟨e7, e8⟩ := e6 (by decide)
  exact ⟨by decide, by decide, h.2.2.1 rfl (by decide) (by decide),
    ⟨q, lister, e1, e2, e3, e5, e7, e8⟩, h.2.2.2.2.2.2.1⟩

/-- C22 (as stated, refuted): the tree is rooted at `/home`, the closest place of `/home`,
and its model holds the folder `/home/b` but no entry for `/home` itself.
`loadTree(/home)` finds the lister at the root, does not restart it and runs
`loadSubTree()`, which returns after it has cleared the selection and resized the
name column: nothing is selected and the model is not asked to expand to the
leaf; `loadTree` resizes the column once more. -/
theorem loadTree_root_leaf_example :
    Example.sidebarListed.shown = true ∧
      Example.sidebarListed.m_dirLister.map (fun l => (l.url, l.items))
        = some (Example.home, [Example.itemB]) ∧
      baseUrl Example.homePlace Example.home = Example.home ∧
      findRow Example.home [Example.itemB] = none ∧
      (Example.sidebarListed.loadTree Example.homePlace Example.home).map
          (fun q => (q.m_leafDir, q.calls, q.m_treeView.map (fun t => t.selectionModel)))
        = some (Example.home,
            Example.sidebarListed.calls
              ++ [SidebarCall.resizeColumnToContents, SidebarCall.resizeColumnToContents],
            some ⟨∅, none⟩) := by
  refine ⟨by decide, by decide, by decide, by decide, by decide⟩

/-- C22 (amended): on a page with its four objects `loadTree(u)` succeeds and makes `u` the
leaf; the root is the location of the closest place, or `u` when that is invalid.
When the location of the lister differs from the root, the lister is stopped and
opened at the root with a reload, the name column is resized and nothing else
happens: `loadSubTree()` is not run.  When it is the root, the lister is neither
stopped nor opened and `loadSubTree()` runs, after which the name column is
resized: `loadSubTree()` clears the selection; when the leaf is the location of the
lister or a parent of it, it does nothing more than resizing the column;
otherwise it selects the leaf and makes it current when the leaf is in the model,
and asks the model to expand to the leaf when it is not. -/
theorem loadTree_restarts_or_selects (closestPlaceUrl : KUrl → KUrl) (u : KUrl)
    (p : TreeViewSidebarPage) (lister : TreeDirLister) (model : TreeDolphinModel)
    (proxy : TreeProxyModel) (treeView : SidebarTreeView)
    (h1 : p.m_dirLister = some lister) (h2 : p.m_dolphinModel = some model)
    (h3 : p.m_proxyModel = some proxy) (h4 : p.m_treeView = some treeView) :
    baseUrl closestPlaceUrl u
        = (if (closestPlaceUrl u).isValid then closestPlaceUrl u else u) ∧
      (lister.url ≠ baseUrl closestPlaceUrl u →
        p.loadTree closestPlaceUrl u
          = some { p with
              m_leafDir := u,
              m_dirLister := some (lister.openUrl (baseUrl closestPlaceUrl u)),
              calls := p.calls ++ [SidebarCall.stop,
                SidebarCall.openUrl (baseUrl closestPlaceUrl u) true,
                SidebarCall.resizeColumnToContents] }) ∧
      (lister.url = baseUrl closestPlaceUrl u →
        p.loadTree closestPlaceUrl u
            = (TreeViewSidebarPage.loadSubTree
                ({ p with m_leafDir := u } : TreeViewSidebarPage)).map
              (call SidebarCall.resizeColumnToContents) ∧
        (u.isParentOf lister.url = true →
          p.loadTree closestPlaceUrl u
            = some { p with
                m_leafDir := u,
                m_treeView := some { treeView with selectionModel :=
                  ⟨∅, treeView.selectionModel.currentIndex⟩ },
                calls := p.calls ++ [SidebarCall.resizeColumnToContents,
                  SidebarCall.resizeColumnToContents] }) ∧
        (u.isParentOf lister.url = false →
          ∀ row, findRow u lister.items = some row →
          p.loadTree closestPlaceUrl u
            = some { p with
                m_leafDir := u,
                m_treeView := some { treeView with selectionModel :=
                  ⟨QItemSelection.range (proxy.mapFromSource (some (row, 0)))
                      (proxy.mapFromSource (some (row, 0))),
                    proxy.mapFromSource (some (row, 0))⟩ },
                calls := p.calls ++ [SidebarCall.scrollTo (proxy.mapFromSource (some (row, 0))),
                  SidebarCall.resizeColumnToContents, SidebarCall.resizeColumnToContents] }) ∧
        (u.isParentOf lister.url = false → findRow u lister.items = none →
          p.loadTree closestPlaceUrl u
            = some { p with
                m_leafDir := u,
                m_treeView := some { treeView with selectionModel :=
                  ⟨∅, treeView.selectionModel.currentIndex⟩ },
                calls := p.calls ++ [SidebarCall.expandToUrl u,
                  SidebarCall.resizeColumnToContents, SidebarCall.resizeColumnToContents] })) := by
  refine ⟨?_, ?_, ?_⟩
  · unfold baseUrl
    cases (closestPlaceUrl u).isValid <;> rfl
  · intro hne
    unfold loadTree
    simp only [h1, h4, hne, ne_eq, not_false_eq_true, if_true, call, List.append_assoc,
      List.singleton_append, List.cons_append, List.nil_append]
  · intro heq
    have hsub : ∀ q, TreeViewSidebarPage.loadSubTree
          ({ p with m_leafDir := u } : TreeViewSidebarPage) = some q →
        (∃ t, q.m_treeView = some t) →
        p.loadTree closestPlaceUrl u = some (q.call SidebarCall.resizeColumnToContents) := by
      intro q hq ht
      obtain ⟨t, ht⟩ := ht
      simp only [h1] at hq
      unfold loadTree
      simp only [h1, heq, ne_eq, not_true_eq_false, if_false, hq, ht]
    have hp1 : ∃ q, TreeViewSidebarPage.loadSubTree
        ({ p with m_leafDir := u } : TreeViewSidebarPage) = some q ∧ q.shown = true := by
      have hs : TreeViewSidebarPage.shown ({ p with m_leafDir := u } : TreeViewSidebarPage)
          = true := by simp [shown, h1, h2, h3, h4]
      obtain ⟨q, e, e1, -⟩ := loadSubTree_shown _ hs
      exact ⟨q, e, e1⟩
    refine ⟨?_, ?_, ?_, ?_⟩
    · obtain ⟨q, e, e1⟩ := hp1
      obtain ⟨-, -, -, t, -, -, -, g4⟩ := (shown_iff q).mp e1
      rw [hsub q e ⟨t, g4⟩, e]
      rfl
    · intro hp
      have e : TreeViewSidebarPage.loadSubTree ({ p with m_leafDir := u } : TreeViewSidebarPage)
          = some { p with
              m_leafDir := u,
              m_treeView := some { treeView with selectionModel :=
                ⟨∅, treeView.selectionModel.currentIndex⟩ },
              calls := p.calls ++ [SidebarCall.resizeColumnToContents] } := by
        unfold loadSubTree
        simp only [h1, h4, hp, if_true, call, QItemSelectionModel.clearSelection]
      rw [hsub _ e ⟨_, rfl⟩]
      simp [call]
    · intro hp row hrow
      have e : TreeViewSidebarPage.loadSubTree ({ p with m_leafDir := u } : TreeViewSidebarPage)
          = some { p with
              m_leafDir := u,
              m_treeView := some { treeView with selectionModel :=
                ⟨QItemSelection.range (proxy.mapFromSource (some (row, 0)))
                    (proxy.mapFromSource (some (row, 0))),
                  proxy.mapFromSource (some (row, 0))⟩ },
              calls := p.calls ++ [SidebarCall.scrollTo (proxy.mapFromSource (some (row, 0))),
                SidebarCall.resizeColumnToContents] } := by
        unfold loadSubTree
        simp only [h1, h2, h3, h4, hp, hrow, Bool.false_eq_true, if_false, Option.map_some',
          Option.isSome_some, if_true, call, QItemSelectionModel.clearSelection,
          QItemSelectionModel.setCurrentIndex, QItemSelectionModel.select,
          SelectionFlags.Select, List.append_assoc, List.singleton_append,
          Finset.empty_union]
      rw [hsub _ e ⟨_, rfl⟩]
      simp [call]
    · intro hp hrow
      have e : TreeViewSidebarPage.loadSubTree ({ p with m_leafDir := u } : TreeViewSidebarPage)
          = some { p with
              m_leafDir := u,
              m_treeView := some { treeView with selectionModel :=
                ⟨∅, treeView.selectionModel.currentIndex⟩ },
              calls := p.calls ++ [SidebarCall.expandToUrl u,
                SidebarCall.resizeColumnToContents] } := by
        unfold loadSubTree
        simp only [h1, h2, h4, hp, hrow, Bool.false_eq_true, if_false, Option.map_none',
          Option.isSome_none, call, QItemSelectionModel.clearSelection, List.append_assoc,
          List.singleton_append]
      rw [hsub _ e ⟨_, rfl⟩]
      simp [call]

/-- C22 (amended) at a concrete input: the tree rooted at `/home` that holds `/home/b`;
`loadTree(/tmp)` restarts the lister at `/tmp`, `loadTree(/home/b)` selects the row of
the folder. -/
theorem loadTree_restarts_or_selects_witness :
    (Example.sidebarListed.loadTree Example.homePlace Example.tmp).map
        (fun q => (q.m_leafDir, q.m_dirLister.map (fun l => l.url), q.calls))
      = some (Example.tmp, some Example.tmp,
          Example.sidebarListed.calls
            ++ [SidebarCall.stop, SidebarCall.openUrl Example.tmp true,
              SidebarCall.resizeColumnToContents]) ∧
      (Example.sidebarListed.loadTree Example.homePlace Example.itemB.url).map
        (fun q => (q.m_leafDir, q.m_dirLister.map (fun l => l.url), q.calls,
          q.m_treeView.map (fun t => t.selectionModel)))
      = some (Example.itemB.url, some Example.home,
          Example.sidebarListed.calls
            ++ [SidebarCall.scrollTo (some (0, 0)), SidebarCall.resizeColumnToContents,
              SidebarCall.resizeColumnToContents],
          some ⟨{(0, 0)}, some (0, 0)⟩) := by
  have ht := loadTree_restarts_or_selects Example.homePlace Example.tmp Example.sidebarListed
    ⟨Example.home, [Example.itemB], true, true, true, false, [SidebarSlot.triggerLoadSubTree]⟩
    ⟨true, [SidebarSlot.triggerExpanding]⟩
    ⟨[0], Sorting.SortByName, SortOrder.AscendingOrder⟩
    ⟨⟨∅, none⟩, [SidebarSlot.updateActiveView], [SidebarSlot.dropUrls]⟩
    (by decide) (by decide) (by decide) (by decide)
  have hb := loadTree_restarts_or_selects Example.homePlace Example.itemB.url
    Example.sidebarListed
    ⟨Example.home, [Example.itemB], true, true, true, false, [SidebarSlot.triggerLoadSubTree]⟩
    ⟨true, [SidebarSlot.triggerExpanding]⟩
    ⟨[0], Sorting.SortByName, SortOrder.AscendingOrder⟩
    ⟨⟨∅, none⟩, [SidebarSlot.updateActiveView], [SidebarSlot.dropUrls]⟩
    (by decide) (by decide) (by decide) (by decide)
  refine ⟨?_, ?_⟩
  · rw [ht.2.1 (by decide)]
    decide
  · rw [(hb.2.2 (by decide)).2.2.1 (by decide) 0 (by decide)]
    decide

end TreeViewSidebarPage

end Dolphin
